import Mathlib

/-!
# chatclipper: keyword matcher, chat buffer, spike detector, scoring, clip detector

Shallow embedding of `src/core/keyword_matcher.cpp` (class `KeywordMatcher`),
of `setupDefaultKeywords` from `main.cpp`, of `src/core/chat_buffer.cpp`
(class `ChatBuffer`), of `src/core/spike_detector.cpp` (class `SpikeDetector`),
of `src/scoring_engine.cpp` (class `ScoringEngine`) and of
`src/clip_detector.cpp` (class `ClipDetector`).

Modelling conventions
* a `std::string` is the list of its code units (`Str`); a code unit is a
  natural number, the value of the byte;
* `std::isalnum` / `std::tolower` are the "C" locale ones (the program never
  changes the locale): only the ASCII ranges `0-9`, `A-Z`, `a-z` are
  alphanumeric, only `A-Z` is changed by `tolower`;
* `int` is modelled by `Nat` (string sizes are far below `2^31`);
* `double` is modelled by exact rational arithmetic (`ℚ`);
* `std::unordered_map<std::string, std::string>` is modelled by an
  association list with unique keys (`StrMap`), `operator[]=` being
  insert-or-overwrite;
* `std::chrono::milliseconds` / `std::chrono::seconds` are integer counts
  (`Int`), `duration_cast<milliseconds>` of seconds multiplies by `1000`;
* every reading of the wall clock (`getCurrentTime()`) is an explicit
  argument of the operation that takes it;
* `std::deque` is a list, `push_back` appends, `pop_front` drops the head;
* a `const` member function is a function of the state that returns no new
  state;
* the library function `std::sqrt` is an explicit argument `sqrt : ℚ → ℚ` of the
  operations that call it;
* the collaborators a `ClipDetector` points to (`KeywordMatcher`,
  `ScoringEngine`) are fields of its state; the event handed to the clip
  callback is returned by the operation that builds it;
* a range-`for` over a `std::unordered_map` visits the entries in the order of
  the association list.
-/

namespace chatclipper

/-- Code units of a `std::string`. -/
abbrev Str := List Nat

/-- Code units of an ASCII literal (for ASCII text, code points are bytes). -/
def ascii (s : String) : Str := s.toList.map Char.toNat

/-- `std::isalnum` in the "C" locale. -/
def isalnum (c : Nat) : Bool :=
  (48 ≤ c && c ≤ 57) || (65 ≤ c && c ≤ 90) || (97 ≤ c && c ≤ 122)

/-- `std::tolower` in the "C" locale. -/
def tolower (c : Nat) : Nat :=
  if 65 ≤ c ∧ c ≤ 90 then c + 32 else c

/-- Body of the first loop of `KeywordMatcher::normalize`. -/
def filterStep (result : Str) (c : Nat) : Str :=
  if isalnum c then result ++ [tolower c] else result

/-- First loop of `KeywordMatcher::normalize`: append the lower-cased
alphanumeric code units to `result`. -/
def normalizeFilter (text : Str) : Str :=
  text.foldl filterStep []

/-- Body of the second loop of `KeywordMatcher::normalize`; the state is
`(deduped, prev)`. -/
def dedupStep (st : Str × Nat) (c : Nat) : Str × Nat :=
  if c ≠ st.2 then (st.1 ++ [c], c) else st

/-- Second loop of `KeywordMatcher::normalize`, `prev` starting at the NUL
character. -/
def normalizeDedup (result : Str) : Str × Nat :=
  result.foldl dedupStep ([], 0)

/-- `KeywordMatcher::normalize`. -/
def normalize (text : Str) : Str :=
  let result := normalizeFilter text
  (normalizeDedup result).1

/-- The `std::vector<std::vector<int>>` table of `levenshteinDistance`. -/
abbrev Table := List (List Nat)

/-- Read `dp[i][j]`. -/
def Table.get (dp : Table) (i j : Nat) : Nat := (dp.getD i []).getD j 0

/-- Write `dp[i][j] = v`. -/
def Table.set (dp : Table) (i j v : Nat) : Table :=
  List.set dp i (List.set (dp.getD i []) j v)

/-- Body of the inner loop of `levenshteinDistance` at `(i, j)`. -/
def levCell (a b : Str) (i : Nat) (dp : Table) (j : Nat) : Table :=
  let cost := if a.getD (i - 1) 0 = b.getD (j - 1) 0 then 0 else 1
  dp.set i j (min (min (dp.get (i - 1) j + 1) (dp.get i (j - 1) + 1))
    (dp.get (i - 1) (j - 1) + cost))

/-- Body of the outer loop of `levenshteinDistance`: fill row `i`. -/
def levRow (a b : Str) (dp : Table) (i : Nat) : Table :=
  (List.range' 1 b.length).foldl (levCell a b i) dp

/-- The table of `levenshteinDistance` after all its loops. -/
def levTable (a b : Str) : Table :=
  let m := a.length
  let n := b.length
  let dp : Table := List.replicate (m + 1) (List.replicate (n + 1) 0)
  let dp := (List.range (m + 1)).foldl (fun dp i => dp.set i 0 i) dp
  let dp := (List.range (n + 1)).foldl (fun dp j => dp.set 0 j j) dp
  (List.range' 1 m).foldl (levRow a b) dp

/-- `KeywordMatcher::levenshteinDistance`. -/
def levenshteinDistance (a b : Str) : Nat :=
  (levTable a b).get a.length b.length

/-- `KeywordMatcher::calculateSimilarity`. -/
def calculateSimilarity (a b : Str) : ℚ :=
  if a.isEmpty && b.isEmpty then 1
  else if a.isEmpty || b.isEmpty then 0
  else
    let normA := normalize a
    let normB := normalize b
    let distance := levenshteinDistance normA normB
    let maxLen := max normA.length normB.length
    if maxLen = 0 then 1 else 1 - (distance : ℚ) / (maxLen : ℚ)

/-- `struct KeywordCategory`. -/
structure KeywordCategory where
  name : Str
  keywords : List Str
  weight : ℚ

/-- Data members of `class KeywordMatcher`. -/
structure KeywordMatcher where
  categories_ : List KeywordCategory
  similarity_threshold_ : ℚ

/-- Model of `std::unordered_map<std::string, std::string>`. -/
abbrev StrMap := List (Str × Str)

/-- `m.find(key)`: the mapped value, if any. -/
def StrMap.find (m : StrMap) (key : Str) : Option Str :=
  match m with
  | [] => none
  | (k, v) :: rest => if k = key then some v else StrMap.find rest key

/-- `m[key] = value`: overwrite the mapped value or insert a new entry. -/
def StrMap.assign (m : StrMap) (key value : Str) : StrMap :=
  match m with
  | [] => [(key, value)]
  | (k, v) :: rest =>
    if k = key then (k, value) :: rest else (k, v) :: StrMap.assign rest key value

/-- Body of the keyword loop of `KeywordMatcher::match`; the state is
`(best_score, best_match)`. -/
def matchStep (threshold : ℚ) (normalized_msg : Str) (st : ℚ × Str) (keyword : Str) :
    ℚ × Str :=
  let similarity := calculateSimilarity normalized_msg (normalize keyword)
  if similarity > st.1 ∧ similarity ≥ threshold then (similarity, keyword) else st

/-- Keyword loop of `KeywordMatcher::match` for one category. -/
def bestKeyword (threshold : ℚ) (normalized_msg : Str) (keywords : List Str) : ℚ × Str :=
  keywords.foldl (matchStep threshold normalized_msg) (0, [])

/-- Body of the category loop of `KeywordMatcher::match`. -/
def matchCategory (threshold : ℚ) (normalized_msg : Str) (results : StrMap)
    (category : KeywordCategory) : StrMap :=
  let best := bestKeyword threshold normalized_msg category.keywords
  if !best.2.isEmpty then results.assign category.name best.2 else results

/-- `KeywordMatcher::match`. -/
def KeywordMatcher.match_ (self : KeywordMatcher) (message : Str) : StrMap :=
  let normalized_msg := normalize message
  self.categories_.foldl (matchCategory self.similarity_threshold_ normalized_msg) []

/-- `KeywordMatcher::getCategoryScore`. -/
def KeywordMatcher.getCategoryScore (self : KeywordMatcher) (message category_name : Str) : ℚ :=
  let results := self.match_ message
  match results.find category_name with
  | some k => calculateSimilarity (normalize message) (normalize k)
  | none => 0

/-- `KeywordMatcher::addCategory`. -/
def KeywordMatcher.addCategory (self : KeywordMatcher) (category : KeywordCategory) :
    KeywordMatcher :=
  { self with categories_ := self.categories_ ++ [category] }

/-- `KeywordMatcher::setThreshold`. -/
def KeywordMatcher.setThreshold (self : KeywordMatcher) (threshold : ℚ) : KeywordMatcher :=
  { self with similarity_threshold_ := threshold }

/-- `setupDefaultKeywords` of `main.cpp`. -/
def setupDefaultKeywords (matcher : KeywordMatcher) : KeywordMatcher :=
  let wins : KeywordCategory :=
    { name := ascii "wins"
      keywords := ["W", "pog", "clutch", "insane", "ez", "gg", "wp"].map ascii
      weight := 1 }
  let matcher := matcher.addCategory wins
  let losses : KeywordCategory :=
    { name := ascii "losses"
      keywords := ["L", "ff", "sad", "rip", "unlucky", "oof"].map ascii
      weight := 1 }
  let matcher := matcher.addCategory losses
  let hype : KeywordCategory :=
    { name := ascii "hype"
      keywords := ["OMEGALUL", "KEKW", "PogChamp", "monkaS", "OMEGALUL", "LUL"].map ascii
      weight := 4 / 5 }
  matcher.addCategory hype

/-- The matcher `KeywordMatcher matcher;` (default threshold `0.8`, no category). -/
def defaultMatcher : KeywordMatcher :=
  { categories_ := [], similarity_threshold_ := 4 / 5 }

/-! ## Reference definitions (written from the specification) -/

/-- Reference: an ASCII letter or digit. -/
def isAsciiLetterOrDigit (c : Nat) : Prop :=
  (48 ≤ c ∧ c ≤ 57) ∨ (65 ≤ c ∧ c ≤ 90) ∨ (97 ≤ c ∧ c ≤ 122)

instance : DecidablePred isAsciiLetterOrDigit := fun c => by
  unfold isAsciiLetterOrDigit; infer_instance

/-- Reference: a character of `[a-z0-9]`. -/
def isLowerOrDigit (c : Nat) : Prop :=
  (48 ≤ c ∧ c ≤ 57) ∨ (97 ≤ c ∧ c ≤ 122)

instance : DecidablePred isLowerOrDigit := fun c => by
  unfold isLowerOrDigit; infer_instance

/-- Reference: case-fold an ASCII character to lowercase. -/
def asciiLower (c : Nat) : Nat :=
  if 65 ≤ c ∧ c ≤ 90 then c + 32 else c

/-- Reference: collapse every run of equal adjacent characters to one. -/
def collapseRuns : Str → Str
  | [] => []
  | [c] => [c]
  | c :: d :: rest =>
    if c = d then collapseRuns (d :: rest) else c :: collapseRuns (d :: rest)

/-- Reference normalizer: keep letters and digits, lowercase, collapse runs. -/
def normalizeRef (s : Str) : Str :=
  collapseRuns ((s.filter (fun c => decide (isAsciiLetterOrDigit c))).map asciiLower)

/-- Reference: Levenshtein edit distance with unit-cost insertion, deletion
and substitution, by recursion on the two strings. -/
def editDistance : Str → Str → Nat
  | [], ys => ys.length
  | xs, [] => xs.length
  | x :: xs, y :: ys =>
    min (min (editDistance xs (y :: ys) + 1) (editDistance (x :: xs) ys + 1))
      (editDistance xs ys + (if x = y then 0 else 1))

/-! ## Auxiliary definitions used in the proofs -/

/-- Deduplication against a previous character, as a structural recursion. -/
def dedupFrom (prev : Nat) : Str → Str
  | [] => []
  | c :: rest => if c ≠ prev then c :: dedupFrom c rest else dedupFrom prev rest

/-- Distance between the prefixes of length `i` of `a` and `j` of `b`. -/
def prefixDistance (a b : Str) (i j : Nat) : Nat :=
  editDistance (a.take i) (b.take j)

/-- The table has `m + 1` rows of `n + 1` cells. -/
def Table.Sized (dp : Table) (m n : Nat) : Prop :=
  dp.length = m + 1 ∧ ∀ i, i ≤ m → (dp.getD i []).length = n + 1

/-- The cells of `dp` selected by `done` hold the prefix distances. -/
def Table.Filled (a b : Str) (dp : Table) (done : Nat → Nat → Prop) : Prop :=
  dp.Sized a.length b.length ∧
    ∀ i j, i ≤ a.length → j ≤ b.length → done i j → dp.get i j = prefixDistance a b i j

/-! ## Chat buffer (`chat_buffer.cpp`) -/

/-- `struct ChatMessage`; the timestamp is in milliseconds. -/
structure ChatMessage where
  timestamp : Int
  username : Str
  content : Str
deriving DecidableEq

/-- Data members of `class ChatBuffer`; `max_duration_` is in seconds. -/
structure ChatBuffer where
  buffer_ : List ChatMessage
  max_duration_ : Int
  sum_ : ℚ
  sum_sq_ : ℚ

/-- `ChatBuffer::ChatBuffer(max_duration)`. -/
def ChatBuffer.create (max_duration : Int) : ChatBuffer :=
  { buffer_ := [], max_duration_ := max_duration, sum_ := 0, sum_sq_ := 0 }

/-- The `while` loop of `ChatBuffer::cleanup`: pop the front while it is older
than `cutoff`. -/
def ChatBuffer.cleanupLoop (cutoff : Int) : List ChatMessage → List ChatMessage
  | [] => []
  | m :: rest => if m.timestamp < cutoff then ChatBuffer.cleanupLoop cutoff rest else m :: rest

/-- `ChatBuffer::cleanup`; `now` is the reading of the clock. -/
def ChatBuffer.cleanup (self : ChatBuffer) (now : Int) : ChatBuffer :=
  let cutoff := now - self.max_duration_ * 1000
  { self with buffer_ := ChatBuffer.cleanupLoop cutoff self.buffer_ }

/-- `ChatBuffer::addMessage`; `now` is the reading of the clock in `cleanup`. -/
def ChatBuffer.addMessage (self : ChatBuffer) (now : Int) (msg : ChatMessage) : ChatBuffer :=
  ChatBuffer.cleanup { self with buffer_ := self.buffer_ ++ [msg] } now

/-- Body of the loop of `ChatBuffer::getWindow(start, end)`. -/
def ChatBuffer.windowStep (start stop : Int) (result : List ChatMessage) (msg : ChatMessage) :
    List ChatMessage :=
  if msg.timestamp ≥ start ∧ msg.timestamp ≤ stop then result ++ [msg] else result

/-- `ChatBuffer::getWindow(start, end)`. -/
def ChatBuffer.getWindow (self : ChatBuffer) (start stop : Int) : List ChatMessage :=
  self.buffer_.foldl (ChatBuffer.windowStep start stop) []

/-- `ChatBuffer::getWindow(duration)`; the clock is read twice, `nowStart` for the
lower end and `nowEnd` for the upper end of the window. -/
def ChatBuffer.getWindowSeconds (self : ChatBuffer) (nowStart nowEnd duration : Int) :
    List ChatMessage :=
  self.getWindow (nowStart - duration * 1000) nowEnd

/-- `ChatBuffer::getMessageRate`. -/
def ChatBuffer.getMessageRate (self : ChatBuffer) (nowStart nowEnd window : Int) : ℚ :=
  let messages := self.getWindowSeconds nowStart nowEnd window
  if messages.isEmpty then 0 else (messages.length : ℚ) / (window : ℚ)

/-- `ChatBuffer::size`. -/
def ChatBuffer.size (self : ChatBuffer) : Nat := self.buffer_.length

/-- `ChatBuffer::setMaxDuration`; `vars` is the pair (parameter `max_duration`,
member `max_duration_`), and the statement `max_duration = max_duration_;` copies
the member into the parameter; then `cleanup`. -/
def ChatBuffer.setMaxDuration (self : ChatBuffer) (now max_duration : Int) : ChatBuffer :=
  let vars : Int × Int := (max_duration, self.max_duration_)
  let vars : Int × Int := (vars.2, vars.2)
  ChatBuffer.cleanup { self with max_duration_ := vars.2 } now

/-- A sequence of `addMessage` calls, each with the clock reading of its `cleanup`. -/
def ChatBuffer.addAll (self : ChatBuffer) (calls : List (Int × ChatMessage)) : ChatBuffer :=
  calls.foldl (fun b c => b.addMessage c.1 c.2) self

/-! ## Spike detector (`spike_detector.cpp`) -/

/-- Data members of `class SpikeDetector`. -/
structure SpikeDetector where
  samples_ : List ℚ
  window_size_ : Nat
  threshold_sigma_ : ℚ
  sum_ : ℚ
  sum_sq_ : ℚ

/-- `SpikeDetector::SpikeDetector(window_size, threshold_sigma)`. -/
def SpikeDetector.create (window_size : Nat) (threshold_sigma : ℚ) : SpikeDetector :=
  { samples_ := [], window_size_ := window_size, threshold_sigma_ := threshold_sigma,
    sum_ := 0, sum_sq_ := 0 }

/-- `SpikeDetector::updateStats`. -/
def SpikeDetector.updateStats (self : SpikeDetector) (sample : ℚ) (adding : Bool) :
    SpikeDetector :=
  if adding then
    { self with sum_ := self.sum_ + sample, sum_sq_ := self.sum_sq_ + sample * sample }
  else
    { self with sum_ := self.sum_ - sample, sum_sq_ := self.sum_sq_ - sample * sample }

/-- `SpikeDetector::addSample`. -/
def SpikeDetector.addSample (self : SpikeDetector) (message_rate : ℚ) : SpikeDetector :=
  let s1 : SpikeDetector := { self with samples_ := self.samples_ ++ [message_rate] }
  let s2 := s1.updateStats message_rate true
  if s2.samples_.length > s2.window_size_ then
    let s3 := s2.updateStats (s2.samples_.headD 0) false
    { s3 with samples_ := s3.samples_.tail }
  else s2

/-- `SpikeDetector::reset`. -/
def SpikeDetector.reset (self : SpikeDetector) : SpikeDetector :=
  { self with samples_ := [], sum_ := 0, sum_sq_ := 0 }

/-- `SpikeDetector::calculateMean`. -/
def SpikeDetector.calculateMean (self : SpikeDetector) : ℚ :=
  if self.samples_.isEmpty then 0 else self.sum_ / (self.samples_.length : ℚ)

/-- `SpikeDetector::getBaseline`. -/
def SpikeDetector.getBaseline (self : SpikeDetector) : ℚ := self.calculateMean

/-- A mutating call on a `SpikeDetector`. -/
inductive SpikeCall where
  | addSample (message_rate : ℚ)
  | reset

/-- Perform one mutating call. -/
def SpikeDetector.call (self : SpikeDetector) : SpikeCall → SpikeDetector
  | SpikeCall.addSample r => self.addSample r
  | SpikeCall.reset => self.reset

/-- Perform a sequence of mutating calls. -/
def SpikeDetector.callAll (self : SpikeDetector) (calls : List SpikeCall) : SpikeDetector :=
  calls.foldl SpikeDetector.call self

/-- A sequence of `addSample` calls. -/
def SpikeDetector.addAll (self : SpikeDetector) (rates : List ℚ) : SpikeDetector :=
  rates.foldl SpikeDetector.addSample self

/-! ## Spike detector: z-score (`spike_detector.cpp`) -/

/-- `SpikeDetector::calculateStdDev`. -/
def SpikeDetector.calculateStdDev (sqrt : ℚ → ℚ) (self : SpikeDetector) : ℚ :=
  if self.samples_.length < 2 then 0
  else
    let mean := self.calculateMean
    let variance := self.sum_sq_ / (self.samples_.length : ℚ) - mean * mean
    if variance < 0 then 0 else sqrt variance

/-- `SpikeDetector::isSpike`. -/
def SpikeDetector.isSpike (sqrt : ℚ → ℚ) (self : SpikeDetector) : Bool :=
  if self.samples_.length < 2 then false
  else
    let current := self.samples_.getLastD 0
    let mean := self.calculateMean
    let stddev := self.calculateStdDev sqrt
    if stddev = 0 then false
    else
      let z_score := (current - mean) / stddev
      decide (z_score > self.threshold_sigma_)

/-- `SpikeDetector::getSpikeIntensity`. -/
def SpikeDetector.getSpikeIntensity (sqrt : ℚ → ℚ) (self : SpikeDetector) : ℚ :=
  if self.samples_.length < 2 then 0
  else
    let current := self.samples_.getLastD 0
    let mean := self.calculateMean
    let stddev := self.calculateStdDev sqrt
    if stddev = 0 then 0
    else
      let z_score := (current - mean) / stddev
      let intensity := min (z_score / 5) 1
      max intensity 0

/-! ## Scoring engine (`scoring_engine.cpp`) -/

/-- `struct ScoringWeights`. -/
structure ScoringWeights where
  spike_weight : ℚ
  keyword_weight : ℚ
  uniqueness_weight : ℚ

/-- `struct ScoringConfig`. -/
structure ScoringConfig where
  weights : ScoringWeights
  min_clip_score : ℚ
  keyword_threshold : ℚ

/-- Data members of `class ScoringEngine`. -/
structure ScoringEngine where
  config_ : ScoringConfig

/-- Model of `std::unordered_map<std::string, double>`. -/
abbrev ScoreMap := List (Str × ℚ)

/-- Read `m[key]`; a missing key reads as `0.0`. -/
def ScoreMap.findD (m : ScoreMap) (key : Str) : ℚ :=
  match m with
  | [] => 0
  | (k, v) :: rest => if k = key then v else ScoreMap.findD rest key

/-- Write `m[key] = value`. -/
def ScoreMap.assign (m : ScoreMap) (key : Str) (value : ℚ) : ScoreMap :=
  match m with
  | [] => [(key, value)]
  | (k, v) :: rest =>
    if k = key then (k, value) :: rest else (k, v) :: ScoreMap.assign rest key value

/-- `ScoringEngine::normalizeKeywordScore`. -/
def ScoringEngine.normalizeKeywordScore (_self : ScoringEngine) (scores : ScoreMap) : ℚ :=
  if scores.isEmpty then 0
  else scores.foldl (fun max_score pair => max max_score pair.2) 0

/-- `ScoringEngine::calculateScore`. -/
def ScoringEngine.calculateScore (self : ScoringEngine) (spike_score : ℚ)
    (keyword_scores : ScoreMap) (uniqueness_score : ℚ) : ℚ :=
  let keyword_score := self.normalizeKeywordScore keyword_scores
  let total_score :=
    self.config_.weights.spike_weight * spike_score +
    self.config_.weights.keyword_weight * keyword_score +
    self.config_.weights.uniqueness_weight * uniqueness_score
  min total_score 1

/-- `ScoringEngine::shouldTriggerClip`. -/
def ScoringEngine.shouldTriggerClip (self : ScoringEngine) (score : ℚ) : Bool :=
  decide (score ≥ self.config_.min_clip_score)

/-- The scoring engine set up in `main`: weights `{0.4, 0.5, 0.1}`,
`min_clip_score = 0.7`, `keyword_threshold = 0.3`. -/
def defaultScoringEngine : ScoringEngine :=
  { config_ :=
      { weights := { spike_weight := 2 / 5, keyword_weight := 1 / 2, uniqueness_weight := 1 / 10 }
        min_clip_score := 7 / 10
        keyword_threshold := 3 / 10 } }

/-! ## Clip detector (`clip_detector.cpp`) -/

/-- `struct ClipDetectorConfig`; the durations are in seconds. -/
structure ClipDetectorConfig where
  clip_duration : Int
  lookback : Int
  cooldown : Int
  min_score : ℚ

/-- `struct ClipEvent`; the times are in milliseconds. -/
structure ClipEvent where
  start_time : Int
  end_time : Int
  score : ℚ
  keywords : List Str
  category : Str

/-- Data members of `class ClipDetector`. -/
structure ClipDetector where
  config_ : ClipDetectorConfig
  buffer_ : ChatBuffer
  spike_detector_ : SpikeDetector
  keyword_matcher_ : KeywordMatcher
  scoring_engine_ : ScoringEngine
  last_clip_time_ : Int
  in_cooldown_ : Bool

/-- `ClipDetector::ClipDetector`. -/
def ClipDetector.create (config : ClipDetectorConfig) (keyword_matcher : KeywordMatcher)
    (scoring_engine : ScoringEngine) : ClipDetector :=
  { config_ := config
    buffer_ := ChatBuffer.create 300
    spike_detector_ := SpikeDetector.create 60 3
    keyword_matcher_ := keyword_matcher
    scoring_engine_ := scoring_engine
    last_clip_time_ := 0
    in_cooldown_ := false }

/-- The clip configuration set up in `main`: 60 s, 30 s, 30 s, `0.7`. -/
def defaultClipConfig : ClipDetectorConfig :=
  { clip_duration := 60, lookback := 30, cooldown := 30, min_score := 7 / 10 }

/-- `ClipDetector::checkCooldown`; `now` is the reading of the clock. -/
def ClipDetector.checkCooldown (self : ClipDetector) (now : Int) : Bool :=
  if !self.in_cooldown_ then false
  else
    let elapsed := now - self.last_clip_time_
    decide (elapsed < self.config_.cooldown * 1000)

/-- The category chosen by `ClipDetector::createClipEvent`. -/
def ClipDetector.selectCategory (keywords : List Str) : Str :=
  if !keywords.isEmpty then
    let kw := keywords.getD 0 []
    if kw = ascii "W" ∨ kw = ascii "pog" ∨ kw = ascii "clutch" ∨ kw = ascii "insane" then
      ascii "win"
    else if kw = ascii "L" ∨ kw = ascii "ff" ∨ kw = ascii "sad" then
      ascii "loss"
    else if kw = ascii "OMEGALUL" ∨ kw = ascii "KEKW" then
      ascii "hype"
    else
      ascii "spike"
  else
    ascii "spike"

/-- `ClipDetector::createClipEvent`. -/
def ClipDetector.createClipEvent (self : ClipDetector) (peak_time : Int) (score : ℚ)
    (keywords : List Str) : ClipEvent :=
  let end_time := peak_time + self.config_.lookback * 1000
  let start_time := end_time - self.config_.clip_duration * 1000
  { start_time := start_time, end_time := end_time, score := score, keywords := keywords,
    category := ClipDetector.selectCategory keywords }

/-- Body of the inner loop of `ClipDetector::evaluate`, for one entry of the result
of `match`; the state is `(keyword_scores, matched_keywords)`. -/
def ClipDetector.scanMatch (matcher : KeywordMatcher) (content : Str)
    (st : ScoreMap × List Str) (entry : Str × Str) : ScoreMap × List Str :=
  (st.1.assign entry.1 (max (st.1.findD entry.1) (matcher.getCategoryScore content entry.1)),
    st.2 ++ [entry.2])

/-- Body of the outer loop of `ClipDetector::evaluate`, for one recent message; the
entries of the result of `match` are visited in insertion order (`scanMessageIn` takes
the order as a parameter). -/
def ClipDetector.scanMessage (matcher : KeywordMatcher) (st : ScoreMap × List Str)
    (msg : ChatMessage) : ScoreMap × List Str :=
  (matcher.match_ msg.content).foldl (ClipDetector.scanMatch matcher msg.content) st

/-- The readings of the clock taken by one call of `ClipDetector::evaluate`, in
program order: in `checkCooldown`, twice in `getWindow(30 s)`, and at the emission. -/
structure EvalClock where
  cooldown : Int
  windowStart : Int
  windowEnd : Int
  emit : Int

/-- The readings of the clock taken by one call of `ClipDetector::processMessage`: in
`addMessage`, twice in `getMessageRate(10 s)`, then those of `evaluate`. -/
structure ProcessClock where
  cleanup : Int
  rateStart : Int
  rateEnd : Int
  eval : EvalClock

/-- The readings of the clock taken by one call of `ClipDetector::reset`. -/
structure ResetClock where
  cleanup : Int
  setMax : Int

/-- `ClipDetector::evaluate`; returns the new state and the event built, if any. -/
def ClipDetector.evaluate (sqrt : ℚ → ℚ) (self : ClipDetector) (clk : EvalClock) :
    ClipDetector × Option ClipEvent :=
  if self.checkCooldown clk.cooldown then (self, none)
  else
    let spike_score := self.spike_detector_.getSpikeIntensity sqrt
    let recent_messages := self.buffer_.getWindowSeconds clk.windowStart clk.windowEnd 30
    let scan := recent_messages.foldl (ClipDetector.scanMessage self.keyword_matcher_) ([], [])
    let keyword_scores := scan.1
    let matched_keywords := scan.2
    let score := self.scoring_engine_.calculateScore spike_score keyword_scores 1
    if self.scoring_engine_.shouldTriggerClip score then
      let now := clk.emit
      let event := self.createClipEvent now score matched_keywords
      ({ self with last_clip_time_ := now, in_cooldown_ := true }, some event)
    else (self, none)

/-- `ClipDetector::processMessage`. -/
def ClipDetector.processMessage (sqrt : ℚ → ℚ) (self : ClipDetector) (msg : ChatMessage)
    (clk : ProcessClock) : ClipDetector × Option ClipEvent :=
  let buffer := self.buffer_.addMessage clk.cleanup msg
  let rate := buffer.getMessageRate clk.rateStart clk.rateEnd 10
  let spike := self.spike_detector_.addSample rate
  ClipDetector.evaluate sqrt { self with buffer_ := buffer, spike_detector_ := spike } clk.eval

/-- `ClipDetector::reset`. -/
def ClipDetector.reset (self : ClipDetector) (clk : ResetClock) : ClipDetector :=
  let buffer := self.buffer_.cleanup clk.cleanup
  let buffer := buffer.setMaxDuration clk.setMax 300
  { self with buffer_ := buffer, spike_detector_ := self.spike_detector_.reset,
              last_clip_time_ := 0, in_cooldown_ := false }

/-- `ClipDetector::getLastClipTime`. -/
def ClipDetector.getLastClipTime (self : ClipDetector) : Int := self.last_clip_time_

/-- A call on a `ClipDetector`, with the clock readings it takes. -/
inductive DetectorCall where
  | processMessage (msg : ChatMessage) (clk : ProcessClock)
  | evaluate (clk : EvalClock)
  | reset (clk : ResetClock)

/-- The clock reading a call would take at an emission, if it can emit. -/
def DetectorCall.emitClock : DetectorCall → Option Int
  | DetectorCall.processMessage _ clk => some clk.eval.emit
  | DetectorCall.evaluate clk => some clk.emit
  | DetectorCall.reset _ => none

/-- The clock reading a call takes in `checkCooldown`, if it evaluates. -/
def DetectorCall.cooldownClock : DetectorCall → Option Int
  | DetectorCall.processMessage _ clk => some clk.eval.cooldown
  | DetectorCall.evaluate clk => some clk.cooldown
  | DetectorCall.reset _ => none

/-- Whether the call is `reset`. -/
def DetectorCall.isReset : DetectorCall → Bool
  | DetectorCall.reset _ => true
  | _ => false

/-- Perform one call; returns the new state and the event built, if any. -/
def ClipDetector.call (sqrt : ℚ → ℚ) (self : ClipDetector) :
    DetectorCall → ClipDetector × Option ClipEvent
  | DetectorCall.processMessage msg clk => self.processMessage sqrt msg clk
  | DetectorCall.evaluate clk => self.evaluate sqrt clk
  | DetectorCall.reset clk => (self.reset clk, none)

/-- Perform a sequence of calls; returns the final state and the events built, in
emission order. -/
def ClipDetector.callAll (sqrt : ℚ → ℚ) (self : ClipDetector) :
    List DetectorCall → ClipDetector × List ClipEvent
  | [] => (self, [])
  | c :: rest =>
    let r := self.call sqrt c
    let r2 := ClipDetector.callAll sqrt r.1 rest
    (r2.1, r.2.toList ++ r2.2)

/-- A chat message with content "hi", stamped `t`. -/
def hiMessage (t : Int) : ChatMessage :=
  { timestamp := t, username := ascii "user", content := ascii "hi" }

/-- A `processMessage` call all of whose clock readings are the message timestamp. -/
def processAtTimestamp (msg : ChatMessage) : DetectorCall :=
  DetectorCall.processMessage msg
    { cleanup := msg.timestamp, rateStart := msg.timestamp, rateEnd := msg.timestamp,
      eval := { cooldown := msg.timestamp, windowStart := msg.timestamp,
                windowEnd := msg.timestamp, emit := msg.timestamp } }

/-- The calls of scenario S1 from epoch `t0`: 300 messages "hi" at 100 ms intervals,
then 100 messages "hi" at 10 ms intervals, each processed at its timestamp. -/
def scenarioS1 (t0 : Int) : List DetectorCall :=
  ((List.range 300).map
    (fun (i : Nat) => processAtTimestamp (hiMessage (t0 + 100 * Int.ofNat i)))) ++
  ((List.range 100).map
    (fun (j : Nat) => processAtTimestamp (hiMessage (t0 + 30000 + 10 * Int.ofNat j))))

/-- A reachable detector state used as a concrete input: 36 samples `0` followed by
one sample `37`, with window 60 and threshold `sigma`; its z-score is `6`. -/
def spikeExample (sigma : ℚ) : SpikeDetector :=
  (SpikeDetector.create 60 sigma).addAll (List.replicate 36 0 ++ [37])

/-- The pair `(keyword_scores, matched_keywords)` after the two nested loops of
`ClipDetector::evaluate`, for the readings `clk` of the clock. -/
def ClipDetector.scanWindow (self : ClipDetector) (clk : EvalClock) : ScoreMap × List Str :=
  (self.buffer_.getWindowSeconds clk.windowStart clk.windowEnd 30).foldl
    (ClipDetector.scanMessage self.keyword_matcher_) ([], [])

/-- The score computed by `ClipDetector::evaluate`, for the readings `clk`. -/
def ClipDetector.evalScore (sqrt : ℚ → ℚ) (self : ClipDetector) (clk : EvalClock) : ℚ :=
  self.scoring_engine_.calculateScore (self.spike_detector_.getSpikeIntensity sqrt)
    (self.scanWindow clk).1 1

/-- The local variable `variance` of `SpikeDetector::calculateStdDev`. -/
def SpikeDetector.variance (self : SpikeDetector) : ℚ :=
  self.sum_sq_ / (self.samples_.length : ℚ) - self.calculateMean * self.calculateMean

/-- Two detector states agree on everything except `lookback`, `clip_duration` and
`min_score` of their configuration. -/
def ClipDetector.AgreeOffTiming (a b : ClipDetector) : Prop :=
  a.buffer_ = b.buffer_ ∧ a.spike_detector_ = b.spike_detector_ ∧
    a.keyword_matcher_ = b.keyword_matcher_ ∧ a.scoring_engine_ = b.scoring_engine_ ∧
    a.last_clip_time_ = b.last_clip_time_ ∧ a.in_cooldown_ = b.in_cooldown_ ∧
    a.config_.cooldown = b.config_.cooldown

/-- The score, keywords and category of an event (all but its two times). -/
def ClipEvent.payload (e : ClipEvent) : ℚ × List Str × Str :=
  (e.score, e.keywords, e.category)

/-- The detector state seen with historical input: empty buffer with the bound 300 s,
only zero samples, the default scoring engine, not in cooldown. -/
def ClipDetector.Idle (s : ClipDetector) : Prop :=
  s.buffer_.buffer_ = [] ∧ s.buffer_.max_duration_ = 300 ∧
    (∀ x ∈ s.spike_detector_.samples_, x = 0) ∧ s.spike_detector_.sum_ = 0 ∧
    s.spike_detector_.sum_sq_ = 0 ∧ s.scoring_engine_ = defaultScoringEngine ∧
    s.in_cooldown_ = false ∧ s.last_clip_time_ = 0

/-- The quantity `n * Σ x² - (Σ x)²` of a list of `n` samples: `n²` times the variance
expression of `calculateStdDev`. -/
def dispersion (l : List ℚ) : ℚ :=
  (l.length : ℚ) * (l.map (fun x => x * x)).sum - l.sum * l.sum

/-- The local `z_score` of `SpikeDetector::isSpike` and `getSpikeIntensity`. -/
def SpikeDetector.zScore (sqrt : ℚ → ℚ) (self : SpikeDetector) : ℚ :=
  (self.samples_.getLastD 0 - self.calculateMean) / self.calculateStdDev sqrt

/-- The detector of "Test 2: Spike Detection" in `runTests` (main.cpp): default
construction, 50 samples `5.0`, then one sample `25.0`. -/
def spikeTest : SpikeDetector :=
  (SpikeDetector.create 60 3).addAll (List.replicate 50 5 ++ [25])

/-- The local `recent_messages` of `ClipDetector::evaluate`: `buffer_.getWindow(30 s)`. -/
def ClipDetector.recentMessages (self : ClipDetector) (clk : EvalClock) : List ChatMessage :=
  self.buffer_.getWindowSeconds clk.windowStart clk.windowEnd 30

/-! ## Line reader (`processStream` of `main.cpp`) -/

/-- Reading side of a `std::istream`: the characters not yet extracted and the state
bits `eofbit` and `failbit`. -/
structure IStream where
  rest : Str
  eofbit : Bool
  failbit : Bool
deriving DecidableEq

/-- `std::ios::good()`. -/
def IStream.good (self : IStream) : Bool := !self.eofbit && !self.failbit

/-- The extraction loop of `std::getline`: the characters before the first `delim`
and, if a `delim` was met (it is extracted and dropped), the characters after it. -/
def extractUntil (delim : Nat) : Str → Str × Option Str
  | [] => ([], none)
  | c :: rest =>
    if c = delim then ([], some rest)
    else (c :: (extractUntil delim rest).1, (extractUntil delim rest).2)

/-- `std::getline(stream, str, delim)`: on a stream that is not `good()` it sets
`failbit` and leaves `str`; otherwise it extracts up to the delimiter or the end of
the stream (`eofbit`), and sets `failbit` when nothing at all was extracted. -/
def getline (stream : IStream) (str : Str) (delim : Nat) : IStream × Str :=
  if !stream.good then ({ stream with failbit := true }, str)
  else
    match extractUntil delim stream.rest with
    | (pre, some rest) => ({ stream with rest := rest }, pre)
    | (pre, none) => ({ rest := [], eofbit := true, failbit := pre.isEmpty }, pre)

/-- `std::isspace` in the "C" locale. -/
def isspace (c : Nat) : Bool := c = 32 || (9 ≤ c && c ≤ 13)

/-- `std::isdigit`. -/
def isdigit (c : Nat) : Bool := 48 ≤ c && c ≤ 57

/-- The part of the argument of `std::stoll` left after the leading white space. -/
def stollBody (str : Str) : Str := str.dropWhile isspace

/-- The run of decimal digits that `std::stoll` (base 10) converts: after the leading
white space and one optional sign. -/
def stollDigits (str : Str) : Str :=
  let body := stollBody str
  let unsigned := if body.head? = some 45 ∨ body.head? = some 43 then body.tail else body
  unsigned.takeWhile isdigit

/-- The mathematical value of the digits converted by `std::stoll`, with its sign. -/
def stollValue (str : Str) : Int :=
  let magnitude : Nat := (stollDigits str).foldl (fun acc d => acc * 10 + (d - 48)) 0
  if (stollBody str).head? = some 45 then -(magnitude : Int) else (magnitude : Int)

/-- `std::stoll(str)`: `none` stands for the two exceptions, `std::invalid_argument`
(no digit to convert) and `std::out_of_range` (value outside `long long`); what
follows the digits is ignored. -/
def stoll (str : Str) : Option Int :=
  if (stollDigits str).isEmpty then none
  else if -9223372036854775808 ≤ stollValue str ∧ stollValue str ≤ 9223372036854775807 then
    some (stollValue str)
  else none

/-- Body of the loop of `processStream` for one line: the message handed to
`detector.processMessage`, if any. -/
def parseLine (line : Str) : Option ChatMessage :=
  let ss : IStream := { rest := line, eofbit := false, failbit := false }
  let r1 := getline ss [] 124
  if r1.1.failbit then none
  else
    let r2 := getline r1.1 [] 124
    if r2.1.failbit then none
    else
      let r3 := getline r2.1 [] 10
      if r3.1.failbit then none
      else
        match stoll r1.2 with
        | some timestamp => some { timestamp := timestamp, username := r2.2, content := r3.2 }
        | none => none

/-- The loop `while (std::getline(input, line))` of `processStream`, at most `fuel`
iterations: the messages handed to the detector, in order. -/
def processStreamLoop : Nat → IStream → Str → List ChatMessage
  | 0, _, _ => []
  | fuel + 1, input, line =>
    let r := getline input line 10
    if r.1.failbit then []
    else
      match parseLine r.2 with
      | some msg => msg :: processStreamLoop fuel r.1 r.2
      | none => processStreamLoop fuel r.1 r.2

/-- `processStream` on an input holding the characters `input`: the messages handed to
the detector, in order (an input of `n` characters ends the loop within `n + 1`
iterations). -/
def processStream (input : Str) : List ChatMessage :=
  processStreamLoop (input.length + 1) { rest := input, eofbit := false, failbit := false } []

/-- Reference: the decimal digits of a natural number, most significant first. -/
def decimalRef (n : Nat) : Str :=
  if n = 0 then [48] else (Nat.digits 10 n).reverse.map (fun d => d + 48)

/-- Reference: a signed decimal integer as written on the wire (`-` for negatives). -/
def signedDecimalRef (ts : Int) : Str :=
  if ts < 0 then 45 :: decimalRef ts.natAbs else decimalRef ts.natAbs

/-- Reference: the wire line `<timestamp_ms>|<username>|<content>`. -/
def wireLineRef (ts : Int) (username content : Str) : Str :=
  signedDecimalRef ts ++ 124 :: (username ++ 124 :: content)

/-! ## Scenario S2 -/

/-- A chat message with content "W", stamped `t`. -/
def wMessage (t : Int) : ChatMessage :=
  { timestamp := t, username := ascii "user", content := ascii "W" }

/-- The first `n` messages of scenario S2 from epoch `t0`: content "W", 1 s apart. -/
def s2Messages (t0 : Int) (n : Nat) : List ChatMessage :=
  (List.range n).map (fun (i : Nat) => wMessage (t0 + 1000 * Int.ofNat i))

/-- The first `n` calls of scenario S2: each message is processed at its timestamp. -/
def s2Calls (t0 : Int) (n : Nat) : List DetectorCall :=
  (s2Messages t0 n).map processAtTimestamp

/-- The calls of scenario S2 from epoch `t0`: 10 messages "W" at 1 s intervals, each
processed at a clock time equal to its timestamp. -/
def scenarioS2 (t0 : Int) : List DetectorCall := s2Calls t0 10

/-- The message rates sampled in scenario S2 by the first `n` calls: `1/10, 2/10, …`. -/
def s2Rates (n : Nat) : List ℚ :=
  (List.range n).map (fun (i : Nat) => ((i : ℚ) + 1) / 10)

/-- The detector set up in `main`: default configuration, keywords and scoring. -/
def mainDetector : ClipDetector :=
  ClipDetector.create defaultClipConfig (setupDefaultKeywords defaultMatcher)
    defaultScoringEngine

/-- The detector data after `n` messages of scenario S2, cooldown state apart. -/
def ClipDetector.S2Data (t0 : Int) (n : Nat) (s : ClipDetector) : Prop :=
  s.config_ = defaultClipConfig ∧ s.buffer_.buffer_ = s2Messages t0 n ∧
    s.buffer_.max_duration_ = 300 ∧
    s.spike_detector_ = (SpikeDetector.create 60 3).addAll (s2Rates n) ∧
    s.keyword_matcher_ = setupDefaultKeywords defaultMatcher ∧
    s.scoring_engine_ = defaultScoringEngine

/-- The detector after the first three statements of `ClipDetector::processMessage`
(message added, rate sampled), before the call of `evaluate`. -/
def ClipDetector.feed (self : ClipDetector) (msg : ChatMessage) (clk : ProcessClock) :
    ClipDetector :=
  { self with
    buffer_ := self.buffer_.addMessage clk.cleanup msg,
    spike_detector_ := self.spike_detector_.addSample
      ((self.buffer_.addMessage clk.cleanup msg).getMessageRate clk.rateStart clk.rateEnd 10) }

/-- The clock readings of a call all taken at the instant `t`. -/
def ProcessClock.atInstant (t : Int) : ProcessClock :=
  { cleanup := t, rateStart := t, rateEnd := t,
    eval := { cooldown := t, windowStart := t, windowEnd := t, emit := t } }

/-- A rational stand-in for the square root at the three variances met in scenario S2:
`1/20` at `1/400`, `41/500` at `1/150` and `14/125` elsewhere (for `1/80`). -/
def sqrtS2 (v : ℚ) : ℚ :=
  if v = 1 / 400 then 1 / 20 else if v = 1 / 150 then 41 / 500 else 14 / 125

/-! ## Inputs of runs that emit, and the iteration order of `match` results -/

/-- A scoring engine with the weights of `main` and `min_clip_score = 0.5`, so that a
keyword match alone (score `0.6`) triggers. -/
def eagerScoringEngine : ScoringEngine :=
  { config_ :=
      { weights := { spike_weight := 2 / 5, keyword_weight := 1 / 2, uniqueness_weight := 1 / 10 }
        min_clip_score := 1 / 2
        keyword_threshold := 3 / 10 } }

/-- A detector with the default keywords and the scoring engine `eagerScoringEngine`. -/
def eagerDetector (config : ClipDetectorConfig) : ClipDetector :=
  ClipDetector.create config (setupDefaultKeywords defaultMatcher) eagerScoringEngine

/-- Three messages "W" processed at their timestamps 1 s, 2 s and 40 s. -/
def eagerCalls : List DetectorCall :=
  [processAtTimestamp (wMessage 1000), processAtTimestamp (wMessage 2000),
    processAtTimestamp (wMessage 40000)]

/-- The detector data kept along a run of "W" messages on an `eagerDetector`. -/
def ClipDetector.EagerData (s : ClipDetector) : Prop :=
  s.keyword_matcher_ = setupDefaultKeywords defaultMatcher ∧
    s.scoring_engine_ = eagerScoringEngine ∧ s.buffer_.max_duration_ = 300 ∧
    ∀ m ∈ s.buffer_.buffer_, m.content = ascii "W"

/-- Body of the outer loop of `ClipDetector::evaluate` for one recent message, with the
order of the range-for over the `std::unordered_map` returned by `match` made
explicit: the entries of a map `m` are visited in the order `iter m` (the container
fixes no order, so `iter` is any rearrangement of the entries). -/
def ClipDetector.scanMessageIn (iter : StrMap → StrMap) (matcher : KeywordMatcher)
    (st : ScoreMap × List Str) (msg : ChatMessage) : ScoreMap × List Str :=
  (iter (matcher.match_ msg.content)).foldl (ClipDetector.scanMatch matcher msg.content) st

/-- The pair `(keyword_scores, matched_keywords)` after the two nested loops of
`ClipDetector::evaluate`, under the iteration order `iter`. -/
def ClipDetector.scanWindowIn (iter : StrMap → StrMap) (self : ClipDetector)
    (clk : EvalClock) : ScoreMap × List Str :=
  (self.buffer_.getWindowSeconds clk.windowStart clk.windowEnd 30).foldl
    (ClipDetector.scanMessageIn iter self.keyword_matcher_) ([], [])

/-- `ClipDetector::evaluate` under the iteration order `iter` of the map returned by
`match`; returns the new state and the event built, if any. -/
def ClipDetector.evaluateIn (iter : StrMap → StrMap) (sqrt : ℚ → ℚ) (self : ClipDetector)
    (clk : EvalClock) : ClipDetector × Option ClipEvent :=
  if self.checkCooldown clk.cooldown then (self, none)
  else
    let spike_score := self.spike_detector_.getSpikeIntensity sqrt
    let recent_messages := self.buffer_.getWindowSeconds clk.windowStart clk.windowEnd 30
    let scan := recent_messages.foldl
      (ClipDetector.scanMessageIn iter self.keyword_matcher_) ([], [])
    let keyword_scores := scan.1
    let matched_keywords := scan.2
    let score := self.scoring_engine_.calculateScore spike_score keyword_scores 1
    if self.scoring_engine_.shouldTriggerClip score then
      let now := clk.emit
      let event := self.createClipEvent now score matched_keywords
      ({ self with last_clip_time_ := now, in_cooldown_ := true }, some event)
    else (self, none)

/-- A matcher with two categories that both match the message "W": category "a" with
the keyword "W" and category "b" with the keyword "w". -/
def twoCategoryMatcher : KeywordMatcher :=
  { categories_ := [⟨ascii "a", [ascii "W"], 1⟩, ⟨ascii "b", [ascii "w"], 1⟩],
    similarity_threshold_ := 4 / 5 }

/-- A detector state with `twoCategoryMatcher` holding one message "W" stamped 1 s. -/
def twoCategoryState : ClipDetector :=
  (ClipDetector.create defaultClipConfig twoCategoryMatcher defaultScoringEngine).feed
    (wMessage 1000) (ProcessClock.atInstant 1000)

/-! ## Spike detector in binary64 arithmetic (`spike_detector.cpp`)

The `double` members and results are modelled as finite binary64 values `m * 2^e`;
every arithmetic operation is the exact operation followed by rounding to nearest,
ties to even, at 53 significant bits (IEEE 754, no fused multiply-add). The exponent
is unbounded: overflow, subnormal values, infinities and NaN are not modelled, and the
magnitudes met below lie between `2^-100` and `2^10`. -/

/-- A finite binary64 value `m * 2^e`: zero is `⟨0, 0⟩`, and a non-zero value is kept
with `2^52 ≤ |m| < 2^53`. -/
structure F64 where
  m : Int
  e : Int
deriving DecidableEq

/-- Search of the bit length: the least `k' ≥ k` with `n < 2^k'`, within `fuel` steps. -/
def bitLengthFrom (n : Nat) : Nat → Nat → Nat
  | 0, k => k
  | fuel + 1, k => if n < 2 ^ k then k else bitLengthFrom n fuel (k + 1)

/-- The number of bits of `n < 2^2048`: the least `k` with `n < 2^k`. -/
def bitLength (n : Nat) : Nat := bitLengthFrom n 2048 0

/-- The value `m * 2^e` rounded to 53 significant bits, to nearest, ties to even. -/
def F64.round (m e : Int) : F64 :=
  if m = 0 then ⟨0, 0⟩
  else
    let a : Nat := m.natAbs
    let len : Nat := bitLength a
    if len ≤ 53 then ⟨m * 2 ^ (53 - len), e - ((53 - len : Nat) : Int)⟩
    else
      let k : Nat := len - 53
      let q : Nat := a / 2 ^ k
      let r : Nat := a % 2 ^ k
      let half : Nat := 2 ^ (k - 1)
      let up : Nat :=
        if r < half then q else if half < r then q + 1 else if q % 2 = 0 then q else q + 1
      let mant : Nat := if up = 2 ^ 53 then 2 ^ 52 else up
      let expo : Int := if up = 2 ^ 53 then e + (k : Int) + 1 else e + (k : Int)
      ⟨if m < 0 then -(mant : Int) else (mant : Int), expo⟩

/-- Conversion of an unsigned integer (`size_t`) to `double`. -/
def F64.ofNat (n : Nat) : F64 := F64.round (n : Int) 0

/-- `a + b` on `double`. -/
def F64.add (a b : F64) : F64 :=
  F64.round (a.m * 2 ^ (a.e - min a.e b.e).toNat + b.m * 2 ^ (b.e - min a.e b.e).toNat)
    (min a.e b.e)

/-- `a - b` on `double`. -/
def F64.sub (a b : F64) : F64 :=
  F64.round (a.m * 2 ^ (a.e - min a.e b.e).toNat - b.m * 2 ^ (b.e - min a.e b.e).toNat)
    (min a.e b.e)

/-- `a * b` on `double`. -/
def F64.mul (a b : F64) : F64 := F64.round (a.m * b.m) (a.e + b.e)

/-- `a / b` on `double`, for `b ≠ 0` (a zero divisor is not modelled and gives `0`):
the quotient of the mantissas is taken to 64 bits and more, and one further bit
records a non-zero remainder. -/
def F64.div (a b : F64) : F64 :=
  if a.m = 0 ∨ b.m = 0 then ⟨0, 0⟩
  else
    let num : Nat := a.m.natAbs * 2 ^ 64
    let q : Nat := num / b.m.natAbs
    let sticky : Nat := if num % b.m.natAbs = 0 then 0 else 1
    let mant : Int := ((2 * q + sticky : Nat) : Int)
    F64.round (if decide (a.m < 0) = decide (b.m < 0) then mant else -mant) (a.e - b.e - 65)

/-- `a < b` on `double`. -/
def F64.lt (a b : F64) : Bool :=
  decide (a.m * 2 ^ (a.e - min a.e b.e).toNat < b.m * 2 ^ (b.e - min a.e b.e).toNat)

/-- Bitwise integer square root: `isqrtBits n b r` extends the root `r` by the `b` low
bits. -/
def isqrtBits (n : Nat) : Nat → Nat → Nat
  | 0, r => r
  | b + 1, r =>
    if (r + 2 ^ b) * (r + 2 ^ b) ≤ n then isqrtBits n b (r + 2 ^ b) else isqrtBits n b r

/-- The integer part of the square root of `n`. -/
def isqrt (n : Nat) : Nat := isqrtBits n (bitLength n / 2 + 1) 0

/-- `std::sqrt(a)` on `double`, correctly rounded, for `a ≥ 0` (a negative argument is
not modelled and gives `0`): the root of the mantissa, shifted by 128 or 129 bits to an
even exponent, is taken exactly, and one further bit records an inexact root. -/
def F64.sqrt (a : F64) : F64 :=
  if a.m ≤ 0 then ⟨0, 0⟩
  else
    let shift : Nat := if a.e % 2 = 0 then 128 else 129
    let big : Nat := a.m.natAbs * 2 ^ shift
    let q : Nat := isqrt big
    let sticky : Nat := if q * q = big then 0 else 1
    F64.round ((2 * q + sticky : Nat) : Int) ((a.e - (shift : Int)) / 2 - 1)

/-- `std::min(a, b)`. -/
def F64.min (a b : F64) : F64 := if F64.lt b a then b else a

/-- `std::max(a, b)`. -/
def F64.max (a b : F64) : F64 := if F64.lt a b then b else a

/-- Data members of `class SpikeDetector`, in binary64. -/
structure SpikeDetector64 where
  samples_ : List F64
  window_size_ : Nat
  threshold_sigma_ : F64
  sum_ : F64
  sum_sq_ : F64

/-- `SpikeDetector::SpikeDetector(window_size, threshold_sigma)`. -/
def SpikeDetector64.create (window_size : Nat) (threshold_sigma : F64) : SpikeDetector64 :=
  { samples_ := [], window_size_ := window_size, threshold_sigma_ := threshold_sigma,
    sum_ := ⟨0, 0⟩, sum_sq_ := ⟨0, 0⟩ }

/-- `SpikeDetector::updateStats`. -/
def SpikeDetector64.updateStats (self : SpikeDetector64) (sample : F64) (adding : Bool) :
    SpikeDetector64 :=
  if adding then
    { self with sum_ := self.sum_.add sample, sum_sq_ := self.sum_sq_.add (sample.mul sample) }
  else
    { self with sum_ := self.sum_.sub sample, sum_sq_ := self.sum_sq_.sub (sample.mul sample) }

/-- `SpikeDetector::addSample`. -/
def SpikeDetector64.addSample (self : SpikeDetector64) (message_rate : F64) :
    SpikeDetector64 :=
  let s1 : SpikeDetector64 := { self with samples_ := self.samples_ ++ [message_rate] }
  let s2 := s1.updateStats message_rate true
  if s2.samples_.length > s2.window_size_ then
    let s3 := s2.updateStats (s2.samples_.headD ⟨0, 0⟩) false
    { s3 with samples_ := s3.samples_.tail }
  else s2

/-- A sequence of `addSample` calls. -/
def SpikeDetector64.addAll (self : SpikeDetector64) (rates : List F64) : SpikeDetector64 :=
  rates.foldl SpikeDetector64.addSample self

/-- `SpikeDetector::calculateMean`. -/
def SpikeDetector64.calculateMean (self : SpikeDetector64) : F64 :=
  if self.samples_.isEmpty then ⟨0, 0⟩ else self.sum_.div (F64.ofNat self.samples_.length)

/-- The local `variance` of `SpikeDetector::calculateStdDev`. -/
def SpikeDetector64.variance (self : SpikeDetector64) : F64 :=
  (self.sum_sq_.div (F64.ofNat self.samples_.length)).sub
    (self.calculateMean.mul self.calculateMean)

/-- `SpikeDetector::calculateStdDev`. -/
def SpikeDetector64.calculateStdDev (self : SpikeDetector64) : F64 :=
  if self.samples_.length < 2 then ⟨0, 0⟩
  else if F64.lt self.variance ⟨0, 0⟩ then ⟨0, 0⟩
  else self.variance.sqrt

/-- The local `z_score` of `SpikeDetector::isSpike` and `getSpikeIntensity`. -/
def SpikeDetector64.zScore (self : SpikeDetector64) : F64 :=
  ((self.samples_.getLastD ⟨0, 0⟩).sub self.calculateMean).div self.calculateStdDev

/-- `SpikeDetector::isSpike`. -/
def SpikeDetector64.isSpike (self : SpikeDetector64) : Bool :=
  if self.samples_.length < 2 then false
  else if self.calculateStdDev = ⟨0, 0⟩ then false
  else F64.lt self.threshold_sigma_ self.zScore

/-- `SpikeDetector::getSpikeIntensity`. -/
def SpikeDetector64.getSpikeIntensity (self : SpikeDetector64) : F64 :=
  if self.samples_.length < 2 then ⟨0, 0⟩
  else if self.calculateStdDev = ⟨0, 0⟩ then ⟨0, 0⟩
  else F64.max (F64.min (self.zScore.div (F64.ofNat 5)) (F64.ofNat 1)) ⟨0, 0⟩

/-- The `double` literal `0.1`. -/
def F64.tenth : F64 := F64.div (F64.ofNat 1) (F64.ofNat 10)

/-- The `double` literal `0.3`. -/
def F64.threeTenths : F64 := F64.div (F64.ofNat 3) (F64.ofNat 10)

/-- The detector of C23 / C40 in binary64: default construction, then `n` samples `0.1`. -/
def tenths64 (n : Nat) : SpikeDetector64 :=
  (SpikeDetector64.create 60 (F64.ofNat 3)).addAll (List.replicate n F64.tenth)

/-- A detector in binary64 with default construction (window 60, threshold `3.0`) after
nine samples `0.0` and one sample `0.3`. -/
def boundary64 : SpikeDetector64 :=
  (SpikeDetector64.create 60 (F64.ofNat 3)).addAll
    (List.replicate 9 ⟨0, 0⟩ ++ [F64.threeTenths])

/-- A rational stand-in for the square root that is not below the exact root at the
variance `20000/2601` of `spikeTest` (`2.773² ≥ 20000/2601`), and `Rat.sqrt` elsewhere. -/
def sqrtTest (v : ℚ) : ℚ := if v = 20000 / 2601 then 2773 / 1000 else Rat.sqrt v

/-! ## Lemmas: normalization -/

theorem normalizeFilter_foldl (text acc : Str) :
    text.foldl filterStep acc = acc ++ (text.filter isalnum).map tolower := by
  induction text generalizing acc with
  | nil => simp
  | cons c rest ih =>
    simp only [List.foldl_cons, ih, filterStep]
    by_cases h : isalnum c = true
    · simp [h, List.filter_cons]
    · simp [h, List.filter_cons]

theorem normalizeFilter_eq (text : Str) :
    normalizeFilter text = (text.filter isalnum).map tolower := by
  simp [normalizeFilter, normalizeFilter_foldl]

theorem normalizeDedup_foldl (l acc : Str) (prev : Nat) :
    (l.foldl dedupStep (acc, prev)).1 = acc ++ dedupFrom prev l := by
  induction l generalizing acc prev with
  | nil => simp [dedupFrom]
  | cons c rest ih =>
    simp only [List.foldl_cons]
    by_cases h : c = prev
    · simp [h, dedupFrom, dedupStep, ih]
    · simp [h, dedupFrom, dedupStep, ih]

theorem normalizeDedup_eq (l : Str) : (normalizeDedup l).1 = dedupFrom 0 l := by
  simp [normalizeDedup, normalizeDedup_foldl]

theorem collapseRuns_cons (c : Nat) (l : Str) :
    collapseRuns (c :: l) = c :: dedupFrom c l := by
  induction l generalizing c with
  | nil => simp [collapseRuns, dedupFrom]
  | cons d rest ih =>
    by_cases h : c = d
    · subst h
      simp [collapseRuns, dedupFrom, ih]
    · have h' : d ≠ c := fun e => h e.symm
      simp [collapseRuns, dedupFrom, h, h', ih]

theorem dedupFrom_zero (l : Str) (h : ∀ c ∈ l, c ≠ 0) : dedupFrom 0 l = collapseRuns l := by
  cases l with
  | nil => simp [dedupFrom, collapseRuns]
  | cons c rest =>
    have hc : c ≠ 0 := h c (by simp)
    simp [dedupFrom, hc, collapseRuns_cons]

theorem isalnum_iff (c : Nat) : isalnum c = true ↔ isAsciiLetterOrDigit c := by
  simp [isalnum, isAsciiLetterOrDigit, or_assoc]

theorem tolower_eq (c : Nat) : tolower c = asciiLower c := rfl

theorem isLowerOrDigit_asciiLower (c : Nat) (h : isAsciiLetterOrDigit c) :
    isLowerOrDigit (asciiLower c) := by
  unfold isAsciiLetterOrDigit at h
  unfold isLowerOrDigit asciiLower
  split <;> omega

theorem normalize_eq_ref (s : Str) : normalize s = normalizeRef s := by
  have hf : s.filter isalnum = s.filter (fun c => decide (isAsciiLetterOrDigit c)) := by
    apply List.filter_congr
    intro c _
    by_cases h : isAsciiLetterOrDigit c
    · simp [h, (isalnum_iff c).2 h]
    · have : isalnum c = false := by
        cases hb : isalnum c with
        | false => rfl
        | true => exact absurd ((isalnum_iff c).1 hb) h
      simp [h, this]
  have ht : tolower = asciiLower := funext tolower_eq
  unfold normalize normalizeRef
  rw [normalizeDedup_eq, normalizeFilter_eq, hf, ht]
  apply dedupFrom_zero
  intro c hc
  simp only [List.mem_map, List.mem_filter, decide_eq_true_eq] at hc
  obtain ⟨d, ⟨_, hd⟩, rfl⟩ := hc
  have := isLowerOrDigit_asciiLower d hd
  unfold isLowerOrDigit at this
  omega

theorem mem_dedupFrom (prev : Nat) (l : Str) : ∀ c ∈ dedupFrom prev l, c ∈ l := by
  induction l generalizing prev with
  | nil => simp [dedupFrom]
  | cons d rest ih =>
    intro c hc
    by_cases h : d = prev
    · simp only [dedupFrom, h, ne_eq, not_true_eq_false, if_false] at hc
      exact List.mem_cons_of_mem _ (ih prev c hc)
    · simp only [dedupFrom, h, ne_eq, not_false_eq_true, if_true, List.mem_cons] at hc
      rcases hc with rfl | hc
      · simp
      · exact List.mem_cons_of_mem _ (ih d c hc)

theorem chain_dedupFrom (prev : Nat) (l : Str) :
    List.Chain (fun x y => x ≠ y) prev (dedupFrom prev l) := by
  induction l generalizing prev with
  | nil => simp [dedupFrom]
  | cons d rest ih =>
    by_cases h : d = prev
    · simp only [dedupFrom, h, ne_eq, not_true_eq_false, if_false]
      exact ih prev
    · simp only [dedupFrom, h, ne_eq, not_false_eq_true, if_true]
      exact List.Chain.cons (fun e => h e.symm) (ih d)

theorem dedupFrom_of_chain (prev : Nat) (l : Str)
    (h : List.Chain (fun x y => x ≠ y) prev l) : dedupFrom prev l = l := by
  induction l generalizing prev with
  | nil => simp [dedupFrom]
  | cons d rest ih =>
    rw [List.chain_cons] at h
    have hd : d ≠ prev := fun e => h.1 e.symm
    simp [dedupFrom, hd, ih d h.2]

theorem chain_collapseRuns (l : Str) : List.Chain' (fun x y => x ≠ y) (collapseRuns l) := by
  cases l with
  | nil => simp [collapseRuns]
  | cons c rest =>
    rw [collapseRuns_cons]
    exact chain_dedupFrom c rest

theorem mem_collapseRuns (l : Str) : ∀ c ∈ collapseRuns l, c ∈ l := by
  cases l with
  | nil => simp [collapseRuns]
  | cons d rest =>
    rw [collapseRuns_cons]
    intro c hc
    rcases List.mem_cons.1 hc with rfl | hc
    · simp
    · exact List.mem_cons_of_mem _ (mem_dedupFrom d rest c hc)

theorem collapseRuns_of_chain (l : Str) (h : List.Chain' (fun x y => x ≠ y) l) :
    collapseRuns l = l := by
  cases l with
  | nil => simp [collapseRuns]
  | cons c rest =>
    rw [collapseRuns_cons, dedupFrom_of_chain c rest h]

theorem normalize_isLowerOrDigit (s : Str) : ∀ c ∈ normalize s, isLowerOrDigit c := by
  intro c hc
  rw [normalize_eq_ref] at hc
  have hc := mem_collapseRuns _ c hc
  simp only [List.mem_map, List.mem_filter, decide_eq_true_eq] at hc
  obtain ⟨d, ⟨_, hd⟩, rfl⟩ := hc
  exact isLowerOrDigit_asciiLower d hd

theorem normalize_chain (s : Str) : List.Chain' (fun x y => x ≠ y) (normalize s) := by
  rw [normalize_eq_ref]
  exact chain_collapseRuns _

theorem normalizeRef_of_normal (r : Str) (hr : ∀ c ∈ r, isLowerOrDigit c)
    (hc : List.Chain' (fun x y => x ≠ y) r) : normalizeRef r = r := by
  have hf : r.filter (fun c => decide (isAsciiLetterOrDigit c)) = r := by
    rw [List.filter_eq_self]
    intro c hcr
    have := hr c hcr
    simp only [decide_eq_true_eq]
    unfold isLowerOrDigit at this
    unfold isAsciiLetterOrDigit
    omega
  have hm : r.map asciiLower = r := by
    conv_rhs => rw [← List.map_id r]
    apply List.map_congr_left
    intro c hcr
    have := hr c hcr
    unfold isLowerOrDigit at this
    unfold asciiLower
    rw [if_neg (by omega)]
    rfl
  unfold normalizeRef
  rw [hf, hm]
  exact collapseRuns_of_chain r hc

theorem normalize_of_normal (r : Str) (hr : ∀ c ∈ r, isLowerOrDigit c)
    (hc : List.Chain' (fun x y => x ≠ y) r) : normalize r = r := by
  rw [normalize_eq_ref]
  exact normalizeRef_of_normal r hr hc

theorem normalize_normalize (s : Str) : normalize (normalize s) = normalize s :=
  normalize_of_normal _ (normalize_isLowerOrDigit s) (normalize_chain s)

/-! ## Lemmas: edit distance -/

theorem editDistance_nil_left (ys : Str) : editDistance [] ys = ys.length := by
  cases ys <;> simp [editDistance]

theorem editDistance_nil_right (xs : Str) : editDistance xs [] = xs.length := by
  cases xs <;> simp [editDistance]

theorem editDistance_cons_cons (x y : Nat) (xs ys : Str) :
    editDistance (x :: xs) (y :: ys) =
      min (min (editDistance xs (y :: ys) + 1) (editDistance (x :: xs) ys + 1))
        (editDistance xs ys + (if x = y then 0 else 1)) := by
  simp [editDistance]

theorem editDistance_comm (xs ys : Str) : editDistance xs ys = editDistance ys xs := by
  induction xs generalizing ys with
  | nil => rw [editDistance_nil_left, editDistance_nil_right]
  | cons x xs ihx =>
    induction ys with
    | nil => rw [editDistance_nil_left, editDistance_nil_right]
    | cons y ys ihy =>
      rw [editDistance_cons_cons, editDistance_cons_cons, ihx (y :: ys), ihy, ihx ys]
      by_cases h : x = y
      · subst h
        simp only [if_true]
        omega
      · have h' : ¬ y = x := fun e => h e.symm
        simp only [h, h', if_false]
        omega

theorem editDistance_self (xs : Str) : editDistance xs xs = 0 := by
  induction xs with
  | nil => simp [editDistance]
  | cons x xs ih =>
    rw [editDistance_cons_cons, ih]
    simp

theorem editDistance_le_max (xs ys : Str) :
    editDistance xs ys ≤ max xs.length ys.length := by
  induction xs generalizing ys with
  | nil => simp [editDistance_nil_left]
  | cons x xs ih =>
    cases ys with
    | nil => simp [editDistance_nil_right]
    | cons y ys =>
      rw [editDistance_cons_cons]
      have := ih ys
      simp only [List.length_cons]
      split <;> omega

theorem editDistance_snoc_snoc (x y : Nat) (xs ys : Str) :
    editDistance (xs ++ [x]) (ys ++ [y]) =
      min (min (editDistance xs (ys ++ [y]) + 1) (editDistance (xs ++ [x]) ys + 1))
        (editDistance xs ys + (if x = y then 0 else 1)) := by
  induction xs generalizing ys with
  | nil =>
    induction ys with
    | nil => simp [editDistance]
    | cons y' ys' ihy =>
      simp only [List.nil_append, List.cons_append] at ihy ⊢
      rw [editDistance_cons_cons, ihy]
      simp only [editDistance_nil_left, editDistance_cons_cons, List.length_cons,
        List.length_append, List.length_nil]
      generalize editDistance [x] ys' = e
      generalize (if x = y then 0 else 1) = c
      generalize (if x = y' then 0 else 1) = c'
      omega
  | cons x' xs' ihx =>
    induction ys with
    | nil =>
      have h := ihx []
      simp only [List.nil_append, List.cons_append] at h ⊢
      rw [editDistance_cons_cons, h]
      simp only [editDistance_nil_right, editDistance_cons_cons, List.length_cons,
        List.length_append, List.length_nil]
      generalize editDistance xs' [y] = e
      generalize (if x = y then 0 else 1) = c
      generalize (if x' = y then 0 else 1) = c'
      omega
    | cons y' ys' ihy =>
      have h1 := ihx (y' :: ys')
      have h3 := ihx ys'
      simp only [List.cons_append] at h1 h3 ihy ⊢
      rw [editDistance_cons_cons, h1, ihy, h3]
      rw [editDistance_cons_cons x' y' xs' (ys' ++ [y]),
        editDistance_cons_cons x' y' (xs' ++ [x]) ys',
        editDistance_cons_cons x' y' xs' ys']
      generalize editDistance xs' (y' :: (ys' ++ [y])) = eA
      generalize editDistance (xs' ++ [x]) (y' :: ys') = eB
      generalize editDistance xs' (y' :: ys') = eC
      generalize editDistance (x' :: xs') (ys' ++ [y]) = eD
      generalize editDistance (x' :: (xs' ++ [x])) ys' = eE
      generalize editDistance (x' :: xs') ys' = eF
      generalize editDistance xs' (ys' ++ [y]) = eG
      generalize editDistance (xs' ++ [x]) ys' = eH
      generalize editDistance xs' ys' = eI
      generalize (if x = y then 0 else 1) = c
      generalize (if x' = y' then 0 else 1) = c'
      simp only [← min_add_add_right]
      apply le_antisymm <;> simp only [le_min_iff, min_le_iff] <;> omega

/-! ## Lemmas: the dynamic-programming table -/

theorem foldl_range'_inv {β : Type} (P : Nat → β → Prop) (f : β → Nat → β) (n s : Nat)
    (init : β) (h0 : P s init)
    (hstep : ∀ k st, s ≤ k → k < s + n → P k st → P (k + 1) (f st k)) :
    P (s + n) ((List.range' s n).foldl f init) := by
  induction n generalizing s init with
  | zero => simpa using h0
  | succ n ih =>
    rw [List.range'_succ, List.foldl_cons]
    have h1 : P (s + 1) (f init s) := hstep s init (Nat.le_refl s) (by omega) h0
    have h2 := ih (s + 1) (f init s) h1
      (fun k st hk hlt hP => hstep k st (by omega) (by omega) hP)
    have e : s + (n + 1) = s + 1 + n := by omega
    rw [e]
    exact h2

theorem Table.sized_set (dp : Table) (m n i j v : Nat) (h : dp.Sized m n) :
    (dp.set i j v).Sized m n := by
  obtain ⟨hl, hr⟩ := h
  refine ⟨by simp [Table.set, hl], ?_⟩
  intro i' hi'
  have := hr i' hi'
  simp only [Table.set, List.getD_eq_getElem?_getD, List.getElem?_set] at this ⊢
  by_cases e : i = i'
  · subst e
    have hlt : i < dp.length := by omega
    simp only [List.getElem?_eq_getElem hlt, Option.getD_some] at this
    simp [hlt, this]
  · simp [e, this]

theorem Table.get_set (dp : Table) (m n i j v i' j' : Nat) (h : dp.Sized m n)
    (hi : i ≤ m) (hj : j ≤ n) :
    (dp.set i j v).get i' j' = if i' = i ∧ j' = j then v else dp.get i' j' := by
  obtain ⟨hl, hr⟩ := h
  have hrow := hr i hi
  simp only [Table.set, Table.get, List.getD_eq_getElem?_getD, List.getElem?_set] at hrow ⊢
  have hlt : i < dp.length := by omega
  by_cases e : i = i'
  · subst e
    by_cases e' : j = j'
    · subst e'
      simp only [List.getElem?_eq_getElem hlt, Option.getD_some] at hrow
      have hjl : j < (dp[i]).length := by omega
      simp [hlt, hjl]
    · have e'' : ¬ j' = j := fun h => e' h.symm
      simp [hlt, e', e'']
  · have e'' : ¬ i' = i := fun h => e h.symm
    simp [e, e'']

theorem Table.sized_replicate (m n : Nat) :
    Table.Sized (List.replicate (m + 1) (List.replicate (n + 1) 0)) m n := by
  refine ⟨by simp, ?_⟩
  intro i hi
  have hlt : i < m + 1 := by omega
  simp [List.getD_eq_getElem?_getD, List.getElem?_replicate, hlt]

theorem prefixDistance_zero_right (a b : Str) (i : Nat) (hi : i ≤ a.length) :
    prefixDistance a b i 0 = i := by
  simp [prefixDistance, editDistance_nil_right, hi]

theorem prefixDistance_zero_left (a b : Str) (j : Nat) (hj : j ≤ b.length) :
    prefixDistance a b 0 j = j := by
  simp [prefixDistance, editDistance_nil_left, hj]

theorem take_succ_getD (a : Str) (i : Nat) (hi : i < a.length) :
    a.take (i + 1) = a.take i ++ [a.getD i 0] := by
  rw [List.take_succ]
  simp [List.getD_eq_getElem?_getD, List.getElem?_eq_getElem hi]

theorem prefixDistance_succ_succ (a b : Str) (i j : Nat) (hi : i < a.length)
    (hj : j < b.length) :
    prefixDistance a b (i + 1) (j + 1) =
      min (min (prefixDistance a b i (j + 1) + 1) (prefixDistance a b (i + 1) j + 1))
        (prefixDistance a b i j + (if a.getD i 0 = b.getD j 0 then 0 else 1)) := by
  unfold prefixDistance
  rw [take_succ_getD a i hi, take_succ_getD b j hj]
  exact editDistance_snoc_snoc _ _ _ _

theorem prefixDistance_full (a b : Str) :
    prefixDistance a b a.length b.length = editDistance a b := by
  simp [prefixDistance]

theorem Table.filled_mono (a b : Str) (dp : Table) (d d' : Nat → Nat → Prop)
    (h : dp.Filled a b d)
    (hd : ∀ i j, i ≤ a.length → j ≤ b.length → d' i j → d i j) : dp.Filled a b d' :=
  ⟨h.1, fun i j hi hj hdone => h.2 i j hi hj (hd i j hi hj hdone)⟩

theorem levCell_filled (a b : Str) (dp : Table) (i j : Nat)
    (hi1 : 1 ≤ i) (hi : i ≤ a.length) (hj1 : 1 ≤ j) (hj : j ≤ b.length)
    (h : dp.Filled a b (fun i' j' => i' < i ∨ j' = 0 ∨ (i' = i ∧ j' < j))) :
    (levCell a b i dp j).Filled a b (fun i' j' => i' < i ∨ j' = 0 ∨ (i' = i ∧ j' < j + 1)) := by
  obtain ⟨hs, hf⟩ := h
  refine ⟨Table.sized_set dp _ _ i j _ hs, ?_⟩
  intro i' j' hi' hj' hdone
  unfold levCell
  simp only []
  rw [Table.get_set dp _ _ i j _ i' j' hs hi hj]
  by_cases e : i' = i ∧ j' = j
  · obtain ⟨e1, e2⟩ := e
    subst e1 e2
    rw [if_pos ⟨rfl, rfl⟩]
    have h1 := hf (i' - 1) j' (by omega) hj (Or.inl (by omega))
    have h2 := hf i' (j' - 1) hi (by omega) (Or.inr (Or.inr ⟨rfl, by omega⟩))
    have h3 := hf (i' - 1) (j' - 1) (by omega) (by omega) (Or.inl (by omega))
    rw [h1, h2, h3]
    have hp := prefixDistance_succ_succ a b (i' - 1) (j' - 1) (by omega) (by omega)
    have ei : i' - 1 + 1 = i' := by omega
    have ej : j' - 1 + 1 = j' := by omega
    rw [ei, ej] at hp
    exact hp.symm
  · rw [if_neg e]
    apply hf i' j' hi' hj'
    rcases hdone with hlt | hz | ⟨he, hlt⟩
    · exact Or.inl hlt
    · exact Or.inr (Or.inl hz)
    · refine Or.inr (Or.inr ⟨he, ?_⟩)
      have : j' ≠ j := fun ej => e ⟨he, ej⟩
      omega

theorem levRow_filled (a b : Str) (dp : Table) (i : Nat)
    (hi1 : 1 ≤ i) (hi : i ≤ a.length)
    (h : dp.Filled a b (fun i' j' => i' < i ∨ j' = 0)) :
    (levRow a b dp i).Filled a b (fun i' j' => i' < i + 1 ∨ j' = 0) := by
  have key := foldl_range'_inv
    (fun j (t : Table) => t.Filled a b (fun i' j' => i' < i ∨ j' = 0 ∨ (i' = i ∧ j' < j)))
    (levCell a b i) b.length 1 dp
    (Table.filled_mono a b dp _ _ h (by
      intro i' j' _ _ hd
      rcases hd with hlt | hz | ⟨_, hlt⟩
      · exact Or.inl hlt
      · exact Or.inr hz
      · exact Or.inr (by omega)))
    (fun j t hj1 hj ht => levCell_filled a b t i j hi1 hi hj1 (by omega) ht)
  apply Table.filled_mono a b _ _ _ key
  intro i' j' _ hj' hd
  rcases hd with hlt | hz
  · by_cases e : i' = i
    · exact Or.inr (Or.inr ⟨e, by omega⟩)
    · exact Or.inl (by omega)
  · exact Or.inr (Or.inl hz)

theorem levInit_filled (a b : Str) :
    Table.Filled a b
      ((List.range (b.length + 1)).foldl (fun dp j => Table.set dp 0 j j)
        ((List.range (a.length + 1)).foldl (fun dp i => Table.set dp i 0 i)
          (List.replicate (a.length + 1) (List.replicate (b.length + 1) 0))))
      (fun i' j' => i' < 1 ∨ j' = 0) := by
  have k1 := foldl_range'_inv
    (fun k (t : Table) => t.Sized a.length b.length ∧ ∀ i, i < k → t.get i 0 = i)
    (fun dp i => Table.set dp i 0 i) (a.length + 1) 0 _
    ⟨Table.sized_replicate _ _, fun i hi => absurd hi (Nat.not_lt_zero i)⟩
    (by
      intro k t _ hk ⟨hs, hc⟩
      refine ⟨Table.sized_set t _ _ k 0 k hs, ?_⟩
      intro i hi
      rw [Table.get_set t _ _ k 0 k i 0 hs (by omega) (Nat.zero_le _)]
      by_cases e : i = k
      · simp [e]
      · rw [if_neg (fun h => e h.1)]
        exact hc i (by omega))
  rw [← List.range_eq_range'] at k1
  have k2 := foldl_range'_inv
    (fun k (t : Table) => t.Sized a.length b.length ∧ (∀ i, i ≤ a.length → t.get i 0 = i) ∧
      ∀ j, j < k → t.get 0 j = j)
    (fun dp j => Table.set dp 0 j j) (b.length + 1) 0 _
    ⟨k1.1, fun i hi => k1.2 i (by omega), fun j hj => absurd hj (Nat.not_lt_zero j)⟩
    (by
      intro k t _ hk ⟨hs, hc, hr⟩
      refine ⟨Table.sized_set t _ _ 0 k k hs, ?_, ?_⟩
      · intro i hi
        rw [Table.get_set t _ _ 0 k k i 0 hs (Nat.zero_le _) (by omega)]
        by_cases e : i = 0 ∧ 0 = k
        · rw [if_pos e]; omega
        · rw [if_neg e]; exact hc i hi
      · intro j hj
        rw [Table.get_set t _ _ 0 k k 0 j hs (Nat.zero_le _) (by omega)]
        by_cases e : j = k
        · simp [e]
        · rw [if_neg (fun h => e h.2)]
          exact hr j (by omega))
  rw [← List.range_eq_range'] at k2
  refine ⟨k2.1, ?_⟩
  intro i j hi hj hd
  rcases hd with hlt | hz
  · have e : i = 0 := by omega
    subst e
    rw [k2.2.2 j (by omega), prefixDistance_zero_left a b j hj]
  · subst hz
    rw [k2.2.1 i hi, prefixDistance_zero_right a b i hi]

theorem levTable_filled (a b : Str) :
    (levTable a b).Filled a b (fun i' _ => i' < 1 + a.length) := by
  have key := foldl_range'_inv
    (fun i (t : Table) => t.Filled a b (fun i' j' => i' < i ∨ j' = 0))
    (levRow a b) a.length 1 _ (levInit_filled a b)
    (fun i t hi1 hi ht => levRow_filled a b t i hi1 (by omega) ht)
  unfold levTable
  simp only []
  apply Table.filled_mono a b _ _ _ key
  intro i j _ _ hd
  exact Or.inl hd

theorem levenshteinDistance_eq_editDistance (a b : Str) :
    levenshteinDistance a b = editDistance a b := by
  unfold levenshteinDistance
  rw [(levTable_filled a b).2 a.length b.length (Nat.le_refl _) (Nat.le_refl _) (by omega)]
  exact prefixDistance_full a b

/-! ## Lemmas: similarity -/

theorem calculateSimilarity_eq (a b : Str) :
    calculateSimilarity a b =
      if a = [] ∧ b = [] then 1
      else if a = [] ∨ b = [] then 0
      else if max (normalize a).length (normalize b).length = 0 then 1
      else 1 - (editDistance (normalize a) (normalize b) : ℚ) /
        ((max (normalize a).length (normalize b).length : Nat) : ℚ) := by
  unfold calculateSimilarity
  simp only [levenshteinDistance_eq_editDistance, Bool.and_eq_true, Bool.or_eq_true,
    List.isEmpty_iff]

theorem calculateSimilarity_comm (a b : Str) :
    calculateSimilarity a b = calculateSimilarity b a := by
  rw [calculateSimilarity_eq, calculateSimilarity_eq, editDistance_comm (normalize a),
    max_comm (normalize a).length]
  simp only [and_comm (a := a = []), or_comm (a := a = [])]

theorem calculateSimilarity_self (a : Str) : calculateSimilarity a a = 1 := by
  rw [calculateSimilarity_eq, editDistance_self]
  by_cases h : a = []
  · simp [h]
  · simp [h]

theorem calculateSimilarity_nonneg (a b : Str) : 0 ≤ calculateSimilarity a b := by
  rw [calculateSimilarity_eq]
  split
  · norm_num
  · split
    · norm_num
    · split
      · norm_num
      · rename_i hm
        have hle := editDistance_le_max (normalize a) (normalize b)
        have hpos : (0 : ℚ) < ((max (normalize a).length (normalize b).length : Nat) : ℚ) := by
          exact_mod_cast Nat.pos_of_ne_zero hm
        have hq : (editDistance (normalize a) (normalize b) : ℚ) ≤
            ((max (normalize a).length (normalize b).length : Nat) : ℚ) := by
          exact_mod_cast hle
        have := (div_le_one hpos).2 hq
        linarith

theorem calculateSimilarity_le_one (a b : Str) : calculateSimilarity a b ≤ 1 := by
  rw [calculateSimilarity_eq]
  split
  · norm_num
  · split
    · norm_num
    · split
      · norm_num
      · have h1 : (0 : ℚ) ≤ (editDistance (normalize a) (normalize b) : ℚ) := Nat.cast_nonneg _
        have h2 : (0 : ℚ) ≤ ((max (normalize a).length (normalize b).length : Nat) : ℚ) :=
          Nat.cast_nonneg _
        have := div_nonneg h1 h2
        linarith

theorem normalize_nil : normalize [] = [] := rfl

theorem normalize_eq_nil_of_nil (a : Str) (h : a = []) : normalize a = [] := by
  subst h; rfl

theorem calculateSimilarity_normalize (a b : Str)
    (h : (a = [] ∧ b ≠ []) ∨ (a ≠ [] ∧ b = []) → ¬ (normalize a = [] ∧ normalize b = [])) :
    calculateSimilarity a b = calculateSimilarity (normalize a) (normalize b) := by
  rw [calculateSimilarity_eq a b, calculateSimilarity_eq (normalize a) (normalize b),
    normalize_normalize, normalize_normalize]
  by_cases ha : a = []
  · by_cases hb : b = []
    · subst ha hb
      simp [normalize_nil]
    · have hnb : normalize b ≠ [] := fun e =>
        h (Or.inl ⟨ha, hb⟩) ⟨normalize_eq_nil_of_nil a ha, e⟩
      subst ha
      simp [normalize_nil, hb, hnb]
  · by_cases hb : b = []
    · have hna : normalize a ≠ [] := fun e =>
        h (Or.inr ⟨ha, hb⟩) ⟨e, normalize_eq_nil_of_nil b hb⟩
      subst hb
      simp [normalize_nil, ha, hna]
    · by_cases hna : normalize a = []
      · by_cases hnb : normalize b = []
        · simp [ha, hb, hna, hnb]
        · simp [ha, hb, hna, hnb, editDistance_nil_left]
      · by_cases hnb : normalize b = []
        · simp [ha, hb, hna, hnb, editDistance_nil_right]
        · simp [ha, hb, hna, hnb]

theorem calculateSimilarity_nil_nil : calculateSimilarity [] [] = 1 := by
  simp [calculateSimilarity]

theorem calculateSimilarity_nil_left (b : Str) (hb : b ≠ []) : calculateSimilarity [] b = 0 := by
  cases b with
  | nil => exact absurd rfl hb
  | cons c rest => simp [calculateSimilarity]

theorem calculateSimilarity_nil_right (a : Str) (ha : a ≠ []) : calculateSimilarity a [] = 0 := by
  cases a with
  | nil => exact absurd rfl ha
  | cons c rest => simp [calculateSimilarity]

theorem calculateSimilarity_of (a b na nb : Str) (d n : Nat) (ha : a ≠ []) (hb : b ≠ [])
    (hna : normalize a = na) (hnb : normalize b = nb) (hd : levenshteinDistance na nb = d)
    (hn : max na.length nb.length = n) (hpos : n ≠ 0) :
    calculateSimilarity a b = 1 - (d : ℚ) / (n : ℚ) := by
  cases a with
  | nil => exact absurd rfl ha
  | cons x xs =>
    cases b with
    | nil => exact absurd rfl hb
    | cons y ys =>
      simp only [calculateSimilarity, List.isEmpty_cons, Bool.and_self, Bool.or_self,
        Bool.false_eq_true, if_false, hna, hnb, hd, hn, if_neg hpos]

/-! ## Claims C1 to C8 -/

/-- C1: normalization is idempotent, `normalize (normalize s) = normalize s` for
every string `s`. -/
theorem normalize_idempotent (s : Str) : normalize (normalize s) = normalize s :=
  normalize_normalize s

/-- C2: for every string `s`, `normalize s` equals the reference (keep the ASCII
letters and digits in order, lowercase them, then collapse runs of equal adjacent
characters); case folding happens before collapsing ("WwWW" gives "w", "haaaa"
gives "ha"); the output contains only `[a-z0-9]` and no two adjacent characters
are equal. -/
theorem normalize_refines_reference (s : Str) :
    normalize s = normalizeRef s ∧
      normalize (ascii "WwWW") = ascii "w" ∧ normalize (ascii "haaaa") = ascii "ha" ∧
      (∀ c ∈ normalize s, isLowerOrDigit c) ∧
      List.Chain' (fun x y => x ≠ y) (normalize s) :=
  ⟨normalize_eq_ref s, by decide, by decide, normalize_isLowerOrDigit s, normalize_chain s⟩

/-- C3: the distance read from the full dynamic-programming table of
`levenshteinDistance` equals the recursively defined Levenshtein edit distance
with unit-cost insertion, deletion and substitution, for all strings. -/
theorem levenshteinDistance_correct (a b : Str) :
    levenshteinDistance a b = editDistance a b :=
  levenshteinDistance_eq_editDistance a b

/-- C4: similarity is symmetric, `calculateSimilarity a b = calculateSimilarity b a`. -/
theorem calculateSimilarity_symmetric (a b : Str) :
    calculateSimilarity a b = calculateSimilarity b a :=
  calculateSimilarity_comm a b

/-- C5: self-similarity is one for every string, the empty string and strings
with an empty normalized form such as "!!!" included. -/
theorem calculateSimilarity_self_identity (a : Str) :
    calculateSimilarity a a = 1 ∧ calculateSimilarity [] [] = 1 ∧
      calculateSimilarity (ascii "!!!") (ascii "!!!") = 1 :=
  ⟨calculateSimilarity_self a, calculateSimilarity_self [], calculateSimilarity_self _⟩

/-- C6: similarity lies in `[0, 1]`, and the distance of the normalized forms is at
most the larger of their lengths. -/
theorem calculateSimilarity_bounds (a b : Str) :
    0 ≤ calculateSimilarity a b ∧ calculateSimilarity a b ≤ 1 ∧
      levenshteinDistance (normalize a) (normalize b) ≤
        max (normalize a).length (normalize b).length :=
  ⟨calculateSimilarity_nonneg a b, calculateSimilarity_le_one a b, by
    rw [levenshteinDistance_eq_editDistance]
    exact editDistance_le_max _ _⟩

/-- C7, as stated, fails: for the empty string and "!" the result is `0`, while the
similarity of the (both empty) normalized forms is `1`. -/
theorem calculateSimilarity_normalized_counterexample :
    calculateSimilarity [] (ascii "!") = 0 ∧
      normalize [] = [] ∧ normalize (ascii "!") = [] ∧
      calculateSimilarity (normalize []) (normalize (ascii "!")) = 1 ∧
      calculateSimilarity [] (ascii "!") ≠
        calculateSimilarity (normalize []) (normalize (ascii "!")) := by
  have h0 : calculateSimilarity [] (ascii "!") = 0 :=
    calculateSimilarity_nil_left _ (by decide)
  have hn : normalize (ascii "!") = [] := by decide
  have h1 : calculateSimilarity (normalize []) (normalize (ascii "!")) = 1 := by
    rw [hn, normalize_nil, calculateSimilarity_nil_nil]
  refine ⟨h0, rfl, hn, h1, ?_⟩
  rw [h0, h1]
  norm_num

/-- C7, amended: unless exactly one of `a`, `b` is the empty string while both
normalized forms are empty, `calculateSimilarity a b` depends only on the
normalized forms: it equals `calculateSimilarity (normalize a) (normalize b)`, which
is `1` when both normalized forms are empty and
`1 - Levenshtein / max length` of the normalized forms otherwise. -/
theorem calculateSimilarity_normalized (a b : Str)
    (h : (a = [] ∧ b ≠ []) ∨ (a ≠ [] ∧ b = []) → ¬ (normalize a = [] ∧ normalize b = [])) :
    calculateSimilarity a b = calculateSimilarity (normalize a) (normalize b) ∧
      calculateSimilarity a b =
        if normalize a = [] ∧ normalize b = [] then 1
        else 1 - (levenshteinDistance (normalize a) (normalize b) : ℚ) /
          ((max (normalize a).length (normalize b).length : Nat) : ℚ) := by
  refine ⟨calculateSimilarity_normalize a b h, ?_⟩
  rw [calculateSimilarity_normalize a b h, calculateSimilarity_eq, normalize_normalize,
    normalize_normalize, levenshteinDistance_eq_editDistance]
  by_cases hna : normalize a = []
  · by_cases hnb : normalize b = []
    · simp [hna, hnb]
    · simp [hna, hnb, editDistance_nil_left]
  · by_cases hnb : normalize b = []
    · simp [hna, hnb, editDistance_nil_right]
    · simp [hna, hnb]

/-- Witness for C7 amended: "WW" against "w!". -/
theorem calculateSimilarity_normalized_witness :
    calculateSimilarity (ascii "WW") (ascii "w!") =
        calculateSimilarity (normalize (ascii "WW")) (normalize (ascii "w!")) ∧
      calculateSimilarity (ascii "WW") (ascii "w!") =
        if normalize (ascii "WW") = [] ∧ normalize (ascii "w!") = [] then 1
        else 1 - (levenshteinDistance (normalize (ascii "WW")) (normalize (ascii "w!")) : ℚ) /
          ((max (normalize (ascii "WW")).length (normalize (ascii "w!")).length : Nat) : ℚ) :=
  calculateSimilarity_normalized (ascii "WW") (ascii "w!") (by decide)

/-- C8, as stated, fails: "kappa" normalizes to "kapa" (the run "pp" collapses), so
the similarity of "kappa" and "kapa" is `1`, not `0.8`. -/
theorem calculateSimilarity_kappa_counterexample :
    calculateSimilarity (ascii "kappa") (ascii "kapa") = 1 ∧
      calculateSimilarity (ascii "kappa") (ascii "kapa") ≠ 4 / 5 := by
  have h1 : calculateSimilarity (ascii "kappa") (ascii "kapa") =
      1 - ((0 : Nat) : ℚ) / ((4 : Nat) : ℚ) :=
    calculateSimilarity_of _ _ (ascii "kapa") (ascii "kapa") 0 4 (by decide) (by decide)
      (by decide) (by decide) (by decide) (by decide) (by decide)
  rw [h1]
  norm_num

/-- C8, amended: `calculateSimilarity "kappa" "kapa" = 1.0` (both normalize to
"kapa"), `calculateSimilarity "" "" = 1.0` and `calculateSimilarity "" "x" = 0.0`. -/
theorem calculateSimilarity_examples :
    calculateSimilarity (ascii "kappa") (ascii "kapa") = 1 ∧
      normalize (ascii "kappa") = ascii "kapa" ∧
      calculateSimilarity (ascii "") (ascii "") = 1 ∧
      calculateSimilarity (ascii "") (ascii "x") = 0 := by
  refine ⟨?_, by decide, calculateSimilarity_nil_nil, calculateSimilarity_nil_left _ (by decide)⟩
  rw [calculateSimilarity_of _ _ (ascii "kapa") (ascii "kapa") 0 4 (by decide) (by decide)
    (by decide) (by decide) (by decide) (by decide) (by decide)]
  norm_num

/-! ## Lemmas: the result map -/

theorem StrMap.find_assign_self (m : StrMap) (key value : Str) :
    (m.assign key value).find key = some value := by
  induction m with
  | nil => simp [StrMap.assign, StrMap.find]
  | cons e rest ih =>
    obtain ⟨k, v⟩ := e
    by_cases h : k = key
    · simp [StrMap.assign, StrMap.find, h]
    · simp [StrMap.assign, StrMap.find, h, ih]

theorem StrMap.find_assign_ne (m : StrMap) (key value other : Str) (h : other ≠ key) :
    (m.assign key value).find other = m.find other := by
  induction m with
  | nil =>
    have h' : ¬ key = other := fun e => h e.symm
    simp [StrMap.assign, StrMap.find, h']
  | cons e rest ih =>
    obtain ⟨k, v⟩ := e
    by_cases hk : k = key
    · subst hk
      have h' : ¬ k = other := fun e => h e.symm
      simp [StrMap.assign, StrMap.find, h']
    · by_cases ho : k = other
      · subst ho
        simp [StrMap.assign, StrMap.find, hk]
      · simp [StrMap.assign, StrMap.find, hk, ho, ih]

/-! ## Lemmas: the keyword loop -/

theorem bestKeyword_inv (threshold : ℚ) (nm : Str) (keywords : List Str) :
    ((bestKeyword threshold nm keywords).2 = [] ∧ (bestKeyword threshold nm keywords).1 = 0 ∧
        ∀ k ∈ keywords, ¬ (calculateSimilarity nm (normalize k) > 0 ∧
          calculateSimilarity nm (normalize k) ≥ threshold)) ∨
      (∃ pre post, keywords = pre ++ (bestKeyword threshold nm keywords).2 :: post ∧
        (bestKeyword threshold nm keywords).1 =
          calculateSimilarity nm (normalize (bestKeyword threshold nm keywords).2) ∧
        0 < (bestKeyword threshold nm keywords).1 ∧
        threshold ≤ (bestKeyword threshold nm keywords).1 ∧
        (∀ k ∈ pre, calculateSimilarity nm (normalize k) < (bestKeyword threshold nm keywords).1) ∧
        (∀ k ∈ post, calculateSimilarity nm (normalize k) ≤
          (bestKeyword threshold nm keywords).1)) := by
  induction keywords using List.reverseRecOn with
  | nil => exact Or.inl ⟨rfl, rfl, by simp⟩
  | append_singleton ks kw ih =>
    have hfold : bestKeyword threshold nm (ks ++ [kw]) =
        matchStep threshold nm (bestKeyword threshold nm ks) kw := by
      simp [bestKeyword, List.foldl_append]
    rw [hfold]
    generalize bestKeyword threshold nm ks = st at ih ⊢
    by_cases hc : calculateSimilarity nm (normalize kw) > st.1 ∧
        calculateSimilarity nm (normalize kw) ≥ threshold
    · have hstep : matchStep threshold nm st kw = (calculateSimilarity nm (normalize kw), kw) := by
        simp only [matchStep, if_pos hc]
      rw [hstep]
      right
      refine ⟨ks, [], rfl, rfl, ?_, hc.2, ?_, by simp⟩
      · rcases ih with ⟨_, h0, _⟩ | ⟨_, _, _, _, hpos, _, _, _⟩
        · rw [← h0]; exact hc.1
        · exact lt_trans hpos hc.1
      · intro k hk
        rcases ih with ⟨_, h0, hno⟩ | ⟨pre, post, hks, hsim, _, _, hpre, hpost⟩
        · have := hno k hk
          rw [h0] at hc
          by_contra hge
          push_neg at hge
          exact this ⟨lt_of_lt_of_le hc.1 hge, le_trans hc.2 hge⟩
        · rw [hks] at hk
          rcases List.mem_append.1 hk with hk | hk
          · exact lt_trans (hpre k hk) hc.1
          · rcases List.mem_cons.1 hk with rfl | hk
            · rw [← hsim]; exact hc.1
            · exact lt_of_le_of_lt (hpost k hk) hc.1
    · have hstep : matchStep threshold nm st kw = st := by
        simp only [matchStep, if_neg hc]
      rw [hstep]
      rcases ih with ⟨he, h0, hno⟩ | ⟨pre, post, hks, hsim, hpos, hthr, hpre, hpost⟩
      · left
        refine ⟨he, h0, ?_⟩
        intro k hk
        rcases List.mem_append.1 hk with hk | hk
        · exact hno k hk
        · rw [List.mem_singleton] at hk
          subst hk
          rw [h0] at hc
          exact hc
      · right
        refine ⟨pre, post ++ [kw], by rw [hks]; simp, hsim, hpos, hthr, hpre, ?_⟩
        intro k hk
        rcases List.mem_append.1 hk with hk | hk
        · exact hpost k hk
        · rw [List.mem_singleton] at hk
          subst hk
          by_contra hlt
          push_neg at hlt
          exact hc ⟨hlt, le_trans hthr (le_of_lt hlt)⟩

/-! ## Lemmas: the category loop -/

theorem matchCategory_eq (threshold : ℚ) (nm : Str) (results : StrMap) (c : KeywordCategory) :
    matchCategory threshold nm results c =
      if (bestKeyword threshold nm c.keywords).2 = [] then results
      else results.assign c.name (bestKeyword threshold nm c.keywords).2 := by
  unfold matchCategory
  by_cases h : (bestKeyword threshold nm c.keywords).2 = []
  · simp [h]
  · simp [h]

theorem foldl_matchCategory_find_of_not_mem (threshold : ℚ) (nm key : Str)
    (cs : List KeywordCategory) (init : StrMap)
    (h : key ∉ cs.map KeywordCategory.name) :
    (cs.foldl (matchCategory threshold nm) init).find key = init.find key := by
  induction cs generalizing init with
  | nil => rfl
  | cons c rest ih =>
    simp only [List.map_cons, List.mem_cons, not_or] at h
    rw [List.foldl_cons, ih _ h.2, matchCategory_eq]
    split
    · rfl
    · exact StrMap.find_assign_ne _ _ _ _ h.1

theorem foldl_matchCategory_find (threshold : ℚ) (nm : Str) (cs : List KeywordCategory)
    (init : StrMap) (C : KeywordCategory)
    (hnodup : (cs.map KeywordCategory.name).Nodup) (hC : C ∈ cs) :
    (cs.foldl (matchCategory threshold nm) init).find C.name =
      if (bestKeyword threshold nm C.keywords).2 = [] then init.find C.name
      else some (bestKeyword threshold nm C.keywords).2 := by
  induction cs generalizing init with
  | nil => simp at hC
  | cons c rest ih =>
    rw [List.map_cons, List.nodup_cons] at hnodup
    rw [List.foldl_cons]
    rcases List.mem_cons.1 hC with rfl | hmem
    · rw [foldl_matchCategory_find_of_not_mem _ _ _ _ _ hnodup.1, matchCategory_eq]
      split
      · rfl
      · exact StrMap.find_assign_self _ _ _
    · have hne : C.name ≠ c.name := by
        intro e
        apply hnodup.1
        rw [← e]
        exact List.mem_map_of_mem _ hmem
      have hstep : (matchCategory threshold nm init c).find C.name = init.find C.name := by
        rw [matchCategory_eq]
        split
        · rfl
        · exact StrMap.find_assign_ne _ _ _ _ hne
      rw [ih _ hnodup.2 hmem, hstep]

/-! ## Lemmas: evaluating the keyword loop at threshold `0.8` -/

theorem matchStep_skip (nm k : Str) (st : ℚ × Str) (hnm : nm ≠ []) (hk : normalize k ≠ [])
    (h : max (normalize nm).length (normalize k).length <
      5 * levenshteinDistance (normalize nm) (normalize k)) :
    matchStep (4 / 5) nm st k = st := by
  have hn0 : max (normalize nm).length (normalize k).length ≠ 0 := by
    intro e
    have hle := editDistance_le_max (normalize nm) (normalize k)
    rw [levenshteinDistance_eq_editDistance] at h
    omega
  have hsim := calculateSimilarity_of nm (normalize k) (normalize nm) (normalize k) _ _ hnm hk
    rfl (normalize_normalize k) rfl rfl hn0
  have hpos : (0 : ℚ) < ((max (normalize nm).length (normalize k).length : Nat) : ℚ) := by
    exact_mod_cast Nat.pos_of_ne_zero hn0
  have hq : ((max (normalize nm).length (normalize k).length : Nat) : ℚ) <
      5 * (levenshteinDistance (normalize nm) (normalize k) : ℚ) := by
    exact_mod_cast h
  have hlt : calculateSimilarity nm (normalize k) < 4 / 5 := by
    rw [hsim]
    have : (1 : ℚ) / 5 < (levenshteinDistance (normalize nm) (normalize k) : ℚ) /
        ((max (normalize nm).length (normalize k).length : Nat) : ℚ) := by
      rw [lt_div_iff₀ hpos]
      linarith
    linarith
  unfold matchStep
  simp only []
  rw [if_neg]
  intro hc
  exact absurd hc.2 (not_le.2 hlt)

theorem matchStep_take (nm k : Str) (st : ℚ × Str) (hnm : nm ≠ []) (hk : normalize k ≠ [])
    (hst : st.1 < 1) (h : levenshteinDistance (normalize nm) (normalize k) = 0) :
    matchStep (4 / 5) nm st k = (1, k) := by
  have hn0 : max (normalize nm).length (normalize k).length ≠ 0 := by
    intro e
    have : (normalize k).length = 0 := by omega
    exact hk (List.length_eq_zero.1 this)
  have hsim := calculateSimilarity_of nm (normalize k) (normalize nm) (normalize k) _ _ hnm hk
    rfl (normalize_normalize k) h rfl hn0
  have h1 : calculateSimilarity nm (normalize k) = 1 := by
    rw [hsim]; simp
  unfold matchStep
  simp only []
  rw [h1, if_pos ⟨hst, by norm_num⟩]

theorem foldl_matchStep_one (threshold : ℚ) (nm k : Str) (ks : List Str) :
    ks.foldl (matchStep threshold nm) (1, k) = (1, k) := by
  induction ks with
  | nil => rfl
  | cons kw rest ih =>
    rw [List.foldl_cons]
    have : matchStep threshold nm (1, k) kw = (1, k) := by
      unfold matchStep
      simp only []
      rw [if_neg]
      intro hc
      exact absurd hc.1 (not_lt.2 (calculateSimilarity_le_one _ _))
    rw [this, ih]

theorem matchStep_one (threshold : ℚ) (nm k kw : Str) :
    matchStep threshold nm (1, k) kw = (1, k) :=
  foldl_matchStep_one threshold nm k [kw]

/-! ## Lemmas: the default categories on "WWWWWWW" and "Pogggg!!!" -/

theorem bestKeyword_wins_w :
    bestKeyword (4 / 5) [119] (["W", "pog", "clutch", "insane", "ez", "gg", "wp"].map ascii) = (1, ascii "W") := by
  simp only [bestKeyword, List.map_cons, List.map_nil, List.foldl_cons, List.foldl_nil]
  rw [matchStep_take [119] (ascii "W") _ (by decide) (by decide) (by norm_num) (by decide)]
  simp only [matchStep_one]

theorem bestKeyword_losses_w :
    bestKeyword (4 / 5) [119] (["L", "ff", "sad", "rip", "unlucky", "oof"].map ascii) = (0, []) := by
  simp only [bestKeyword, List.map_cons, List.map_nil, List.foldl_cons, List.foldl_nil]
  rw [matchStep_skip [119] (ascii "L") _ (by decide) (by decide) (by decide),
    matchStep_skip [119] (ascii "ff") _ (by decide) (by decide) (by decide),
    matchStep_skip [119] (ascii "sad") _ (by decide) (by decide) (by decide),
    matchStep_skip [119] (ascii "rip") _ (by decide) (by decide) (by decide),
    matchStep_skip [119] (ascii "unlucky") _ (by decide) (by decide) (by decide),
    matchStep_skip [119] (ascii "oof") _ (by decide) (by decide) (by decide)]

theorem bestKeyword_hype_w :
    bestKeyword (4 / 5) [119] (["OMEGALUL", "KEKW", "PogChamp", "monkaS", "OMEGALUL", "LUL"].map ascii) = (0, []) := by
  simp only [bestKeyword, List.map_cons, List.map_nil, List.foldl_cons, List.foldl_nil]
  rw [matchStep_skip [119] (ascii "OMEGALUL") _ (by decide) (by decide) (by decide),
    matchStep_skip [119] (ascii "KEKW") _ (by decide) (by decide) (by decide),
    matchStep_skip [119] (ascii "PogChamp") _ (by decide) (by decide) (by decide),
    matchStep_skip [119] (ascii "monkaS") _ (by decide) (by decide) (by decide),
    matchStep_skip [119] (ascii "OMEGALUL") _ (by decide) (by decide) (by decide),
    matchStep_skip [119] (ascii "LUL") _ (by decide) (by decide) (by decide)]

theorem bestKeyword_wins_pog :
    bestKeyword (4 / 5) [112, 111, 103] (["W", "pog", "clutch", "insane", "ez", "gg", "wp"].map ascii) = (1, ascii "pog") := by
  simp only [bestKeyword, List.map_cons, List.map_nil, List.foldl_cons, List.foldl_nil]
  rw [matchStep_skip [112, 111, 103] (ascii "W") _ (by decide) (by decide) (by decide),
    matchStep_take [112, 111, 103] (ascii "pog") _ (by decide) (by decide) (by norm_num) (by decide)]
  simp only [matchStep_one]

theorem bestKeyword_losses_pog :
    bestKeyword (4 / 5) [112, 111, 103] (["L", "ff", "sad", "rip", "unlucky", "oof"].map ascii) = (0, []) := by
  simp only [bestKeyword, List.map_cons, List.map_nil, List.foldl_cons, List.foldl_nil]
  rw [matchStep_skip [112, 111, 103] (ascii "L") _ (by decide) (by decide) (by decide),
    matchStep_skip [112, 111, 103] (ascii "ff") _ (by decide) (by decide) (by decide),
    matchStep_skip [112, 111, 103] (ascii "sad") _ (by decide) (by decide) (by decide),
    matchStep_skip [112, 111, 103] (ascii "rip") _ (by decide) (by decide) (by decide),
    matchStep_skip [112, 111, 103] (ascii "unlucky") _ (by decide) (by decide) (by decide),
    matchStep_skip [112, 111, 103] (ascii "oof") _ (by decide) (by decide) (by decide)]

theorem bestKeyword_hype_pog :
    bestKeyword (4 / 5) [112, 111, 103] (["OMEGALUL", "KEKW", "PogChamp", "monkaS", "OMEGALUL", "LUL"].map ascii) = (0, []) := by
  simp only [bestKeyword, List.map_cons, List.map_nil, List.foldl_cons, List.foldl_nil]
  rw [matchStep_skip [112, 111, 103] (ascii "OMEGALUL") _ (by decide) (by decide) (by decide),
    matchStep_skip [112, 111, 103] (ascii "KEKW") _ (by decide) (by decide) (by decide),
    matchStep_skip [112, 111, 103] (ascii "PogChamp") _ (by decide) (by decide) (by decide),
    matchStep_skip [112, 111, 103] (ascii "monkaS") _ (by decide) (by decide) (by decide),
    matchStep_skip [112, 111, 103] (ascii "OMEGALUL") _ (by decide) (by decide) (by decide),
    matchStep_skip [112, 111, 103] (ascii "LUL") _ (by decide) (by decide) (by decide)]

theorem match_default_w :
    (setupDefaultKeywords defaultMatcher).match_ (ascii "WWWWWWW") =
      [(ascii "wins", ascii "W")] := by
  have hnm : normalize (ascii "WWWWWWW") = [119] := by decide
  show List.foldl (matchCategory (4 / 5) (normalize (ascii "WWWWWWW"))) []
    [⟨ascii "wins", ["W", "pog", "clutch", "insane", "ez", "gg", "wp"].map ascii, 1⟩,
     ⟨ascii "losses", ["L", "ff", "sad", "rip", "unlucky", "oof"].map ascii, 1⟩,
     ⟨ascii "hype", ["OMEGALUL", "KEKW", "PogChamp", "monkaS", "OMEGALUL", "LUL"].map ascii, 4 / 5⟩] = _
  rw [hnm]
  simp only [List.foldl_cons, List.foldl_nil, matchCategory_eq, bestKeyword_wins_w,
    bestKeyword_losses_w, bestKeyword_hype_w, if_true]
  rw [if_neg (by decide)]
  rfl

theorem match_default_pog :
    (setupDefaultKeywords defaultMatcher).match_ (ascii "Pogggg!!!") =
      [(ascii "wins", ascii "pog")] := by
  have hnm : normalize (ascii "Pogggg!!!") = [112, 111, 103] := by decide
  show List.foldl (matchCategory (4 / 5) (normalize (ascii "Pogggg!!!"))) []
    [⟨ascii "wins", ["W", "pog", "clutch", "insane", "ez", "gg", "wp"].map ascii, 1⟩,
     ⟨ascii "losses", ["L", "ff", "sad", "rip", "unlucky", "oof"].map ascii, 1⟩,
     ⟨ascii "hype", ["OMEGALUL", "KEKW", "PogChamp", "monkaS", "OMEGALUL", "LUL"].map ascii, 4 / 5⟩] = _
  rw [hnm]
  simp only [List.foldl_cons, List.foldl_nil, matchCategory_eq, bestKeyword_wins_pog,
    bestKeyword_losses_pog, bestKeyword_hype_pog, if_true]
  rw [if_neg (by decide)]
  rfl

/-! ## Claims C9 and C10 -/

/-- C9: with the three default categories of `setupDefaultKeywords` and threshold
`0.8`, `match("WWWWWWW")` is exactly the map with the single entry "wins" to "W" and
`match("Pogggg!!!")` is exactly the map with the single entry "wins" to "pog"; there
is no entry for "losses" or "hype". -/
theorem match_default_examples :
    (setupDefaultKeywords defaultMatcher).similarity_threshold_ = 4 / 5 ∧
      (setupDefaultKeywords defaultMatcher).match_ (ascii "WWWWWWW") =
        [(ascii "wins", ascii "W")] ∧
      (setupDefaultKeywords defaultMatcher).match_ (ascii "Pogggg!!!") =
        [(ascii "wins", ascii "pog")] ∧
      ((setupDefaultKeywords defaultMatcher).match_ (ascii "WWWWWWW")).find (ascii "losses") =
        none ∧
      ((setupDefaultKeywords defaultMatcher).match_ (ascii "WWWWWWW")).find (ascii "hype") =
        none ∧
      ((setupDefaultKeywords defaultMatcher).match_ (ascii "Pogggg!!!")).find (ascii "losses") =
        none ∧
      ((setupDefaultKeywords defaultMatcher).match_ (ascii "Pogggg!!!")).find (ascii "hype") =
        none := by
  refine ⟨rfl, match_default_w, match_default_pog, ?_, ?_, ?_, ?_⟩
  · rw [match_default_w]; decide
  · rw [match_default_w]; decide
  · rw [match_default_pog]; decide
  · rw [match_default_pog]; decide

/-- C10: for a matcher with distinct category names, a message and a category `C`
of the matcher: if `match(message)` maps `C.name` to `k`, then `k` is a raw keyword
of `C`, its similarity to the normalized message is at least the threshold and is
the maximum over all keywords of `C`, and `k` is the first keyword of `C` attaining
that maximum (every keyword before it scores strictly less). -/
theorem match_sound (self : KeywordMatcher) (message : Str) (C : KeywordCategory) (k : Str)
    (hnodup : (self.categories_.map KeywordCategory.name).Nodup)
    (hC : C ∈ self.categories_)
    (hk : (self.match_ message).find C.name = some k) :
    k ∈ C.keywords ∧
      self.similarity_threshold_ ≤ calculateSimilarity (normalize message) (normalize k) ∧
      (∀ k' ∈ C.keywords, calculateSimilarity (normalize message) (normalize k') ≤
        calculateSimilarity (normalize message) (normalize k)) ∧
      ∃ pre post, C.keywords = pre ++ k :: post ∧
        ∀ k' ∈ pre, calculateSimilarity (normalize message) (normalize k') <
          calculateSimilarity (normalize message) (normalize k) := by
  unfold KeywordMatcher.match_ at hk
  simp only [] at hk
  rw [foldl_matchCategory_find _ _ _ _ C hnodup hC] at hk
  by_cases he : (bestKeyword self.similarity_threshold_ (normalize message) C.keywords).2 = []
  · rw [if_pos he] at hk
    simp [StrMap.find] at hk
  · rw [if_neg he] at hk
    have hkeq : (bestKeyword self.similarity_threshold_ (normalize message) C.keywords).2 = k :=
      Option.some.inj hk
    rcases bestKeyword_inv self.similarity_threshold_ (normalize message) C.keywords with
      ⟨h0, _, _⟩ | ⟨pre, post, hks, hsim, _, hthr, hpre, hpost⟩
    · exact absurd h0 he
    · rw [hkeq] at hks hsim
      rw [hsim] at hthr hpre hpost
      refine ⟨?_, hthr, ?_, pre, post, hks, hpre⟩
      · rw [hks]; simp
      · intro k' hk'
        rw [hks] at hk'
        rcases List.mem_append.1 hk' with hm | hm
        · exact le_of_lt (hpre k' hm)
        · rcases List.mem_cons.1 hm with rfl | hm
          · exact le_refl _
          · exact hpost k' hm

/-- Witness for C10: the default matcher on "WWWWWWW" and its category "wins". -/
theorem match_sound_witness :
    ascii "W" ∈ ["W", "pog", "clutch", "insane", "ez", "gg", "wp"].map ascii ∧
      (4 / 5 : ℚ) ≤ calculateSimilarity (normalize (ascii "WWWWWWW")) (normalize (ascii "W")) ∧
      (∀ k' ∈ ["W", "pog", "clutch", "insane", "ez", "gg", "wp"].map ascii,
        calculateSimilarity (normalize (ascii "WWWWWWW")) (normalize k') ≤
          calculateSimilarity (normalize (ascii "WWWWWWW")) (normalize (ascii "W"))) ∧
      ∃ pre post, ["W", "pog", "clutch", "insane", "ez", "gg", "wp"].map ascii = pre ++ ascii "W" :: post ∧
        ∀ k' ∈ pre, calculateSimilarity (normalize (ascii "WWWWWWW")) (normalize k') <
          calculateSimilarity (normalize (ascii "WWWWWWW")) (normalize (ascii "W")) :=
  match_sound (setupDefaultKeywords defaultMatcher) (ascii "WWWWWWW")
    ⟨ascii "wins", ["W", "pog", "clutch", "insane", "ez", "gg", "wp"].map ascii, 1⟩ (ascii "W")
    (by decide) (by simp [setupDefaultKeywords, defaultMatcher, KeywordMatcher.addCategory])
    (by rw [match_default_w]; decide)

/-! ## Lemmas: keys of the result map -/

theorem match_find_eq (self : KeywordMatcher) (message : Str) (C : KeywordCategory)
    (hnodup : (self.categories_.map KeywordCategory.name).Nodup) (hC : C ∈ self.categories_) :
    (self.match_ message).find C.name =
      if (bestKeyword self.similarity_threshold_ (normalize message) C.keywords).2 = [] then none
      else some (bestKeyword self.similarity_threshold_ (normalize message) C.keywords).2 := by
  unfold KeywordMatcher.match_
  simp only []
  rw [foldl_matchCategory_find _ _ _ _ C hnodup hC]
  rfl

theorem bestKeyword_snd_ne_nil_iff (threshold : ℚ) (nm : Str) (keywords : List Str)
    (hne : ∀ k ∈ keywords, k ≠ []) :
    (bestKeyword threshold nm keywords).2 ≠ [] ↔
      ∃ k ∈ keywords, 0 < calculateSimilarity nm (normalize k) ∧
        threshold ≤ calculateSimilarity nm (normalize k) := by
  rcases bestKeyword_inv threshold nm keywords with
    ⟨h0, _, hno⟩ | ⟨pre, post, hks, hsim, hpos, hthr, _, _⟩
  · constructor
    · intro h
      exact absurd h0 h
    · rintro ⟨k, hk, h1, h2⟩
      exact absurd ⟨h1, h2⟩ (hno k hk)
  · have hmem : (bestKeyword threshold nm keywords).2 ∈ keywords := by
      have hm := List.mem_append_right pre
        (List.mem_cons_self (bestKeyword threshold nm keywords).2 post)
      rw [← hks] at hm
      exact hm
    constructor
    · intro _
      exact ⟨_, hmem, by rw [← hsim]; exact hpos, by rw [← hsim]; exact hthr⟩
    · intro _
      exact hne _ hmem

theorem foldl_matchCategory_find_some (threshold : ℚ) (nm key k : Str)
    (cs : List KeywordCategory) (init : StrMap)
    (h : (cs.foldl (matchCategory threshold nm) init).find key = some k) :
    init.find key = some k ∨
      ∃ C ∈ cs, C.name = key ∧ (bestKeyword threshold nm C.keywords).2 = k ∧ k ≠ [] := by
  induction cs generalizing init with
  | nil => exact Or.inl h
  | cons c rest ih =>
    rw [List.foldl_cons] at h
    rcases ih _ h with h1 | ⟨C, hC, h2⟩
    · rw [matchCategory_eq] at h1
      by_cases he : (bestKeyword threshold nm c.keywords).2 = []
      · rw [if_pos he] at h1
        exact Or.inl h1
      · rw [if_neg he] at h1
        by_cases hn : key = c.name
        · subst hn
          rw [StrMap.find_assign_self] at h1
          have hk := Option.some.inj h1
          exact Or.inr ⟨c, List.mem_cons_self _ _, rfl, hk, by rw [← hk]; exact he⟩
        · rw [StrMap.find_assign_ne _ _ _ _ hn] at h1
          exact Or.inl h1
    · exact Or.inr ⟨C, List.mem_cons_of_mem _ hC, h2⟩

theorem match_find_some_threshold (self : KeywordMatcher) (message c k : Str)
    (h : (self.match_ message).find c = some k) :
    self.similarity_threshold_ ≤ calculateSimilarity (normalize message) (normalize k) := by
  unfold KeywordMatcher.match_ at h
  simp only [] at h
  rcases foldl_matchCategory_find_some _ _ _ _ _ _ h with h0 | ⟨C, _, _, hk, hne⟩
  · simp [StrMap.find] at h0
  · rcases bestKeyword_inv self.similarity_threshold_ (normalize message) C.keywords with
      ⟨h0, _, _⟩ | ⟨_, _, _, hsim, _, hthr, _, _⟩
    · rw [hk] at h0
      exact absurd h0 hne
    · rw [hsim, hk] at hthr
      exact hthr

theorem match_find_none_of_not_mem (self : KeywordMatcher) (message c : Str)
    (h : c ∉ self.categories_.map KeywordCategory.name) :
    (self.match_ message).find c = none := by
  unfold KeywordMatcher.match_
  simp only []
  rw [foldl_matchCategory_find_of_not_mem _ _ _ _ _ h]
  rfl

theorem getCategoryScore_of_some (self : KeywordMatcher) (message c k : Str)
    (h : (self.match_ message).find c = some k) :
    self.getCategoryScore message c = calculateSimilarity (normalize message) (normalize k) := by
  unfold KeywordMatcher.getCategoryScore
  simp only [h]

theorem getCategoryScore_of_none (self : KeywordMatcher) (message c : Str)
    (h : (self.match_ message).find c = none) :
    self.getCategoryScore message c = 0 := by
  unfold KeywordMatcher.getCategoryScore
  simp only [h]

/-! ## Lemmas: small matchers used as concrete inputs -/

theorem calculateSimilarity_a_b :
    calculateSimilarity (normalize (ascii "a")) (normalize (ascii "b")) = 0 := by
  rw [calculateSimilarity_of (normalize (ascii "a")) (normalize (ascii "b")) [97] [98] 1 1
    (by decide) (by decide) (by decide) (by decide) (by decide) (by decide) (by decide)]
  norm_num

theorem match_zero_threshold :
    (KeywordMatcher.mk [⟨ascii "c", [ascii "b"], 1⟩] 0).match_ (ascii "a") = [] := by
  have hsim := calculateSimilarity_a_b
  simp only [KeywordMatcher.match_, List.foldl_cons, List.foldl_nil, matchCategory_eq,
    bestKeyword, matchStep, hsim]
  simp

theorem match_empty_keyword :
    (KeywordMatcher.mk [⟨ascii "c", [[]], 1⟩] (4 / 5)).match_ [] = [] := by
  have hsim : calculateSimilarity (normalize []) (normalize []) = 1 := by
    rw [normalize_nil, calculateSimilarity_nil_nil]
  simp only [KeywordMatcher.match_, List.foldl_cons, List.foldl_nil, matchCategory_eq,
    bestKeyword, matchStep, hsim]
  norm_num

theorem match_duplicate_names :
    (KeywordMatcher.mk [⟨ascii "c", [ascii "b"], 1⟩, ⟨ascii "c", [ascii "a"], 1⟩]
      (4 / 5)).match_ (ascii "a") = [(ascii "c", ascii "a")] := by
  have hnm : normalize (ascii "a") = [97] := by decide
  simp only [KeywordMatcher.match_, List.foldl_cons, List.foldl_nil, matchCategory_eq,
    bestKeyword, hnm]
  rw [matchStep_skip [97] (ascii "b") _ (by decide) (by decide) (by decide),
    matchStep_take [97] (ascii "a") _ (by decide) (by decide) (by norm_num) (by decide)]
  simp only [if_true]
  rw [if_neg (by decide)]
  rfl

/-! ## Claims C11 to C13 -/

/-- C11, as stated, fails in three ways. At threshold `0` the keyword "b" has
similarity `0 ≥ 0` to the message "a", yet the category is no key (a keyword must
score strictly more than the initial best score `0`). At threshold `0.8` the empty
keyword has similarity `1` to the empty message, yet the category is no key (an
empty best match is not recorded). With two categories of the same name, the name
is a key although no keyword of the first category reaches the threshold. -/
theorem match_key_iff_counterexample :
    (((KeywordMatcher.mk [⟨ascii "c", [ascii "b"], 1⟩] 0).match_ (ascii "a")).find (ascii "c")
        = none ∧
      ∃ k ∈ [ascii "b"],
        (0 : ℚ) ≤ calculateSimilarity (normalize (ascii "a")) (normalize k)) ∧
    (((KeywordMatcher.mk [⟨ascii "c", [[]], 1⟩] (4 / 5)).match_ []).find (ascii "c") = none ∧
      ∃ k ∈ [([] : Str)], (4 / 5 : ℚ) ≤ calculateSimilarity (normalize []) (normalize k)) ∧
    (((KeywordMatcher.mk [⟨ascii "c", [ascii "b"], 1⟩, ⟨ascii "c", [ascii "a"], 1⟩]
        (4 / 5)).match_ (ascii "a")).find (ascii "c") = some (ascii "a") ∧
      ¬ ∃ k ∈ [ascii "b"],
        (4 / 5 : ℚ) ≤ calculateSimilarity (normalize (ascii "a")) (normalize k)) := by
  refine ⟨⟨?_, ascii "b", by simp, calculateSimilarity_nonneg _ _⟩, ⟨?_, [], by simp, ?_⟩,
    ⟨?_, ?_⟩⟩
  · rw [match_zero_threshold]; rfl
  · rw [match_empty_keyword]; rfl
  · rw [normalize_nil, calculateSimilarity_nil_nil]; norm_num
  · rw [match_duplicate_names]; decide
  · rintro ⟨k, hk, h⟩
    rw [List.mem_singleton] at hk
    subst hk
    rw [calculateSimilarity_a_b] at h
    norm_num at h

/-- C11, amended: for a matcher with distinct category names, any threshold, any
message and a category `C` of the matcher whose keywords are all non-empty strings,
`C.name` is a key of `match(message)` if and only if some keyword `k` of `C` has
similarity `> 0` and `≥ threshold` to the normalized message; for a threshold `> 0`
this is: if and only if some keyword has similarity `≥ threshold`. -/
theorem match_key_iff (self : KeywordMatcher) (message : Str) (C : KeywordCategory)
    (hnodup : (self.categories_.map KeywordCategory.name).Nodup)
    (hC : C ∈ self.categories_) (hne : ∀ k ∈ C.keywords, k ≠ []) :
    ((self.match_ message).find C.name ≠ none ↔
        ∃ k ∈ C.keywords, 0 < calculateSimilarity (normalize message) (normalize k) ∧
          self.similarity_threshold_ ≤ calculateSimilarity (normalize message) (normalize k)) ∧
      (0 < self.similarity_threshold_ →
        ((self.match_ message).find C.name ≠ none ↔
          ∃ k ∈ C.keywords,
            self.similarity_threshold_ ≤
              calculateSimilarity (normalize message) (normalize k))) := by
  have key : (self.match_ message).find C.name ≠ none ↔
      ∃ k ∈ C.keywords, 0 < calculateSimilarity (normalize message) (normalize k) ∧
        self.similarity_threshold_ ≤ calculateSimilarity (normalize message) (normalize k) := by
    rw [match_find_eq self message C hnodup hC,
      ← bestKeyword_snd_ne_nil_iff self.similarity_threshold_ (normalize message) C.keywords hne]
    by_cases he : (bestKeyword self.similarity_threshold_ (normalize message) C.keywords).2 = []
    · simp [he]
    · simp [he]
  refine ⟨key, ?_⟩
  intro hpos
  rw [key]
  constructor
  · rintro ⟨k, hk, _, h2⟩
    exact ⟨k, hk, h2⟩
  · rintro ⟨k, hk, h2⟩
    exact ⟨k, hk, lt_of_lt_of_le hpos h2, h2⟩

/-- Witness for C11 amended: the default matcher, "WWWWWWW" and the category "wins". -/
theorem match_key_iff_witness :
    (((setupDefaultKeywords defaultMatcher).match_ (ascii "WWWWWWW")).find (ascii "wins") ≠ none ↔
        ∃ k ∈ ["W", "pog", "clutch", "insane", "ez", "gg", "wp"].map ascii,
          0 < calculateSimilarity (normalize (ascii "WWWWWWW")) (normalize k) ∧
          (4 / 5 : ℚ) ≤ calculateSimilarity (normalize (ascii "WWWWWWW")) (normalize k)) ∧
      ((0 : ℚ) < 4 / 5 →
        (((setupDefaultKeywords defaultMatcher).match_ (ascii "WWWWWWW")).find (ascii "wins")
            ≠ none ↔
          ∃ k ∈ ["W", "pog", "clutch", "insane", "ez", "gg", "wp"].map ascii,
            (4 / 5 : ℚ) ≤ calculateSimilarity (normalize (ascii "WWWWWWW")) (normalize k))) :=
  match_key_iff (setupDefaultKeywords defaultMatcher) (ascii "WWWWWWW")
    ⟨ascii "wins", ["W", "pog", "clutch", "insane", "ez", "gg", "wp"].map ascii, 1⟩
    (by decide) (by simp [setupDefaultKeywords, defaultMatcher, KeywordMatcher.addCategory])
    (by decide)

/-- C12: `getCategoryScore(message, c)` is the similarity between the normalized
message and the keyword that `match(message)` records for `c` when `c` is a key, and
`0` otherwise (in particular for a name of no category and for a matcher without
categories); the result lies in `[0, 1]` and is at least the threshold when `c` is
matched. -/
theorem getCategoryScore_spec (self : KeywordMatcher) (message c : Str) :
    (∀ k, (self.match_ message).find c = some k →
        self.getCategoryScore message c =
          calculateSimilarity (normalize message) (normalize k) ∧
        self.similarity_threshold_ ≤ self.getCategoryScore message c) ∧
      ((self.match_ message).find c = none → self.getCategoryScore message c = 0) ∧
      (c ∉ self.categories_.map KeywordCategory.name → self.getCategoryScore message c = 0) ∧
      (self.categories_ = [] → self.getCategoryScore message c = 0) ∧
      0 ≤ self.getCategoryScore message c ∧ self.getCategoryScore message c ≤ 1 := by
  have hnone : (self.match_ message).find c = none → self.getCategoryScore message c = 0 :=
    getCategoryScore_of_none self message c
  have hnot : c ∉ self.categories_.map KeywordCategory.name →
      self.getCategoryScore message c = 0 :=
    fun h => hnone (match_find_none_of_not_mem self message c h)
  refine ⟨?_, hnone, hnot, ?_, ?_⟩
  · intro k hk
    rw [getCategoryScore_of_some self message c k hk]
    exact ⟨rfl, match_find_some_threshold self message c k hk⟩
  · intro he
    apply hnot
    rw [he]
    simp
  · cases hf : (self.match_ message).find c with
    | none =>
      rw [hnone hf]
      norm_num
    | some k =>
      rw [getCategoryScore_of_some self message c k hf]
      exact ⟨calculateSimilarity_nonneg _ _, calculateSimilarity_le_one _ _⟩

/-- C13, as stated, fails: `setThreshold` stores its argument unchanged, so after
`setThreshold(2)` the threshold is `2` (not `1`) and after `setThreshold(-1)` it is
`-1` (not `0`). -/
theorem setThreshold_counterexample :
    (defaultMatcher.setThreshold 2).similarity_threshold_ = 2 ∧
      ¬ ((defaultMatcher.setThreshold 2).similarity_threshold_ ≤ 1) ∧
      (defaultMatcher.setThreshold (-1)).similarity_threshold_ = -1 ∧
      ¬ (0 ≤ (defaultMatcher.setThreshold (-1)).similarity_threshold_) := by
  refine ⟨rfl, ?_, rfl, ?_⟩
  · show ¬ ((2 : ℚ) ≤ 1)
    norm_num
  · show ¬ ((0 : ℚ) ≤ -1)
    norm_num

/-- C13, amended: for every `t`, after `setThreshold(t)` the similarity threshold
is `t` itself (no clamping) and the categories are unchanged; so it lies in `[0, 1]`
exactly when `t` does. -/
theorem setThreshold_spec (self : KeywordMatcher) (t : ℚ) :
    (self.setThreshold t).similarity_threshold_ = t ∧
      (self.setThreshold t).categories_ = self.categories_ ∧
      ((0 ≤ (self.setThreshold t).similarity_threshold_ ∧
          (self.setThreshold t).similarity_threshold_ ≤ 1) ↔ (0 ≤ t ∧ t ≤ 1)) :=
  ⟨rfl, rfl, Iff.rfl⟩

/-! ## Lemmas: chat buffer -/

theorem cleanupLoop_eq_dropWhile (cutoff : Int) (l : List ChatMessage) :
    ChatBuffer.cleanupLoop cutoff l = l.dropWhile (fun x => decide (x.timestamp < cutoff)) := by
  induction l with
  | nil => rfl
  | cons m rest ih =>
    by_cases h : m.timestamp < cutoff
    · simp [ChatBuffer.cleanupLoop, h, ih]
    · simp [ChatBuffer.cleanupLoop, h]

theorem cleanupLoop_split (cutoff : Int) (l : List ChatMessage) :
    ∃ pre, l = pre ++ ChatBuffer.cleanupLoop cutoff l ∧ ∀ x ∈ pre, x.timestamp < cutoff := by
  induction l with
  | nil => exact ⟨[], rfl, by simp⟩
  | cons m rest ih =>
    by_cases h : m.timestamp < cutoff
    · obtain ⟨pre, hsplit, hpre⟩ := ih
      refine ⟨m :: pre, ?_, ?_⟩
      · simp only [ChatBuffer.cleanupLoop, h, if_true, List.cons_append]
        rw [← hsplit]
      · intro x hx
        rcases List.mem_cons.1 hx with rfl | hx
        · exact h
        · exact hpre x hx
    · exact ⟨[], by simp [ChatBuffer.cleanupLoop, h], by simp⟩

theorem cleanupLoop_suffix (cutoff : Int) (l : List ChatMessage) :
    ChatBuffer.cleanupLoop cutoff l <:+ l := by
  obtain ⟨pre, hsplit, _⟩ := cleanupLoop_split cutoff l
  exact ⟨pre, hsplit.symm⟩

theorem cleanupLoop_head (cutoff : Int) (l : List ChatMessage) (x : ChatMessage)
    (h : (ChatBuffer.cleanupLoop cutoff l).head? = some x) : ¬ x.timestamp < cutoff := by
  induction l with
  | nil => simp [ChatBuffer.cleanupLoop] at h
  | cons m rest ih =>
    by_cases hm : m.timestamp < cutoff
    · simp only [ChatBuffer.cleanupLoop, hm, if_true] at h
      exact ih h
    · simp only [ChatBuffer.cleanupLoop, hm, if_false, List.head?_cons, Option.some.injEq] at h
      rw [← h]
      exact hm

theorem cleanupLoop_sorted (cutoff : Int) (l : List ChatMessage)
    (hs : l.Pairwise (fun x y => x.timestamp ≤ y.timestamp)) :
    ∀ x ∈ ChatBuffer.cleanupLoop cutoff l, cutoff ≤ x.timestamp := by
  induction l with
  | nil => simp [ChatBuffer.cleanupLoop]
  | cons m rest ih =>
    rw [List.pairwise_cons] at hs
    by_cases hm : m.timestamp < cutoff
    · simp only [ChatBuffer.cleanupLoop, hm, if_true]
      exact ih hs.2
    · simp only [ChatBuffer.cleanupLoop, hm, if_false]
      intro x hx
      rcases List.mem_cons.1 hx with rfl | hx
      · omega
      · have := hs.1 x hx
        omega

theorem addMessage_buffer (self : ChatBuffer) (now : Int) (msg : ChatMessage) :
    (self.addMessage now msg).buffer_ =
      ChatBuffer.cleanupLoop (now - self.max_duration_ * 1000) (self.buffer_ ++ [msg]) := rfl

theorem addMessage_max_duration (self : ChatBuffer) (now : Int) (msg : ChatMessage) :
    (self.addMessage now msg).max_duration_ = self.max_duration_ := rfl

theorem addAll_max_duration (self : ChatBuffer) (calls : List (Int × ChatMessage)) :
    (self.addAll calls).max_duration_ = self.max_duration_ := by
  induction calls generalizing self with
  | nil => rfl
  | cons c rest ih =>
    simp only [ChatBuffer.addAll, List.foldl_cons] at ih ⊢
    rw [ih, addMessage_max_duration]

theorem addAll_suffix (self : ChatBuffer) (calls : List (Int × ChatMessage)) :
    (self.addAll calls).buffer_ <:+ self.buffer_ ++ calls.map Prod.snd := by
  induction calls generalizing self with
  | nil => simp [ChatBuffer.addAll]
  | cons c rest ih =>
    simp only [ChatBuffer.addAll, List.foldl_cons] at ih ⊢
    obtain ⟨t1, h1⟩ := ih (self.addMessage c.1 c.2)
    obtain ⟨t2, h2⟩ := cleanupLoop_suffix (c.1 - self.max_duration_ * 1000)
      (self.buffer_ ++ [c.2])
    refine ⟨t2 ++ t1, ?_⟩
    rw [List.append_assoc, h1, addMessage_buffer, ← List.append_assoc, h2]
    simp

theorem getWindow_foldl (start stop : Int) (l acc : List ChatMessage) :
    l.foldl (ChatBuffer.windowStep start stop) acc =
      acc ++ l.filter (fun m => decide (start ≤ m.timestamp ∧ m.timestamp ≤ stop)) := by
  induction l generalizing acc with
  | nil => simp
  | cons m rest ih =>
    rw [List.foldl_cons, ih]
    by_cases h : start ≤ m.timestamp ∧ m.timestamp ≤ stop
    · have h' : m.timestamp ≥ start ∧ m.timestamp ≤ stop := h
      simp [ChatBuffer.windowStep, List.filter_cons, h, h']
    · have h' : ¬ (m.timestamp ≥ start ∧ m.timestamp ≤ stop) := h
      simp only [ChatBuffer.windowStep, if_neg h', List.filter_cons, h, decide_False]
      simp

theorem getWindow_eq_filter (self : ChatBuffer) (start stop : Int) :
    self.getWindow start stop =
      self.buffer_.filter (fun m => decide (start ≤ m.timestamp ∧ m.timestamp ≤ stop)) := by
  unfold ChatBuffer.getWindow
  rw [getWindow_foldl]
  simp

theorem getMessageRate_eq (self : ChatBuffer) (nowStart nowEnd window : Int) :
    self.getMessageRate nowStart nowEnd window =
      ((self.getWindowSeconds nowStart nowEnd window).length : ℚ) / (window : ℚ) := by
  unfold ChatBuffer.getMessageRate
  simp only []
  by_cases h : self.getWindowSeconds nowStart nowEnd window = []
  · simp [h]
  · have h' : (self.getWindowSeconds nowStart nowEnd window).isEmpty = false := by
      cases hl : self.getWindowSeconds nowStart nowEnd window with
      | nil => exact absurd hl h
      | cons a rest => rfl
    simp [h']

theorem setMaxDuration_eq_cleanup (self : ChatBuffer) (now max_duration : Int) :
    self.setMaxDuration now max_duration = self.cleanup now := rfl

/-! ## Claims C14 to C18 -/

/-- C14, as stated, fails: with `max_duration` 1 s, add a message stamped 10000 ms
and then a message stamped 0 ms, both at clock time 10000 ms. The front message is
not expired, so `cleanup` stops at once and the second message stays although it is
10000 ms older than the clock. -/
theorem addMessage_bound_counterexample :
    (((ChatBuffer.create 1).addMessage 10000 ⟨10000, [], []⟩).addMessage 10000
        ⟨0, [], []⟩).buffer_ = [⟨10000, [], []⟩, ⟨0, [], []⟩] ∧
      ∃ x ∈ (((ChatBuffer.create 1).addMessage 10000 ⟨10000, [], []⟩).addMessage 10000
          ⟨0, [], []⟩).buffer_,
        ¬ ((10000 : Int) - x.timestamp ≤
          (((ChatBuffer.create 1).addMessage 10000 ⟨10000, [], []⟩).addMessage 10000
            ⟨0, [], []⟩).max_duration_ * 1000) := by
  refine ⟨by decide, ⟨0, [], []⟩, by decide, by decide⟩

/-- C14, amended: for every buffer state reached from a new buffer by a sequence of
`addMessage` calls whose messages carry non-decreasing timestamps (in call order),
immediately after each `addMessage` performed at clock time `now` every stored
message `m` satisfies `now - m.timestamp ≤ max_duration`. -/
theorem addMessage_bound (d : Int) (calls : List (Int × ChatMessage)) (now : Int)
    (msg : ChatMessage)
    (hsorted : (calls.map Prod.snd ++ [msg]).Pairwise (fun x y => x.timestamp ≤ y.timestamp)) :
    ∀ x ∈ (((ChatBuffer.create d).addAll calls).addMessage now msg).buffer_,
      now - x.timestamp ≤
        (((ChatBuffer.create d).addAll calls).addMessage now msg).max_duration_ * 1000 := by
  intro x hx
  rw [addMessage_max_duration]
  rw [addMessage_buffer] at hx
  have hsuf : ((ChatBuffer.create d).addAll calls).buffer_ ++ [msg] <:+
      calls.map Prod.snd ++ [msg] := by
    obtain ⟨t, ht⟩ := addAll_suffix (ChatBuffer.create d) calls
    refine ⟨t, ?_⟩
    rw [← List.append_assoc, ht]
    rfl
  have hs := List.Pairwise.sublist hsuf.sublist hsorted
  have := cleanupLoop_sorted _ _ hs x hx
  omega

/-- Witness for C14 amended: bound 1 s, a message stamped 10000 ms added at clock
10000 ms, then a message stamped 12000 ms added at clock 12000 ms. -/
theorem addMessage_bound_witness :
    List.Pairwise (fun (x y : ChatMessage) => x.timestamp ≤ y.timestamp)
        ([((10000 : Int), (⟨10000, [], []⟩ : ChatMessage))].map Prod.snd ++
          [(⟨12000, [], []⟩ : ChatMessage)]) ∧
      ∀ x ∈ (((ChatBuffer.create 1).addAll [(10000, ⟨10000, [], []⟩)]).addMessage 12000
          ⟨12000, [], []⟩).buffer_,
        (12000 : Int) - x.timestamp ≤
          (((ChatBuffer.create 1).addAll [(10000, ⟨10000, [], []⟩)]).addMessage 12000
            ⟨12000, [], []⟩).max_duration_ * 1000 :=
  ⟨by decide, addMessage_bound 1 [(10000, ⟨10000, [], []⟩)] 12000 ⟨12000, [], []⟩ (by decide)⟩

/-- C15: the content after `addMessage(m)` at clock time `now` is `old ++ [m]`
without its longest prefix of messages stamped before `now - max_duration`: a suffix
of `old ++ [m]`, everything removed is expired and the first remaining message (if
any) is not. Scenario S6: with bound 1 s, a message `m1`, then a message `m2`
inserted at a clock time `c2` beyond `m1.timestamp + 1 s` and stamped within the last
second before `c2`, leave `size() = 1` and `getWindow(2 s)` is exactly `[m2]`. -/
theorem addMessage_spec (self : ChatBuffer) (now : Int) (msg : ChatMessage) :
    (self.addMessage now msg).buffer_ =
        (self.buffer_ ++ [msg]).dropWhile
          (fun x => decide (x.timestamp < now - self.max_duration_ * 1000)) ∧
      (self.addMessage now msg).buffer_ <:+ self.buffer_ ++ [msg] ∧
      (∃ pre, self.buffer_ ++ [msg] = pre ++ (self.addMessage now msg).buffer_ ∧
        ∀ x ∈ pre, x.timestamp < now - self.max_duration_ * 1000) ∧
      (∀ x, (self.addMessage now msg).buffer_.head? = some x →
        ¬ x.timestamp < now - self.max_duration_ * 1000) ∧
      (∀ (m1 m2 : ChatMessage) (c1 c2 : Int), m1.timestamp + 1000 < c2 →
        c2 - 1000 ≤ m2.timestamp → m2.timestamp ≤ c2 →
        (((ChatBuffer.create 1).addMessage c1 m1).addMessage c2 m2).size = 1 ∧
        (((ChatBuffer.create 1).addMessage c1 m1).addMessage c2 m2).getWindowSeconds c2 c2 2 =
          [m2]) ∧
      (((ChatBuffer.create 1).addMessage 5000 ⟨5000, [], []⟩).addMessage 6001
          ⟨6001, [], []⟩).size = 1 ∧
      (((ChatBuffer.create 1).addMessage 5000 ⟨5000, [], []⟩).addMessage 6001
          ⟨6001, [], []⟩).getWindowSeconds 6001 6001 2 = [⟨6001, [], []⟩] := by
  refine ⟨?_, ?_, ?_, ?_, ?_, by decide, by decide⟩
  · rw [addMessage_buffer, cleanupLoop_eq_dropWhile]
  · rw [addMessage_buffer]
    exact cleanupLoop_suffix _ _
  · rw [addMessage_buffer]
    exact cleanupLoop_split _ _
  · intro x hx
    rw [addMessage_buffer] at hx
    exact cleanupLoop_head _ _ x hx
  · intro m1 m2 c1 c2 h1 h2 h3
    have hbuf : (((ChatBuffer.create 1).addMessage c1 m1).addMessage c2 m2).buffer_ = [m2] := by
      rw [addMessage_buffer, addMessage_max_duration, addMessage_buffer]
      have hm2 : ¬ m2.timestamp < c2 - 1000 := by omega
      have hm1 : m1.timestamp < c2 - 1000 := by omega
      by_cases hc : m1.timestamp < c1 - 1000
      · simp [ChatBuffer.create, ChatBuffer.cleanupLoop, hc, hm2]
      · simp [ChatBuffer.create, ChatBuffer.cleanupLoop, hc, hm1, hm2]
    refine ⟨by simp [ChatBuffer.size, hbuf], ?_⟩
    unfold ChatBuffer.getWindowSeconds
    rw [getWindow_eq_filter, hbuf]
    have hin : decide (c2 - 2 * 1000 ≤ m2.timestamp ∧ m2.timestamp ≤ c2) = true := by
      rw [decide_eq_true_eq]
      omega
    rw [List.filter_cons, if_pos hin, List.filter_nil]

/-- C16: `getWindow(start, end)` is exactly the sub-list of the buffered messages
with `start ≤ timestamp ≤ end` (both ends inclusive), in insertion order; it is
empty when `start > end`. The function is `const`: it yields no new buffer state. -/
theorem getWindow_spec (self : ChatBuffer) (start stop : Int) :
    self.getWindow start stop =
        self.buffer_.filter (fun m => decide (start ≤ m.timestamp ∧ m.timestamp ≤ stop)) ∧
      (self.getWindow start stop).Sublist self.buffer_ ∧
      (∀ m, m ∈ self.getWindow start stop ↔
        m ∈ self.buffer_ ∧ start ≤ m.timestamp ∧ m.timestamp ≤ stop) ∧
      (stop < start → self.getWindow start stop = []) := by
  refine ⟨getWindow_eq_filter self start stop, ?_, ?_, ?_⟩
  · rw [getWindow_eq_filter]
    exact List.filter_sublist _
  · intro m
    rw [getWindow_eq_filter]
    simp [List.mem_filter]
  · intro h
    rw [getWindow_eq_filter, List.filter_eq_nil_iff]
    intro m _
    simp only [decide_eq_true_eq]
    omega

/-- C17: for a window of `w > 0` seconds, `getMessageRate(w)` is the number of
messages of `getWindow(w)` divided by `w`, where `getWindow(w)` is the list of the
buffered messages with `now - w ≤ timestamp ≤ now` (`nowStart` and `nowEnd` being the
two readings of the clock); it is `0` when that window is empty, and no message
stamped later than the clock is counted. -/
theorem getMessageRate_spec (self : ChatBuffer) (nowStart nowEnd window : Int)
    (hw : 0 < window) :
    self.getWindowSeconds nowStart nowEnd window =
        self.buffer_.filter
          (fun m => decide (nowStart - window * 1000 ≤ m.timestamp ∧ m.timestamp ≤ nowEnd)) ∧
      self.getMessageRate nowStart nowEnd window =
        ((self.getWindowSeconds nowStart nowEnd window).length : ℚ) / (window : ℚ) ∧
      (self.getWindowSeconds nowStart nowEnd window = [] →
        self.getMessageRate nowStart nowEnd window = 0) ∧
      (self.getWindowSeconds nowStart nowEnd window ≠ [] →
        0 < self.getMessageRate nowStart nowEnd window) ∧
      ∀ m ∈ self.getWindowSeconds nowStart nowEnd window, m.timestamp ≤ nowEnd := by
  have hfilter : self.getWindowSeconds nowStart nowEnd window =
      self.buffer_.filter
        (fun m => decide (nowStart - window * 1000 ≤ m.timestamp ∧ m.timestamp ≤ nowEnd)) :=
    getWindow_eq_filter self _ _
  refine ⟨hfilter, getMessageRate_eq self nowStart nowEnd window, ?_, ?_, ?_⟩
  · intro h
    rw [getMessageRate_eq, h]
    simp
  · intro h
    rw [getMessageRate_eq]
    have h1 : (0 : ℚ) < ((self.getWindowSeconds nowStart nowEnd window).length : ℚ) := by
      exact_mod_cast List.length_pos.2 h
    have h2 : (0 : ℚ) < (window : ℚ) := by exact_mod_cast hw
    exact div_pos h1 h2
  · intro m hm
    rw [hfilter, List.mem_filter] at hm
    simp only [decide_eq_true_eq] at hm
    exact hm.2.2

/-- Witness for C17: the buffer of Test 4 cut to three messages, window 10 s, clock
1000100 ms: two messages are counted, the one stamped later than the clock is not. -/
theorem getMessageRate_spec_witness :
    (ChatBuffer.mk [⟨1000000, [], []⟩, ⟨1000100, [], []⟩, ⟨1000200, [], []⟩] 60 0
        0).getWindowSeconds 1000100 1000100 10 =
        (ChatBuffer.mk [⟨1000000, [], []⟩, ⟨1000100, [], []⟩, ⟨1000200, [], []⟩] 60 0
          0).buffer_.filter
          (fun m => decide (1000100 - 10 * 1000 ≤ m.timestamp ∧ m.timestamp ≤ 1000100)) ∧
      (ChatBuffer.mk [⟨1000000, [], []⟩, ⟨1000100, [], []⟩, ⟨1000200, [], []⟩] 60 0
        0).getMessageRate 1000100 1000100 10 =
        (((ChatBuffer.mk [⟨1000000, [], []⟩, ⟨1000100, [], []⟩, ⟨1000200, [], []⟩] 60 0
          0).getWindowSeconds 1000100 1000100 10).length : ℚ) / ((10 : Int) : ℚ) ∧
      ((ChatBuffer.mk [⟨1000000, [], []⟩, ⟨1000100, [], []⟩, ⟨1000200, [], []⟩] 60 0
        0).getWindowSeconds 1000100 1000100 10 = [] →
        (ChatBuffer.mk [⟨1000000, [], []⟩, ⟨1000100, [], []⟩, ⟨1000200, [], []⟩] 60 0
          0).getMessageRate 1000100 1000100 10 = 0) ∧
      ((ChatBuffer.mk [⟨1000000, [], []⟩, ⟨1000100, [], []⟩, ⟨1000200, [], []⟩] 60 0
        0).getWindowSeconds 1000100 1000100 10 ≠ [] →
        0 < (ChatBuffer.mk [⟨1000000, [], []⟩, ⟨1000100, [], []⟩, ⟨1000200, [], []⟩] 60 0
          0).getMessageRate 1000100 1000100 10) ∧
      ∀ m ∈ (ChatBuffer.mk [⟨1000000, [], []⟩, ⟨1000100, [], []⟩, ⟨1000200, [], []⟩] 60 0
        0).getWindowSeconds 1000100 1000100 10, m.timestamp ≤ 1000100 :=
  getMessageRate_spec _ 1000100 1000100 10 (by decide)

/-- C18 fails on the code: `setMaxDuration` copies the member into its parameter, so
the bound is never changed and the clean-up runs against the old bound. On a buffer
with bound 300 s holding one message stamped 0 ms, `setMaxDuration(1 s)` at clock
10000 ms leaves the bound at 300 s and keeps the message, which the bound 1 s would
have expired. -/
theorem setMaxDuration_keeps_bound :
    (∀ (self : ChatBuffer) (now d : Int),
      (self.setMaxDuration now d).max_duration_ = self.max_duration_ ∧
      (self.setMaxDuration now d).buffer_ =
        ChatBuffer.cleanupLoop (now - self.max_duration_ * 1000) self.buffer_) ∧
      ((ChatBuffer.mk [⟨0, [], []⟩] 300 0 0).setMaxDuration 10000 1).max_duration_ = 300 ∧
      ((ChatBuffer.mk [⟨0, [], []⟩] 300 0 0).setMaxDuration 10000 1).buffer_ = [⟨0, [], []⟩] ∧
      ChatBuffer.cleanupLoop (10000 - 1 * 1000) [⟨0, [], []⟩] = [] := by
  refine ⟨fun self now d => ⟨rfl, rfl⟩, rfl, by decide, by decide⟩

/-! ## Lemmas: spike detector -/

theorem addSample_window_size (s : SpikeDetector) (r : ℚ) :
    (s.addSample r).window_size_ = s.window_size_ := by
  unfold SpikeDetector.addSample
  simp only [SpikeDetector.updateStats, if_true]
  split <;> rfl

theorem addSample_samples (s : SpikeDetector) (r : ℚ) :
    (s.addSample r).samples_ =
      if (s.samples_ ++ [r]).length > s.window_size_ then (s.samples_ ++ [r]).tail
      else s.samples_ ++ [r] := by
  unfold SpikeDetector.addSample
  simp only [SpikeDetector.updateStats, if_true]
  split <;> simp

theorem addSample_sums (s : SpikeDetector) (r : ℚ)
    (h1 : s.sum_ = s.samples_.sum) (h2 : s.sum_sq_ = (s.samples_.map (fun x => x * x)).sum) :
    (s.addSample r).sum_ = (s.addSample r).samples_.sum ∧
      (s.addSample r).sum_sq_ = ((s.addSample r).samples_.map (fun x => x * x)).sum := by
  unfold SpikeDetector.addSample
  simp only [SpikeDetector.updateStats, if_true]
  split
  · cases hl : s.samples_ ++ [r] with
    | nil => simp at hl
    | cons x rest =>
      have e1 : (s.samples_ ++ [r]).sum = (x :: rest).sum := by rw [hl]
      have e2 : ((s.samples_ ++ [r]).map (fun x => x * x)).sum =
          ((x :: rest).map (fun x => x * x)).sum := by rw [hl]
      simp only [List.sum_append, List.sum_cons, List.sum_nil, List.map_append, List.map_cons,
        List.map_nil, add_zero] at e1 e2
      simp only [List.headD_cons, List.tail_cons, Bool.false_eq_true, if_false, h1, h2]
      constructor <;> linarith
  · simp [h1, h2]

theorem callAll_sums (s : SpikeDetector) (calls : List SpikeCall)
    (h1 : s.sum_ = s.samples_.sum) (h2 : s.sum_sq_ = (s.samples_.map (fun x => x * x)).sum) :
    (s.callAll calls).sum_ = (s.callAll calls).samples_.sum ∧
      (s.callAll calls).sum_sq_ = ((s.callAll calls).samples_.map (fun x => x * x)).sum := by
  induction calls generalizing s with
  | nil => exact ⟨h1, h2⟩
  | cons c rest ih =>
    simp only [SpikeDetector.callAll, List.foldl_cons] at ih ⊢
    cases c with
    | addSample r =>
      have := addSample_sums s r h1 h2
      exact ih (s.addSample r) this.1 this.2
    | reset => exact ih s.reset (by simp [SpikeDetector.reset]) (by simp [SpikeDetector.reset])

theorem getBaseline_eq (s : SpikeDetector) (h1 : s.sum_ = s.samples_.sum) :
    s.getBaseline =
      if s.samples_ = [] then 0 else s.samples_.sum / (s.samples_.length : ℚ) := by
  unfold SpikeDetector.getBaseline SpikeDetector.calculateMean
  rw [h1]
  cases s.samples_ <;> simp

theorem addAll_window_size (s : SpikeDetector) (rates : List ℚ) :
    (s.addAll rates).window_size_ = s.window_size_ := by
  induction rates generalizing s with
  | nil => rfl
  | cons r rest ih =>
    simp only [SpikeDetector.addAll, List.foldl_cons] at ih ⊢
    rw [ih, addSample_window_size]

theorem addAll_append_singleton (s : SpikeDetector) (rates : List ℚ) (r : ℚ) :
    s.addAll (rates ++ [r]) = (s.addAll rates).addSample r := by
  simp [SpikeDetector.addAll, List.foldl_append]

theorem addAll_samples (w : Nat) (sigma : ℚ) (rates : List ℚ) :
    ((SpikeDetector.create w sigma).addAll rates).samples_ = rates.drop (rates.length - w) := by
  induction rates using List.reverseRecOn with
  | nil => simp [SpikeDetector.addAll, SpikeDetector.create]
  | append_singleton rs r ih =>
    rw [addAll_append_singleton, addSample_samples, addAll_window_size, ih]
    have hw : (SpikeDetector.create w sigma).window_size_ = w := rfl
    rw [hw]
    simp only [List.length_append, List.length_drop, List.length_singleton]
    by_cases hle : w ≤ rs.length
    · have hgt : rs.length - (rs.length - w) + 1 > w := by omega
      rw [if_pos hgt]
      by_cases hw0 : w = 0
      · subst hw0
        simp
      · have hne : rs.drop (rs.length - w) ≠ [] := by
          intro hnil
          have := congrArg List.length hnil
          simp only [List.length_drop, List.length_nil] at this
          omega
        have e : rs.length + 1 - w = rs.length - w + 1 := by omega
        rw [List.tail_append_of_ne_nil hne, List.tail_drop, e,
          List.drop_append_of_le_length (by omega : rs.length - w + 1 ≤ rs.length)]
    · have hgt : ¬ rs.length - (rs.length - w) + 1 > w := by omega
      have e0 : rs.length - w = 0 := by omega
      have e1 : rs.length + 1 - w = 0 := by omega
      rw [if_neg hgt, e0, e1]
      simp

/-! ## Claims C19 and C20 -/

/-- C19: in every state reached from a new detector, or from any detector that has
just been reset, by a sequence of `addSample` and `reset` calls, `sum_` is the sum of
the samples held and `sum_sq_` the sum of their squares (exactly, in exact
arithmetic), and `getBaseline()` is their mean, `0` when no sample is held. -/
theorem spike_sums_invariant (w : Nat) (sigma : ℚ) (s0 : SpikeDetector)
    (calls : List SpikeCall) :
    (((SpikeDetector.create w sigma).callAll calls).sum_ =
        ((SpikeDetector.create w sigma).callAll calls).samples_.sum ∧
      ((SpikeDetector.create w sigma).callAll calls).sum_sq_ =
        (((SpikeDetector.create w sigma).callAll calls).samples_.map (fun x => x * x)).sum ∧
      ((SpikeDetector.create w sigma).callAll calls).getBaseline =
        if ((SpikeDetector.create w sigma).callAll calls).samples_ = [] then 0
        else ((SpikeDetector.create w sigma).callAll calls).samples_.sum /
          (((SpikeDetector.create w sigma).callAll calls).samples_.length : ℚ)) ∧
    ((s0.reset.callAll calls).sum_ = (s0.reset.callAll calls).samples_.sum ∧
      (s0.reset.callAll calls).sum_sq_ =
        ((s0.reset.callAll calls).samples_.map (fun x => x * x)).sum ∧
      (s0.reset.callAll calls).getBaseline =
        if (s0.reset.callAll calls).samples_ = [] then 0
        else (s0.reset.callAll calls).samples_.sum /
          ((s0.reset.callAll calls).samples_.length : ℚ)) := by
  have hc := callAll_sums (SpikeDetector.create w sigma) calls
    (by simp [SpikeDetector.create]) (by simp [SpikeDetector.create])
  have hr := callAll_sums s0.reset calls
    (by simp [SpikeDetector.reset]) (by simp [SpikeDetector.reset])
  exact ⟨⟨hc.1, hc.2, getBaseline_eq _ hc.1⟩, ⟨hr.1, hr.2, getBaseline_eq _ hr.1⟩⟩

/-- C20: after the calls `addSample(r1)`, ..., `addSample(rk)` on a new detector, the
samples held are exactly the last `min(k, window_size)` of `r1..rk`, in order; so the
number of samples never exceeds `window_size`. -/
theorem spike_window_contents (w : Nat) (sigma : ℚ) (rates : List ℚ) :
    ((SpikeDetector.create w sigma).addAll rates).samples_ =
        rates.drop (rates.length - min rates.length w) ∧
      ((SpikeDetector.create w sigma).addAll rates).samples_.length = min rates.length w ∧
      ((SpikeDetector.create w sigma).addAll rates).samples_.length ≤
        ((SpikeDetector.create w sigma).addAll rates).window_size_ := by
  have h := addAll_samples w sigma rates
  have e : rates.length - min rates.length w = rates.length - w := by omega
  refine ⟨by rw [h, e], ?_, ?_⟩
  · rw [h, List.length_drop]
    omega
  · rw [h, List.length_drop, addAll_window_size]
    show _ ≤ w
    omega

/-! ## Lemmas: z-score -/

theorem addAll_eq_callAll (s : SpikeDetector) (rates : List ℚ) :
    s.addAll rates = s.callAll (rates.map SpikeCall.addSample) := by
  induction rates generalizing s with
  | nil => rfl
  | cons r rest ih =>
    simp only [SpikeDetector.addAll, SpikeDetector.callAll, List.map_cons, List.foldl_cons,
      SpikeDetector.call] at ih ⊢
    exact ih _

theorem addAll_threshold (s : SpikeDetector) (rates : List ℚ) :
    (s.addAll rates).threshold_sigma_ = s.threshold_sigma_ := by
  induction rates generalizing s with
  | nil => rfl
  | cons r rest ih =>
    simp only [SpikeDetector.addAll, List.foldl_cons] at ih ⊢
    rw [ih]
    unfold SpikeDetector.addSample
    simp only [SpikeDetector.updateStats, if_true]
    split <;> rfl

theorem spikeExample_samples (sigma : ℚ) :
    (spikeExample sigma).samples_ = List.replicate 36 0 ++ [37] := by
  unfold spikeExample
  rw [addAll_samples]
  rfl

theorem addAll_sums (s : SpikeDetector) (rates : List ℚ)
    (h1 : s.sum_ = s.samples_.sum) (h2 : s.sum_sq_ = (s.samples_.map (fun x => x * x)).sum) :
    (s.addAll rates).sum_ = (s.addAll rates).samples_.sum ∧
      (s.addAll rates).sum_sq_ = ((s.addAll rates).samples_.map (fun x => x * x)).sum := by
  rw [addAll_eq_callAll]
  exact callAll_sums s _ h1 h2

theorem spikeExample_sum (sigma : ℚ) : (spikeExample sigma).sum_ = 37 := by
  have h := (addAll_sums (SpikeDetector.create 60 sigma) (List.replicate 36 0 ++ [37])
    (by simp [SpikeDetector.create]) (by simp [SpikeDetector.create])).1
  have hs := spikeExample_samples sigma
  unfold spikeExample at hs
  unfold spikeExample
  rw [h, hs]
  simp

theorem spikeExample_sum_sq (sigma : ℚ) : (spikeExample sigma).sum_sq_ = 1369 := by
  have h := (addAll_sums (SpikeDetector.create 60 sigma) (List.replicate 36 0 ++ [37])
    (by simp [SpikeDetector.create]) (by simp [SpikeDetector.create])).2
  have hs := spikeExample_samples sigma
  unfold spikeExample at hs
  unfold spikeExample
  rw [h, hs]
  simp
  norm_num

theorem spikeExample_threshold (sigma : ℚ) : (spikeExample sigma).threshold_sigma_ = sigma := by
  unfold spikeExample
  rw [addAll_threshold]
  rfl

theorem rat_sqrt_36 : Rat.sqrt 36 = 6 := by
  have h := Rat.sqrt_eq 6
  rw [abs_of_nonneg (by norm_num)] at h
  rw [← h]
  norm_num

theorem rat_sqrt_zero : Rat.sqrt 0 = 0 := by
  have h := Rat.sqrt_eq 0
  rw [abs_zero, mul_zero] at h
  exact h

theorem spikeExample_mean (sigma : ℚ) : (spikeExample sigma).calculateMean = 1 := by
  unfold SpikeDetector.calculateMean
  rw [spikeExample_sum, spikeExample_samples]
  simp

theorem spikeExample_stddev (sigma : ℚ) :
    (spikeExample sigma).calculateStdDev Rat.sqrt = 6 := by
  unfold SpikeDetector.calculateStdDev
  simp only [spikeExample_mean, spikeExample_sum_sq]
  rw [spikeExample_samples]
  have hv : (1369 : ℚ) / (((List.replicate 36 (0 : ℚ) ++ [37]).length : Nat) : ℚ) - 1 * 1 = 36 := by
    simp
    norm_num
  rw [hv, rat_sqrt_36]
  simp

theorem spikeExample_isSpike (sigma : ℚ) :
    (spikeExample sigma).isSpike Rat.sqrt = decide (6 > sigma) := by
  unfold SpikeDetector.isSpike
  simp only [spikeExample_mean, spikeExample_stddev, spikeExample_threshold]
  rw [spikeExample_samples]
  have hlast : (List.replicate 36 (0 : ℚ) ++ [37]).getLastD 0 = 37 := by
    simp [List.getLastD]
  rw [hlast]
  norm_num

theorem spikeExample_intensity (sigma : ℚ) :
    (spikeExample sigma).getSpikeIntensity Rat.sqrt = 1 := by
  unfold SpikeDetector.getSpikeIntensity
  simp only [spikeExample_mean, spikeExample_stddev]
  rw [spikeExample_samples]
  have hlast : (List.replicate 36 (0 : ℚ) ++ [37]).getLastD 0 = 37 := by
    simp [List.getLastD]
  rw [hlast]
  norm_num

theorem getSpikeIntensity_of_lt_two (sqrt : ℚ → ℚ) (s : SpikeDetector)
    (h : s.samples_.length < 2) : s.getSpikeIntensity sqrt = 0 := by
  unfold SpikeDetector.getSpikeIntensity
  rw [if_pos h]

theorem isSpike_of_lt_two (sqrt : ℚ → ℚ) (s : SpikeDetector)
    (h : s.samples_.length < 2) : s.isSpike sqrt = false := by
  unfold SpikeDetector.isSpike
  rw [if_pos h]

theorem getSpikeIntensity_of_stddev_zero (sqrt : ℚ → ℚ) (s : SpikeDetector)
    (h : s.calculateStdDev sqrt = 0) : s.getSpikeIntensity sqrt = 0 := by
  unfold SpikeDetector.getSpikeIntensity
  split
  · rfl
  · simp only [h, if_true]

theorem isSpike_of_stddev_zero (sqrt : ℚ → ℚ) (s : SpikeDetector)
    (h : s.calculateStdDev sqrt = 0) : s.isSpike sqrt = false := by
  unfold SpikeDetector.isSpike
  split
  · rfl
  · simp only [h, if_true]

theorem getSpikeIntensity_of_ge_two (sqrt : ℚ → ℚ) (s : SpikeDetector)
    (hn : 2 ≤ s.samples_.length) (hs : s.calculateStdDev sqrt ≠ 0) :
    s.getSpikeIntensity sqrt =
      max (min (((s.samples_.getLastD 0 - s.calculateMean) / s.calculateStdDev sqrt) / 5) 1)
        0 := by
  unfold SpikeDetector.getSpikeIntensity
  rw [if_neg (by omega)]
  simp only [if_neg hs]

theorem getSpikeIntensity_nonneg (sqrt : ℚ → ℚ) (s : SpikeDetector) :
    0 ≤ s.getSpikeIntensity sqrt := by
  unfold SpikeDetector.getSpikeIntensity
  split
  · exact le_refl _
  · simp only []
    split
    · exact le_refl _
    · exact le_max_right _ _

theorem getSpikeIntensity_le_one (sqrt : ℚ → ℚ) (s : SpikeDetector) :
    s.getSpikeIntensity sqrt ≤ 1 := by
  unfold SpikeDetector.getSpikeIntensity
  split
  · norm_num
  · simp only []
    split
    · norm_num
    · exact max_le (min_le_right _ _) (by norm_num)

theorem isSpike_true_iff (sqrt : ℚ → ℚ) (s : SpikeDetector) :
    s.isSpike sqrt = true ↔
      2 ≤ s.samples_.length ∧ s.calculateStdDev sqrt ≠ 0 ∧
        (s.samples_.getLastD 0 - s.calculateMean) / s.calculateStdDev sqrt >
          s.threshold_sigma_ := by
  unfold SpikeDetector.isSpike
  by_cases hn : s.samples_.length < 2
  · rw [if_pos hn]
    constructor
    · intro h
      exact absurd h (by simp)
    · intro h
      omega
  · rw [if_neg hn]
    by_cases hs : s.calculateStdDev sqrt = 0
    · simp only [hs, if_true]
      constructor
      · intro h
        exact absurd h (by simp)
      · intro h
        exact absurd rfl h.2.1
    · simp only [if_neg hs, decide_eq_true_eq]
      constructor
      · intro h
        exact ⟨by omega, hs, h⟩
      · intro h
        exact h.2.2

theorem calculateStdDev_of_all_equal (sqrt : ℚ → ℚ) (hsqrt : sqrt 0 = 0) (s : SpikeDetector)
    (h1 : s.sum_ = s.samples_.sum) (h2 : s.sum_sq_ = (s.samples_.map (fun x => x * x)).sum)
    (heq : ∀ x ∈ s.samples_, ∀ y ∈ s.samples_, x = y) : s.calculateStdDev sqrt = 0 := by
  unfold SpikeDetector.calculateStdDev SpikeDetector.calculateMean
  by_cases hn : s.samples_.length < 2
  · rw [if_pos hn]
  · rw [if_neg hn]
    cases hl : s.samples_ with
    | nil =>
      rw [hl] at hn
      simp at hn
    | cons c rest =>
      have hrep : s.samples_ = List.replicate s.samples_.length c := by
        rw [List.eq_replicate_iff]
        refine ⟨rfl, ?_⟩
        intro b hb
        exact heq b hb c (by rw [hl]; simp)
      have hne : ((c :: rest).length : ℚ) ≠ 0 := by
        simp only [List.length_cons, Nat.cast_add, Nat.cast_one]
        have : (0 : ℚ) ≤ (rest.length : ℚ) := Nat.cast_nonneg _
        linarith
      have hsum : s.sum_ = ((c :: rest).length : ℚ) * c := by
        rw [h1, hrep, List.sum_replicate, nsmul_eq_mul, hl]
      have hsq : s.sum_sq_ = ((c :: rest).length : ℚ) * (c * c) := by
        rw [h2, hrep, List.map_replicate, List.sum_replicate, nsmul_eq_mul, hl]
      have hvar : s.sum_sq_ / ((c :: rest).length : ℚ) -
          s.sum_ / ((c :: rest).length : ℚ) * (s.sum_ / ((c :: rest).length : ℚ)) = 0 := by
        rw [hsum, hsq, mul_div_cancel_left₀ _ hne, mul_div_cancel_left₀ _ hne]
        ring
      simp only [List.isEmpty_cons, Bool.false_eq_true, if_false]
      rw [hvar]
      simp [hsqrt]

/-! ## Claims C21 to C23 -/

/-- C21: in every detector state `0 ≤ getSpikeIntensity() ≤ 1`, and whenever at
least 2 samples are held and the standard deviation is `> 0` it equals
`clamp(z / 5, 0, 1)` with `z = (latest - mean) / std`; it is `0` with fewer than 2
samples or a zero standard deviation. -/
theorem getSpikeIntensity_spec (sqrt : ℚ → ℚ) (s : SpikeDetector) :
    0 ≤ s.getSpikeIntensity sqrt ∧ s.getSpikeIntensity sqrt ≤ 1 ∧
      (2 ≤ s.samples_.length → 0 < s.calculateStdDev sqrt →
        s.getSpikeIntensity sqrt =
          max (min (((s.samples_.getLastD 0 - s.calculateMean) / s.calculateStdDev sqrt) / 5)
            1) 0) ∧
      (s.samples_.length < 2 → s.getSpikeIntensity sqrt = 0) ∧
      (s.calculateStdDev sqrt = 0 → s.getSpikeIntensity sqrt = 0) :=
  ⟨getSpikeIntensity_nonneg sqrt s, getSpikeIntensity_le_one sqrt s,
    fun hn hs => getSpikeIntensity_of_ge_two sqrt s hn (ne_of_gt hs),
    getSpikeIntensity_of_lt_two sqrt s, getSpikeIntensity_of_stddev_zero sqrt s⟩

/-- C22, as stated, fails for a threshold of 5 sigma or more: in the state reached
from a new detector (window 60, threshold 5) by 36 samples `0` and one sample `37`,
the z-score is `6`, so `isSpike()` is true, while the intensity saturates at `1`,
which is not greater than `5 / 5`. -/
theorem isSpike_intensity_counterexample :
    (spikeExample 5).threshold_sigma_ = 5 ∧
      (spikeExample 5).calculateStdDev Rat.sqrt = 6 ∧
      (spikeExample 5).isSpike Rat.sqrt = true ∧
      (spikeExample 5).getSpikeIntensity Rat.sqrt = 1 ∧
      ¬ ((spikeExample 5).getSpikeIntensity Rat.sqrt > (spikeExample 5).threshold_sigma_ / 5) := by
  refine ⟨spikeExample_threshold 5, spikeExample_stddev 5, ?_, spikeExample_intensity 5, ?_⟩
  · rw [spikeExample_isSpike]
    norm_num
  · rw [spikeExample_intensity, spikeExample_threshold]
    norm_num

/-- C22, amended: for every `threshold_sigma < 5` and every detector state,
`isSpike() = true` implies `getSpikeIntensity() > threshold_sigma / 5`. -/
theorem isSpike_intensity (sqrt : ℚ → ℚ) (s : SpikeDetector) (hsigma : s.threshold_sigma_ < 5)
    (h : s.isSpike sqrt = true) : s.getSpikeIntensity sqrt > s.threshold_sigma_ / 5 := by
  obtain ⟨hn, hs, hz⟩ := (isSpike_true_iff sqrt s).1 h
  rw [getSpikeIntensity_of_ge_two sqrt s hn hs]
  have h1 : s.threshold_sigma_ / 5 <
      ((s.samples_.getLastD 0 - s.calculateMean) / s.calculateStdDev sqrt) / 5 := by
    have : s.threshold_sigma_ <
        (s.samples_.getLastD 0 - s.calculateMean) / s.calculateStdDev sqrt := hz
    linarith
  have h2 : s.threshold_sigma_ / 5 < 1 := by linarith
  exact lt_of_lt_of_le (lt_min h1 h2) (le_max_left _ _)

/-- Witness for C22 amended: the default threshold 3 on the state with z-score 6. -/
theorem isSpike_intensity_witness :
    (spikeExample 3).threshold_sigma_ < 5 ∧ (spikeExample 3).isSpike Rat.sqrt = true ∧
      (spikeExample 3).getSpikeIntensity Rat.sqrt > (spikeExample 3).threshold_sigma_ / 5 :=
  ⟨by rw [spikeExample_threshold]; norm_num, by rw [spikeExample_isSpike]; norm_num,
    isSpike_intensity Rat.sqrt (spikeExample 3) (by rw [spikeExample_threshold]; norm_num)
      (by rw [spikeExample_isSpike]; norm_num)⟩

theorem isSpike64_of_lt_two (s : SpikeDetector64) (h : s.samples_.length < 2) :
    s.isSpike = false ∧ s.getSpikeIntensity = ⟨0, 0⟩ := by
  unfold SpikeDetector64.isSpike SpikeDetector64.getSpikeIntensity
  rw [if_pos h, if_pos h]
  exact ⟨rfl, rfl⟩

theorem isSpike64_of_stddev_zero (s : SpikeDetector64) (h : s.calculateStdDev = ⟨0, 0⟩) :
    s.isSpike = false ∧ s.getSpikeIntensity = ⟨0, 0⟩ := by
  unfold SpikeDetector64.isSpike SpikeDetector64.getSpikeIntensity
  rw [if_pos h, if_pos h]
  constructor
  · split <;> rfl
  · split <;> rfl

/-- Counterexample for C23 as stated, in the binary64 arithmetic of the program: after
six equal samples `0.1` the standard deviation is `2^-29` (about `1.86e-9`), not `0`,
and `getSpikeIntensity()` is `7205759403792794 * 2^-82` (about `1.49e-9`), not `0`. -/
theorem degenerate_neutral_counterexample :
    (tenths64 6).samples_ = List.replicate 6 F64.tenth ∧
      F64.tenth = ⟨7205759403792794, -56⟩ ∧
      (tenths64 6).calculateStdDev = ⟨4503599627370496, -81⟩ ∧
      (tenths64 6).getSpikeIntensity = ⟨7205759403792794, -82⟩ ∧
      (tenths64 6).getSpikeIntensity ≠ ⟨0, 0⟩ := by
  decide!

/-- C23 (amended): degenerate inputs give neutral values. With fewer than 2 samples, in
particular right after `reset()`, `isSpike()` is false and `getSpikeIntensity()` is `0`
(in exact and in binary64 arithmetic), and so they are whenever the computed standard
deviation is `0`. In exact arithmetic (`sqrt 0 = 0` for the library square root) this
covers every state reached from a new detector in which all held samples are equal.
`getMessageRate` is `0` when no buffered message lies in the window. -/
theorem degenerate_neutral (sqrt : ℚ → ℚ) (hsqrt : sqrt 0 = 0) (w : Nat) (sigma : ℚ)
    (calls : List SpikeCall) (s0 : SpikeDetector) (buf : ChatBuffer)
    (nowStart nowEnd window : Int) :
    (∀ s : SpikeDetector, s.samples_.length < 2 →
        s.isSpike sqrt = false ∧ s.getSpikeIntensity sqrt = 0) ∧
      (s0.reset.isSpike sqrt = false ∧ s0.reset.getSpikeIntensity sqrt = 0) ∧
      ((∀ x ∈ ((SpikeDetector.create w sigma).callAll calls).samples_,
          ∀ y ∈ ((SpikeDetector.create w sigma).callAll calls).samples_, x = y) →
        ((SpikeDetector.create w sigma).callAll calls).isSpike sqrt = false ∧
        ((SpikeDetector.create w sigma).callAll calls).getSpikeIntensity sqrt = 0) ∧
      (buf.getWindowSeconds nowStart nowEnd window = [] →
        buf.getMessageRate nowStart nowEnd window = 0) ∧
      (∀ s : SpikeDetector64, s.samples_.length < 2 →
        s.isSpike = false ∧ s.getSpikeIntensity = ⟨0, 0⟩) ∧
      (∀ s : SpikeDetector64, s.calculateStdDev = ⟨0, 0⟩ →
        s.isSpike = false ∧ s.getSpikeIntensity = ⟨0, 0⟩) ∧
      (∀ s : SpikeDetector, s.calculateStdDev sqrt = 0 →
        s.isSpike sqrt = false ∧ s.getSpikeIntensity sqrt = 0) := by
  refine ⟨fun s h => ⟨isSpike_of_lt_two sqrt s h, getSpikeIntensity_of_lt_two sqrt s h⟩,
    ⟨isSpike_of_lt_two sqrt _ (by simp [SpikeDetector.reset]),
      getSpikeIntensity_of_lt_two sqrt _ (by simp [SpikeDetector.reset])⟩, ?_, ?_,
    isSpike64_of_lt_two, isSpike64_of_stddev_zero,
    fun s h => ⟨isSpike_of_stddev_zero sqrt s h, getSpikeIntensity_of_stddev_zero sqrt s h⟩⟩
  · intro heq
    have hinv := callAll_sums (SpikeDetector.create w sigma) calls
      (by simp [SpikeDetector.create]) (by simp [SpikeDetector.create])
    have hz := calculateStdDev_of_all_equal sqrt hsqrt _ hinv.1 hinv.2 heq
    exact ⟨isSpike_of_stddev_zero sqrt _ hz, getSpikeIntensity_of_stddev_zero sqrt _ hz⟩
  · intro h
    rw [getMessageRate_eq, h]
    simp

/-- Witness for C23 (amended): `Rat.sqrt` as the square root, two equal samples `5`. -/
theorem degenerate_neutral_witness :
    Rat.sqrt 0 = 0 ∧
      ((∀ x ∈ ((SpikeDetector.create 60 3).callAll
            [SpikeCall.addSample 5, SpikeCall.addSample 5]).samples_,
          ∀ y ∈ ((SpikeDetector.create 60 3).callAll
            [SpikeCall.addSample 5, SpikeCall.addSample 5]).samples_, x = y) →
        ((SpikeDetector.create 60 3).callAll
          [SpikeCall.addSample 5, SpikeCall.addSample 5]).isSpike Rat.sqrt = false ∧
        ((SpikeDetector.create 60 3).callAll
          [SpikeCall.addSample 5, SpikeCall.addSample 5]).getSpikeIntensity Rat.sqrt = 0) :=
  ⟨rat_sqrt_zero, (degenerate_neutral Rat.sqrt rat_sqrt_zero 60 3
    [SpikeCall.addSample 5, SpikeCall.addSample 5] (SpikeDetector.create 60 3)
    (ChatBuffer.create 300) 0 0 10).2.2.1⟩

/-! ## Lemmas: scoring engine -/

theorem foldl_max_ge_init (l : ScoreMap) (a : ℚ) :
    a ≤ l.foldl (fun max_score pair => max max_score pair.2) a := by
  induction l generalizing a with
  | nil => exact le_refl _
  | cons p rest ih =>
    rw [List.foldl_cons]
    exact le_trans (le_max_left _ _) (ih _)

theorem foldl_max_ge_mem (l : ScoreMap) (a : ℚ) :
    ∀ p ∈ l, p.2 ≤ l.foldl (fun max_score pair => max max_score pair.2) a := by
  induction l generalizing a with
  | nil => simp
  | cons q rest ih =>
    intro p hp
    rw [List.foldl_cons]
    rcases List.mem_cons.1 hp with rfl | hp
    · exact le_trans (le_max_right _ _) (foldl_max_ge_init rest _)
    · exact ih _ p hp

theorem foldl_max_eq (l : ScoreMap) (a : ℚ) :
    l.foldl (fun max_score pair => max max_score pair.2) a = a ∨
      ∃ p ∈ l, p.2 = l.foldl (fun max_score pair => max max_score pair.2) a := by
  induction l generalizing a with
  | nil => exact Or.inl rfl
  | cons q rest ih =>
    rw [List.foldl_cons]
    rcases ih (max a q.2) with h | ⟨p, hp, h⟩
    · rcases max_choice a q.2 with hm | hm
      · left
        rw [h, hm]
      · right
        exact ⟨q, List.mem_cons_self _ _, by rw [h, hm]⟩
    · right
      exact ⟨p, List.mem_cons_of_mem _ hp, h⟩

theorem normalizeKeywordScore_nil (self : ScoringEngine) :
    self.normalizeKeywordScore [] = 0 := rfl

theorem normalizeKeywordScore_cons (self : ScoringEngine) (p : Str × ℚ) (rest : ScoreMap) :
    self.normalizeKeywordScore (p :: rest) =
      (p :: rest).foldl (fun max_score pair => max max_score pair.2) 0 := rfl

theorem normalizeKeywordScore_nonneg (self : ScoringEngine) (scores : ScoreMap) :
    0 ≤ self.normalizeKeywordScore scores := by
  cases scores with
  | nil => exact le_refl _
  | cons p rest =>
    rw [normalizeKeywordScore_cons]
    exact foldl_max_ge_init _ _

theorem normalizeKeywordScore_ge (self : ScoringEngine) (scores : ScoreMap) :
    ∀ p ∈ scores, p.2 ≤ self.normalizeKeywordScore scores := by
  cases scores with
  | nil => simp
  | cons q rest =>
    rw [normalizeKeywordScore_cons]
    exact foldl_max_ge_mem _ _

theorem normalizeKeywordScore_mem (self : ScoringEngine) (scores : ScoreMap)
    (hne : scores ≠ []) (hv : ∀ p ∈ scores, 0 ≤ p.2) :
    ∃ p ∈ scores, p.2 = self.normalizeKeywordScore scores := by
  cases scores with
  | nil => exact absurd rfl hne
  | cons q rest =>
    rw [normalizeKeywordScore_cons]
    rcases foldl_max_eq (q :: rest) 0 with h | h
    · refine ⟨q, List.mem_cons_self _ _, ?_⟩
      have h1 := foldl_max_ge_mem (q :: rest) 0 q (List.mem_cons_self _ _)
      have h2 := hv q (List.mem_cons_self _ _)
      rw [h] at h1 ⊢
      exact le_antisymm h1 h2
    · exact h

theorem calculateScore_eq (self : ScoringEngine) (spike uniq : ℚ) (scores : ScoreMap) :
    self.calculateScore spike scores uniq =
      min (self.config_.weights.spike_weight * spike +
        self.config_.weights.keyword_weight * self.normalizeKeywordScore scores +
        self.config_.weights.uniqueness_weight * uniq) 1 := rfl

/-! ## Claims C24 to C26 -/

/-- C24: for non-negative weights, spike and uniqueness scores in `[0, 1]` and keyword
scores in `[0, 1]`, `calculateScore` is
`min(w_spike * spike + w_keyword * k + w_uniq * uniqueness, 1)` where `k` is the
maximum value of the map (a value of the map that bounds all values; `0` for the
empty map), and the result lies in `[0, 1]`. -/
theorem calculateScore_spec (self : ScoringEngine) (spike uniq : ℚ) (scores : ScoreMap)
    (hw : 0 ≤ self.config_.weights.spike_weight ∧ 0 ≤ self.config_.weights.keyword_weight ∧
      0 ≤ self.config_.weights.uniqueness_weight)
    (hs : 0 ≤ spike ∧ spike ≤ 1) (hu : 0 ≤ uniq ∧ uniq ≤ 1)
    (hv : ∀ p ∈ scores, 0 ≤ p.2 ∧ p.2 ≤ 1) :
    self.calculateScore spike scores uniq =
        min (self.config_.weights.spike_weight * spike +
          self.config_.weights.keyword_weight * self.normalizeKeywordScore scores +
          self.config_.weights.uniqueness_weight * uniq) 1 ∧
      (scores = [] → self.normalizeKeywordScore scores = 0) ∧
      (scores ≠ [] →
        (∃ p ∈ scores, p.2 = self.normalizeKeywordScore scores) ∧
        ∀ p ∈ scores, p.2 ≤ self.normalizeKeywordScore scores) ∧
      0 ≤ self.calculateScore spike scores uniq ∧ self.calculateScore spike scores uniq ≤ 1 := by
  refine ⟨rfl, ?_, ?_, ?_, ?_⟩
  · intro h
    rw [h]
    rfl
  · intro hne
    exact ⟨normalizeKeywordScore_mem self scores hne (fun p hp => (hv p hp).1),
      normalizeKeywordScore_ge self scores⟩
  · rw [calculateScore_eq]
    have hk := normalizeKeywordScore_nonneg self scores
    have h1 := mul_nonneg hw.1 hs.1
    have h2 := mul_nonneg hw.2.1 hk
    have h3 := mul_nonneg hw.2.2 hu.1
    exact le_min (by linarith) (by norm_num)
  · rw [calculateScore_eq]
    exact min_le_right _ _

/-- Witness for C24: the weights of `main`, spike score `1/2`, uniqueness `1` and the
keyword scores `wins ↦ 1`, `hype ↦ 1/2`. -/
theorem calculateScore_spec_witness :
    ((0 : ℚ) ≤ 1 / 2 ∧ (1 / 2 : ℚ) ≤ 1) ∧
      (defaultScoringEngine.calculateScore (1 / 2) [(ascii "wins", 1), (ascii "hype", 1 / 2)] 1 =
        min (defaultScoringEngine.config_.weights.spike_weight * (1 / 2) +
          defaultScoringEngine.config_.weights.keyword_weight *
            defaultScoringEngine.normalizeKeywordScore
              [(ascii "wins", 1), (ascii "hype", 1 / 2)] +
          defaultScoringEngine.config_.weights.uniqueness_weight * 1) 1 ∧
      (([(ascii "wins", 1), (ascii "hype", 1 / 2)] : ScoreMap) = [] →
        defaultScoringEngine.normalizeKeywordScore
          [(ascii "wins", 1), (ascii "hype", 1 / 2)] = 0) ∧
      (([(ascii "wins", 1), (ascii "hype", 1 / 2)] : ScoreMap) ≠ [] →
        (∃ p ∈ ([(ascii "wins", 1), (ascii "hype", 1 / 2)] : ScoreMap),
          p.2 = defaultScoringEngine.normalizeKeywordScore
            [(ascii "wins", 1), (ascii "hype", 1 / 2)]) ∧
        ∀ p ∈ ([(ascii "wins", 1), (ascii "hype", 1 / 2)] : ScoreMap),
          p.2 ≤ defaultScoringEngine.normalizeKeywordScore
            [(ascii "wins", 1), (ascii "hype", 1 / 2)]) ∧
      0 ≤ defaultScoringEngine.calculateScore (1 / 2)
        [(ascii "wins", 1), (ascii "hype", 1 / 2)] 1 ∧
      defaultScoringEngine.calculateScore (1 / 2)
        [(ascii "wins", 1), (ascii "hype", 1 / 2)] 1 ≤ 1) :=
  ⟨by norm_num,
    calculateScore_spec defaultScoringEngine (1 / 2) 1 [(ascii "wins", 1), (ascii "hype", 1 / 2)]
      (by simp only [defaultScoringEngine]; norm_num) (by norm_num) (by norm_num)
      (by
        intro p hp
        simp only [List.mem_cons, List.mem_singleton, List.not_mem_nil, or_false] at hp
        rcases hp with rfl | rfl <;> norm_num)⟩

/-- C25: the event built by `createClipEvent` at emission time `now` has
`end_time = now + lookback`, `start_time = end_time - clip_duration` (durations in
milliseconds), hence `end_time - start_time = clip_duration` and, for
`clip_duration ≥ 0`, `start_time ≤ end_time`; it carries the given score and the given
keywords in the same order. -/
theorem createClipEvent_spec (self : ClipDetector) (now : Int) (score : ℚ)
    (keywords : List Str) (hd : 0 ≤ self.config_.clip_duration) :
    (self.createClipEvent now score keywords).end_time = now + self.config_.lookback * 1000 ∧
      (self.createClipEvent now score keywords).start_time =
        (self.createClipEvent now score keywords).end_time -
          self.config_.clip_duration * 1000 ∧
      (self.createClipEvent now score keywords).end_time -
        (self.createClipEvent now score keywords).start_time =
          self.config_.clip_duration * 1000 ∧
      (self.createClipEvent now score keywords).start_time ≤
        (self.createClipEvent now score keywords).end_time ∧
      (self.createClipEvent now score keywords).score = score ∧
      (self.createClipEvent now score keywords).keywords = keywords := by
  refine ⟨rfl, rfl, ?_, ?_, rfl, rfl⟩
  · simp only [ClipDetector.createClipEvent]
    omega
  · simp only [ClipDetector.createClipEvent]
    omega

/-- Witness for C25: the configuration of `main` (60 s, 30 s), emission at 100000 ms. -/
theorem createClipEvent_spec_witness :
    (0 : Int) ≤ (ClipDetector.create defaultClipConfig (setupDefaultKeywords defaultMatcher)
        defaultScoringEngine).config_.clip_duration ∧
      ((ClipDetector.create defaultClipConfig (setupDefaultKeywords defaultMatcher)
          defaultScoringEngine).createClipEvent 100000 1 [ascii "W"]).end_time =
        100000 + (ClipDetector.create defaultClipConfig (setupDefaultKeywords defaultMatcher)
          defaultScoringEngine).config_.lookback * 1000 ∧
      ((ClipDetector.create defaultClipConfig (setupDefaultKeywords defaultMatcher)
          defaultScoringEngine).createClipEvent 100000 1 [ascii "W"]).end_time -
        ((ClipDetector.create defaultClipConfig (setupDefaultKeywords defaultMatcher)
          defaultScoringEngine).createClipEvent 100000 1 [ascii "W"]).start_time = 60000 :=
  ⟨by decide,
    (createClipEvent_spec (ClipDetector.create defaultClipConfig
      (setupDefaultKeywords defaultMatcher) defaultScoringEngine) 100000 1 [ascii "W"]
      (by decide)).1,
    (createClipEvent_spec (ClipDetector.create defaultClipConfig
      (setupDefaultKeywords defaultMatcher) defaultScoringEngine) 100000 1 [ascii "W"]
      (by decide)).2.2.1⟩

theorem selectCategory_cons (kw : Str) (rest : List Str) :
    ClipDetector.selectCategory (kw :: rest) =
      if kw = ascii "W" ∨ kw = ascii "pog" ∨ kw = ascii "clutch" ∨ kw = ascii "insane" then
        ascii "win"
      else if kw = ascii "L" ∨ kw = ascii "ff" ∨ kw = ascii "sad" then ascii "loss"
      else if kw = ascii "OMEGALUL" ∨ kw = ascii "KEKW" then ascii "hype"
      else ascii "spike" := rfl

theorem selectCategory_mem (keywords : List Str) :
    ClipDetector.selectCategory keywords ∈
      [ascii "win", ascii "loss", ascii "hype", ascii "spike"] := by
  cases keywords with
  | nil => simp [ClipDetector.selectCategory]
  | cons kw rest =>
    rw [selectCategory_cons]
    split
    · simp
    · split
      · simp
      · split <;> simp

/-- C26: the category of the event is decided by the first keyword only, by exact
(case-sensitive) comparison: "W", "pog", "clutch", "insane" give "win"; "L", "ff",
"sad" give "loss"; "OMEGALUL", "KEKW" give "hype"; any other first keyword (for
instance the lower-case "w") and the empty list give "spike". The category is always
one of win, loss, hype, spike. -/
theorem createClipEvent_category (self : ClipDetector) (now : Int) (score : ℚ)
    (keywords : List Str) :
    (self.createClipEvent now score keywords).category = ClipDetector.selectCategory keywords ∧
      ClipDetector.selectCategory [] = ascii "spike" ∧
      (∀ kw rest, kw ∈ [ascii "W", ascii "pog", ascii "clutch", ascii "insane"] →
        ClipDetector.selectCategory (kw :: rest) = ascii "win") ∧
      (∀ kw rest, kw ∈ [ascii "L", ascii "ff", ascii "sad"] →
        ClipDetector.selectCategory (kw :: rest) = ascii "loss") ∧
      (∀ kw rest, kw ∈ [ascii "OMEGALUL", ascii "KEKW"] →
        ClipDetector.selectCategory (kw :: rest) = ascii "hype") ∧
      (∀ kw rest,
        kw ∉ [ascii "W", ascii "pog", ascii "clutch", ascii "insane", ascii "L", ascii "ff",
          ascii "sad", ascii "OMEGALUL", ascii "KEKW"] →
        ClipDetector.selectCategory (kw :: rest) = ascii "spike") ∧
      ClipDetector.selectCategory [ascii "w", ascii "W"] = ascii "spike" ∧
      (self.createClipEvent now score keywords).category ∈
        [ascii "win", ascii "loss", ascii "hype", ascii "spike"] := by
  refine ⟨rfl, rfl, ?_, ?_, ?_, ?_, by decide, selectCategory_mem keywords⟩
  · intro kw rest h
    rw [selectCategory_cons]
    simp only [List.mem_cons, List.mem_singleton, List.not_mem_nil, or_false] at h
    rw [if_pos h]
  · intro kw rest h
    rw [selectCategory_cons]
    simp only [List.mem_cons, List.mem_singleton, List.not_mem_nil, or_false] at h
    have hn : ¬ (kw = ascii "W" ∨ kw = ascii "pog" ∨ kw = ascii "clutch" ∨
        kw = ascii "insane") := by
      rcases h with rfl | rfl | rfl <;> decide
    rw [if_neg hn, if_pos h]
  · intro kw rest h
    rw [selectCategory_cons]
    simp only [List.mem_cons, List.mem_singleton, List.not_mem_nil, or_false] at h
    have hn1 : ¬ (kw = ascii "W" ∨ kw = ascii "pog" ∨ kw = ascii "clutch" ∨
        kw = ascii "insane") := by
      rcases h with rfl | rfl <;> decide
    have hn2 : ¬ (kw = ascii "L" ∨ kw = ascii "ff" ∨ kw = ascii "sad") := by
      rcases h with rfl | rfl <;> decide
    rw [if_neg hn1, if_neg hn2, if_pos h]
  · intro kw rest h
    rw [selectCategory_cons]
    simp only [List.mem_cons, List.mem_singleton, List.not_mem_nil, or_false, not_or] at h
    obtain ⟨h1, h2, h3, h4, h5, h6, h7, h8, h9⟩ := h
    rw [if_neg (by simp [h1, h2, h3, h4]), if_neg (by simp [h5, h6, h7]),
      if_neg (by simp [h8, h9])]

/-! ## Lemmas: clip detector, one call -/

theorem checkCooldown_eq_true_iff (s : ClipDetector) (now : Int) :
    s.checkCooldown now = true ↔
      s.in_cooldown_ = true ∧ now - s.last_clip_time_ < s.config_.cooldown * 1000 := by
  unfold ClipDetector.checkCooldown
  cases h : s.in_cooldown_ <;> simp

theorem evaluate_cases (sqrt : ℚ → ℚ) (s : ClipDetector) (clk : EvalClock) :
    s.evaluate sqrt clk = (s, none) ∨
      (s.checkCooldown clk.cooldown = false ∧
        ∃ score kws, s.evaluate sqrt clk =
          ({ s with last_clip_time_ := clk.emit, in_cooldown_ := true },
            some (s.createClipEvent clk.emit score kws))) := by
  unfold ClipDetector.evaluate
  by_cases hc : s.checkCooldown clk.cooldown = true
  · left
    rw [if_pos hc]
  · rw [if_neg hc]
    simp only []
    split
    · right
      exact ⟨by simpa using hc, _, _, rfl⟩
    · left
      rfl

theorem evaluate_of_cooldown (sqrt : ℚ → ℚ) (s : ClipDetector) (clk : EvalClock)
    (h : s.checkCooldown clk.cooldown = true) : s.evaluate sqrt clk = (s, none) := by
  unfold ClipDetector.evaluate
  rw [if_pos h]

/-- What one call does to the cooldown state: nothing (no event), a reset, or an
emission at the emission reading `te` after a cooldown check at reading `tc`. -/
theorem call_cases (sqrt : ℚ → ℚ) (s : ClipDetector) (c : DetectorCall) :
    (s.call sqrt c).1.config_ = s.config_ ∧
      (((s.call sqrt c).2 = none ∧ c.isReset = false ∧
          (s.call sqrt c).1.last_clip_time_ = s.last_clip_time_ ∧
          (s.call sqrt c).1.in_cooldown_ = s.in_cooldown_) ∨
        ((s.call sqrt c).2 = none ∧ c.isReset = true ∧
          (s.call sqrt c).1.last_clip_time_ = 0 ∧ (s.call sqrt c).1.in_cooldown_ = false) ∨
        (∃ tc te e, c.cooldownClock = some tc ∧ c.emitClock = some te ∧
          s.checkCooldown tc = false ∧ (s.call sqrt c).2 = some e ∧
          e.end_time = te + s.config_.lookback * 1000 ∧
          e.start_time = te + s.config_.lookback * 1000 - s.config_.clip_duration * 1000 ∧
          (s.call sqrt c).1.last_clip_time_ = te ∧ (s.call sqrt c).1.in_cooldown_ = true)) := by
  cases c with
  | processMessage msg clk =>
    simp only [ClipDetector.call, ClipDetector.processMessage]
    rcases evaluate_cases sqrt
      { s with buffer_ := s.buffer_.addMessage clk.cleanup msg,
               spike_detector_ := s.spike_detector_.addSample
                 ((s.buffer_.addMessage clk.cleanup msg).getMessageRate clk.rateStart
                   clk.rateEnd 10) } clk.eval with h | ⟨hc, score, kws, h⟩
    · rw [h]
      exact ⟨rfl, Or.inl ⟨rfl, rfl, rfl, rfl⟩⟩
    · rw [h]
      exact ⟨rfl, Or.inr (Or.inr ⟨clk.eval.cooldown, clk.eval.emit, _, rfl, rfl, hc, rfl, rfl,
        rfl, rfl, rfl⟩)⟩
  | evaluate clk =>
    simp only [ClipDetector.call]
    rcases evaluate_cases sqrt s clk with h | ⟨hc, score, kws, h⟩
    · rw [h]
      exact ⟨rfl, Or.inl ⟨rfl, rfl, rfl, rfl⟩⟩
    · rw [h]
      exact ⟨rfl, Or.inr (Or.inr ⟨clk.cooldown, clk.emit, _, rfl, rfl, hc, rfl, rfl, rfl, rfl,
        rfl⟩)⟩
  | reset clk =>
    exact ⟨rfl, Or.inr (Or.inl ⟨rfl, rfl, rfl, rfl⟩)⟩

theorem callAll_cons (sqrt : ℚ → ℚ) (s : ClipDetector) (c : DetectorCall)
    (rest : List DetectorCall) :
    s.callAll sqrt (c :: rest) =
      (((s.call sqrt c).1.callAll sqrt rest).1,
        (s.call sqrt c).2.toList ++ ((s.call sqrt c).1.callAll sqrt rest).2) := rfl

theorem callAll_config (sqrt : ℚ → ℚ) (s : ClipDetector) (calls : List DetectorCall) :
    (s.callAll sqrt calls).1.config_ = s.config_ := by
  induction calls generalizing s with
  | nil => rfl
  | cons c rest ih =>
    rw [callAll_cons]
    simp only []
    rw [ih, (call_cases sqrt s c).1]

/-! ## Lemmas: clip detector, sequences of calls -/

theorem callAll_endTimes_chain (sqrt : ℚ → ℚ) (cd : Int) (calls : List DetectorCall)
    (hnoreset : ∀ c ∈ calls, c.isReset = false)
    (hclock : ∀ c ∈ calls, ∀ tc te, c.cooldownClock = some tc → c.emitClock = some te →
      tc ≤ te)
    (s : ClipDetector) (hcd : s.config_.cooldown * 1000 = cd) (p : Int)
    (hin : s.in_cooldown_ = true) (hp : p = s.last_clip_time_ + s.config_.lookback * 1000) :
    List.Chain (fun a b => b - a ≥ cd) p ((s.callAll sqrt calls).2.map ClipEvent.end_time) := by
  induction calls generalizing s p with
  | nil => exact List.Chain.nil
  | cons c rest ih =>
    rw [callAll_cons]
    simp only []
    have hrest : ∀ c' ∈ rest, c'.isReset = false :=
      fun c' hc' => hnoreset c' (List.mem_cons_of_mem _ hc')
    have hclk : ∀ c' ∈ rest, ∀ tc te, c'.cooldownClock = some tc → c'.emitClock = some te →
        tc ≤ te := fun c' hc' => hclock c' (List.mem_cons_of_mem _ hc')
    obtain ⟨hcfg, hcase⟩ := call_cases sqrt s c
    rcases hcase with ⟨hnone, _, hlast, hcool⟩ | ⟨_, hreset, _, _⟩ |
      ⟨tc, te, e, htc, hte, hchk, hsome, hend, _, hlast, hcool⟩
    · rw [hnone]
      simp only [Option.toList, List.nil_append]
      exact ih hrest hclk _ (by rw [hcfg]; exact hcd) p (by rw [hcool]; exact hin)
        (by rw [hlast, hcfg]; exact hp)
    · have := hnoreset c (List.mem_cons_self _ _)
      rw [this] at hreset
      exact absurd hreset (by simp)
    · rw [hsome]
      simp only [Option.toList, List.singleton_append, List.map_cons]
      refine List.Chain.cons ?_ ?_
      · have hnot : ¬ (s.checkCooldown tc = true) := by rw [hchk]; simp
        rw [checkCooldown_eq_true_iff] at hnot
        have h1 : ¬ (tc - s.last_clip_time_ < s.config_.cooldown * 1000) :=
          fun h => hnot ⟨hin, h⟩
        have h2 := hclock c (List.mem_cons_self _ _) tc te htc hte
        rw [hend, hp, ← hcd]
        show te + s.config_.lookback * 1000 - (s.last_clip_time_ + s.config_.lookback * 1000) ≥
          s.config_.cooldown * 1000
        omega
      · exact ih hrest hclk _ (by rw [hcfg]; exact hcd) e.end_time hcool
          (by rw [hlast, hcfg]; exact hend)

theorem callAll_endTimes_chain' (sqrt : ℚ → ℚ) (cd : Int) (calls : List DetectorCall)
    (hnoreset : ∀ c ∈ calls, c.isReset = false)
    (hclock : ∀ c ∈ calls, ∀ tc te, c.cooldownClock = some tc → c.emitClock = some te →
      tc ≤ te)
    (s : ClipDetector) (hcd : s.config_.cooldown * 1000 = cd) :
    List.Chain' (fun a b => b - a ≥ cd) ((s.callAll sqrt calls).2.map ClipEvent.end_time) := by
  induction calls generalizing s with
  | nil => exact List.chain'_nil
  | cons c rest ih =>
    rw [callAll_cons]
    simp only []
    have hrest : ∀ c' ∈ rest, c'.isReset = false :=
      fun c' hc' => hnoreset c' (List.mem_cons_of_mem _ hc')
    have hclk : ∀ c' ∈ rest, ∀ tc te, c'.cooldownClock = some tc → c'.emitClock = some te →
        tc ≤ te := fun c' hc' => hclock c' (List.mem_cons_of_mem _ hc')
    obtain ⟨hcfg, hcase⟩ := call_cases sqrt s c
    rcases hcase with ⟨hnone, _, _, _⟩ | ⟨hnone, _, _, _⟩ |
      ⟨tc, te, e, _, _, _, hsome, hend, _, hlast, hcool⟩
    · rw [hnone]
      simp only [Option.toList, List.nil_append]
      exact ih hrest hclk _ (by rw [hcfg]; exact hcd)
    · rw [hnone]
      simp only [Option.toList, List.nil_append]
      exact ih hrest hclk _ (by rw [hcfg]; exact hcd)
    · rw [hsome]
      simp only [Option.toList, List.singleton_append, List.map_cons]
      exact callAll_endTimes_chain sqrt cd rest hrest hclk _ (by rw [hcfg]; exact hcd)
        e.end_time hcool (by rw [hlast, hcfg]; exact hend)

theorem callAll_event_source (sqrt : ℚ → ℚ) (calls : List DetectorCall) (s : ClipDetector) :
    ∀ e ∈ (s.callAll sqrt calls).2, ∃ c ∈ calls, ∃ te, c.emitClock = some te ∧
      e.end_time = te + s.config_.lookback * 1000 ∧
      e.start_time = te + s.config_.lookback * 1000 - s.config_.clip_duration * 1000 := by
  induction calls generalizing s with
  | nil =>
    intro e he
    simp [ClipDetector.callAll] at he
  | cons c rest ih =>
    intro e he
    rw [callAll_cons] at he
    simp only [List.mem_append] at he
    obtain ⟨hcfg, hcase⟩ := call_cases sqrt s c
    rcases he with he | he
    · rcases hcase with ⟨hnone, _, _, _⟩ | ⟨hnone, _, _, _⟩ |
        ⟨tc, te, e', _, hte, _, hsome, hend, hstart, _, _⟩
      · rw [hnone] at he
        simp at he
      · rw [hnone] at he
        simp at he
      · rw [hsome] at he
        simp only [Option.toList, List.mem_singleton] at he
        subst he
        exact ⟨c, List.mem_cons_self _ _, te, hte, hend, hstart⟩
    · obtain ⟨c', hc', te, hte, h1, h2⟩ := ih _ e he
      rw [hcfg] at h1 h2
      exact ⟨c', List.mem_cons_of_mem _ hc', te, hte, h1, h2⟩

theorem callAll_startTimes_sublist (sqrt : ℚ → ℚ) (calls : List DetectorCall)
    (s : ClipDetector) :
    List.Sublist ((s.callAll sqrt calls).2.map ClipEvent.start_time)
      ((calls.filterMap DetectorCall.emitClock).map
        (fun t => t + s.config_.lookback * 1000 - s.config_.clip_duration * 1000)) := by
  induction calls generalizing s with
  | nil => simp [ClipDetector.callAll]
  | cons c rest ih =>
    rw [callAll_cons]
    simp only []
    obtain ⟨hcfg, hcase⟩ := call_cases sqrt s c
    have hih := ih (s.call sqrt c).1
    rw [hcfg] at hih
    rcases hcase with ⟨hnone, _, _, _⟩ | ⟨hnone, _, _, _⟩ |
      ⟨tc, te, e, _, hte, _, hsome, _, hstart, _, _⟩
    · rw [hnone]
      simp only [Option.toList, List.nil_append]
      cases hec : c.emitClock with
      | none =>
        rw [List.filterMap_cons_none hec]
        exact hih
      | some t =>
        rw [List.filterMap_cons_some hec, List.map_cons]
        exact List.Sublist.cons _ hih
    · rw [hnone]
      simp only [Option.toList, List.nil_append]
      cases hec : c.emitClock with
      | none =>
        rw [List.filterMap_cons_none hec]
        exact hih
      | some t =>
        rw [List.filterMap_cons_some hec, List.map_cons]
        exact List.Sublist.cons _ hih
    · rw [hsome, List.filterMap_cons_some hte]
      simp only [Option.toList, List.singleton_append, List.map_cons]
      rw [hstart]
      exact List.Sublist.cons₂ _ hih

theorem callAll_flag_iff (sqrt : ℚ → ℚ) (calls : List DetectorCall)
    (hpos : ∀ c ∈ calls, ∀ te, c.emitClock = some te → 0 < te)
    (s : ClipDetector) (hs : s.in_cooldown_ = true ↔ 0 < s.last_clip_time_) :
    (s.callAll sqrt calls).1.in_cooldown_ = true ↔ 0 < (s.callAll sqrt calls).1.last_clip_time_ := by
  induction calls generalizing s with
  | nil => exact hs
  | cons c rest ih =>
    rw [callAll_cons]
    simp only []
    apply ih (fun c' hc' => hpos c' (List.mem_cons_of_mem _ hc'))
    obtain ⟨_, hcase⟩ := call_cases sqrt s c
    rcases hcase with ⟨_, _, hlast, hcool⟩ | ⟨_, _, hlast, hcool⟩ |
      ⟨tc, te, e, _, hte, _, _, _, _, hlast, hcool⟩
    · rw [hlast, hcool]
      exact hs
    · rw [hlast, hcool]
      simp
    · rw [hlast, hcool]
      have := hpos c (List.mem_cons_self _ _) te hte
      simp [this]

theorem processAtTimestamp_clocks (msg : ChatMessage) :
    (processAtTimestamp msg).isReset = false ∧
      (processAtTimestamp msg).cooldownClock = some msg.timestamp ∧
      (processAtTimestamp msg).emitClock = some msg.timestamp := ⟨rfl, rfl, rfl⟩

/-! ## Claims C27 to C29 -/

/-- C27: cooldown respected. For every run of `processMessage` / `evaluate` calls on
one detector without `reset()`, in which no call reads an earlier clock at its
emission than at its cooldown check, any two consecutive events are emitted at least
`cooldown` apart (every event has `end_time = emission time + lookback`, so the
distance of the emission times is that of the end times). Equivalently for one call:
while `in_cooldown` holds and `now - last_clip_time < cooldown`, `evaluate` changes
nothing and emits nothing, and `processMessage` emits nothing and leaves
`last_clip_time` unchanged. -/
theorem cooldown_respected (sqrt : ℚ → ℚ) (s : ClipDetector) (calls : List DetectorCall)
    (hnoreset : ∀ c ∈ calls, c.isReset = false)
    (hclock : ∀ c ∈ calls, ∀ tc te, c.cooldownClock = some tc → c.emitClock = some te →
      tc ≤ te) :
    List.Chain' (fun e1 e2 => e2.end_time - e1.end_time ≥ s.config_.cooldown * 1000)
        (s.callAll sqrt calls).2 ∧
      (∀ e ∈ (s.callAll sqrt calls).2, ∃ c ∈ calls, ∃ te, c.emitClock = some te ∧
        e.end_time = te + s.config_.lookback * 1000) ∧
      (∀ clk : EvalClock, s.in_cooldown_ = true →
        clk.cooldown - s.last_clip_time_ < s.config_.cooldown * 1000 →
        s.evaluate sqrt clk = (s, none)) ∧
      (∀ (msg : ChatMessage) (clk : ProcessClock), s.in_cooldown_ = true →
        clk.eval.cooldown - s.last_clip_time_ < s.config_.cooldown * 1000 →
        (s.processMessage sqrt msg clk).2 = none ∧
        (s.processMessage sqrt msg clk).1.last_clip_time_ = s.last_clip_time_ ∧
        (s.processMessage sqrt msg clk).1.in_cooldown_ = true) := by
  refine ⟨?_, ?_, ?_, ?_⟩
  · have h := callAll_endTimes_chain' sqrt (s.config_.cooldown * 1000) calls hnoreset hclock s rfl
    rw [List.chain'_map] at h
    exact h
  · intro e he
    obtain ⟨c, hc, te, hte, hend, _⟩ := callAll_event_source sqrt calls s e he
    exact ⟨c, hc, te, hte, hend⟩
  · intro clk hin hlt
    exact evaluate_of_cooldown sqrt s clk ((checkCooldown_eq_true_iff s _).2 ⟨hin, hlt⟩)
  · intro msg clk hin hlt
    unfold ClipDetector.processMessage
    simp only []
    rw [evaluate_of_cooldown]
    · exact ⟨rfl, rfl, hin⟩
    · exact (checkCooldown_eq_true_iff _ _).2 ⟨hin, hlt⟩

/-- C28: in every state reached from a newly constructed detector by
`processMessage`, `evaluate` and `reset` calls whose emission clock readings are
positive, the flag `in_cooldown` holds exactly when `last_clip_time > 0`, and
`checkCooldown()` at clock reading `now` returns true if and only if
`last_clip_time > 0` and `now - last_clip_time < cooldown`. -/
theorem checkCooldown_iff (sqrt : ℚ → ℚ) (config : ClipDetectorConfig)
    (matcher : KeywordMatcher) (engine : ScoringEngine) (calls : List DetectorCall)
    (hpos : ∀ c ∈ calls, ∀ te, c.emitClock = some te → 0 < te) (now : Int) :
    (((ClipDetector.create config matcher engine).callAll sqrt calls).1.in_cooldown_ = true ↔
        0 < ((ClipDetector.create config matcher engine).callAll sqrt calls).1.last_clip_time_) ∧
      (((ClipDetector.create config matcher engine).callAll sqrt calls).1.checkCooldown now = true ↔
        0 < ((ClipDetector.create config matcher engine).callAll sqrt calls).1.last_clip_time_ ∧
        now - ((ClipDetector.create config matcher engine).callAll sqrt calls).1.last_clip_time_ <
          ((ClipDetector.create config matcher engine).callAll sqrt calls).1.config_.cooldown *
            1000) := by
  have hflag := callAll_flag_iff sqrt calls hpos (ClipDetector.create config matcher engine)
    (by simp [ClipDetector.create])
  refine ⟨hflag, ?_⟩
  rw [checkCooldown_eq_true_iff, hflag]

/-- C29: emission ordering. For every run of calls on one detector whose emission
clock readings are non-decreasing in call order, the `start_time` values of the
emitted events, in emission order, are non-decreasing. -/
theorem emission_ordering (sqrt : ℚ → ℚ) (s : ClipDetector) (calls : List DetectorCall)
    (hsorted : (calls.filterMap DetectorCall.emitClock).Pairwise (fun a b => a ≤ b)) :
    ((s.callAll sqrt calls).2.map ClipEvent.start_time).Pairwise (fun a b => a ≤ b) ∧
      List.Chain' (fun e1 e2 => e1.start_time ≤ e2.start_time) (s.callAll sqrt calls).2 := by
  have hmap : ((calls.filterMap DetectorCall.emitClock).map
      (fun t => t + s.config_.lookback * 1000 - s.config_.clip_duration * 1000)).Pairwise
      (fun a b => a ≤ b) := by
    apply List.Pairwise.map _ _ hsorted
    intro a b hab
    show a + s.config_.lookback * 1000 - s.config_.clip_duration * 1000 ≤
      b + s.config_.lookback * 1000 - s.config_.clip_duration * 1000
    omega
  have hp := List.Pairwise.sublist (callAll_startTimes_sublist sqrt calls s) hmap
  refine ⟨hp, ?_⟩
  have hc := List.Pairwise.chain' hp
  rw [List.chain'_map] at hc
  exact hc

/-! ## Lemmas: scenario S1 -/

theorem bestKeyword_wins_hi :
    bestKeyword (4 / 5) [104, 105] (["W", "pog", "clutch", "insane", "ez", "gg", "wp"].map ascii) = (0, []) := by
  simp only [bestKeyword, List.map_cons, List.map_nil, List.foldl_cons, List.foldl_nil]
  rw [matchStep_skip [104, 105] (ascii "W") _ (by decide) (by decide) (by decide),
    matchStep_skip [104, 105] (ascii "pog") _ (by decide) (by decide) (by decide),
    matchStep_skip [104, 105] (ascii "clutch") _ (by decide) (by decide) (by decide),
    matchStep_skip [104, 105] (ascii "insane") _ (by decide) (by decide) (by decide),
    matchStep_skip [104, 105] (ascii "ez") _ (by decide) (by decide) (by decide),
    matchStep_skip [104, 105] (ascii "gg") _ (by decide) (by decide) (by decide),
    matchStep_skip [104, 105] (ascii "wp") _ (by decide) (by decide) (by decide)]

theorem bestKeyword_losses_hi :
    bestKeyword (4 / 5) [104, 105] (["L", "ff", "sad", "rip", "unlucky", "oof"].map ascii) = (0, []) := by
  simp only [bestKeyword, List.map_cons, List.map_nil, List.foldl_cons, List.foldl_nil]
  rw [matchStep_skip [104, 105] (ascii "L") _ (by decide) (by decide) (by decide),
    matchStep_skip [104, 105] (ascii "ff") _ (by decide) (by decide) (by decide),
    matchStep_skip [104, 105] (ascii "sad") _ (by decide) (by decide) (by decide),
    matchStep_skip [104, 105] (ascii "rip") _ (by decide) (by decide) (by decide),
    matchStep_skip [104, 105] (ascii "unlucky") _ (by decide) (by decide) (by decide),
    matchStep_skip [104, 105] (ascii "oof") _ (by decide) (by decide) (by decide)]

theorem bestKeyword_hype_hi :
    bestKeyword (4 / 5) [104, 105] (["OMEGALUL", "KEKW", "PogChamp", "monkaS", "OMEGALUL", "LUL"].map ascii) = (0, []) := by
  simp only [bestKeyword, List.map_cons, List.map_nil, List.foldl_cons, List.foldl_nil]
  rw [matchStep_skip [104, 105] (ascii "OMEGALUL") _ (by decide) (by decide) (by decide),
    matchStep_skip [104, 105] (ascii "KEKW") _ (by decide) (by decide) (by decide),
    matchStep_skip [104, 105] (ascii "PogChamp") _ (by decide) (by decide) (by decide),
    matchStep_skip [104, 105] (ascii "monkaS") _ (by decide) (by decide) (by decide),
    matchStep_skip [104, 105] (ascii "OMEGALUL") _ (by decide) (by decide) (by decide),
    matchStep_skip [104, 105] (ascii "LUL") _ (by decide) (by decide) (by decide)]

theorem match_default_hi :
    (setupDefaultKeywords defaultMatcher).match_ (ascii "hi") = [] := by
  have hnm : normalize (ascii "hi") = [104, 105] := by decide
  show List.foldl (matchCategory (4 / 5) (normalize (ascii "hi"))) []
    [⟨ascii "wins", ["W", "pog", "clutch", "insane", "ez", "gg", "wp"].map ascii, 1⟩,
     ⟨ascii "losses", ["L", "ff", "sad", "rip", "unlucky", "oof"].map ascii, 1⟩,
     ⟨ascii "hype", ["OMEGALUL", "KEKW", "PogChamp", "monkaS", "OMEGALUL", "LUL"].map ascii, 4 / 5⟩] = _
  rw [hnm]
  simp only [List.foldl_cons, List.foldl_nil, matchCategory_eq, bestKeyword_wins_hi,
    bestKeyword_losses_hi, bestKeyword_hype_hi, if_true]

theorem scanMessage_quiet (matcher : KeywordMatcher) (msgs : List ChatMessage)
    (st : ScoreMap × List Str) (h : ∀ m ∈ msgs, matcher.match_ m.content = []) :
    msgs.foldl (ClipDetector.scanMessage matcher) st = st := by
  induction msgs generalizing st with
  | nil => rfl
  | cons m rest ih =>
    rw [List.foldl_cons]
    have hm : ClipDetector.scanMessage matcher st m = st := by
      unfold ClipDetector.scanMessage
      rw [h m (List.mem_cons_self _ _)]
      rfl
    rw [hm]
    exact ih st (fun m' hm' => h m' (List.mem_cons_of_mem _ hm'))

theorem defaultScore_no_keyword (spike : ℚ) (hs : spike ≤ 1) :
    defaultScoringEngine.calculateScore spike [] 1 ≤ 1 / 2 := by
  rw [calculateScore_eq, normalizeKeywordScore_nil]
  simp only [defaultScoringEngine]
  apply le_trans (min_le_left _ _)
  linarith

theorem evaluate_quiet (sqrt : ℚ → ℚ) (s : ClipDetector) (clk : EvalClock)
    (hm : ∀ m ∈ s.buffer_.buffer_, s.keyword_matcher_.match_ m.content = [])
    (he : s.scoring_engine_ = defaultScoringEngine) : s.evaluate sqrt clk = (s, none) := by
  unfold ClipDetector.evaluate
  split
  · rfl
  · have hscan : (s.buffer_.getWindowSeconds clk.windowStart clk.windowEnd 30).foldl
        (ClipDetector.scanMessage s.keyword_matcher_) ([], []) = ([], []) := by
      apply scanMessage_quiet
      intro m hmem
      unfold ChatBuffer.getWindowSeconds at hmem
      rw [getWindow_eq_filter] at hmem
      exact hm m (List.mem_filter.1 hmem).1
    simp only [hscan, he]
    have hscore := defaultScore_no_keyword (s.spike_detector_.getSpikeIntensity sqrt)
      (getSpikeIntensity_le_one sqrt _)
    have hno : defaultScoringEngine.shouldTriggerClip
        (defaultScoringEngine.calculateScore (s.spike_detector_.getSpikeIntensity sqrt) [] 1) =
        false := by
      unfold ScoringEngine.shouldTriggerClip
      rw [decide_eq_false_iff_not]
      simp only [defaultScoringEngine] at hscore ⊢
      intro hge
      have : (7 / 10 : ℚ) ≤ 1 / 2 := le_trans hge hscore
      norm_num at this
    rw [hno]
    simp

theorem processMessage_quiet (sqrt : ℚ → ℚ) (s : ClipDetector) (msg : ChatMessage)
    (clk : ProcessClock)
    (hm : ∀ m ∈ s.buffer_.buffer_, s.keyword_matcher_.match_ m.content = [])
    (hmsg : s.keyword_matcher_.match_ msg.content = [])
    (he : s.scoring_engine_ = defaultScoringEngine) :
    s.processMessage sqrt msg clk =
      ({ s with buffer_ := s.buffer_.addMessage clk.cleanup msg,
                spike_detector_ := s.spike_detector_.addSample
                  ((s.buffer_.addMessage clk.cleanup msg).getMessageRate clk.rateStart
                    clk.rateEnd 10) }, none) := by
  unfold ClipDetector.processMessage
  simp only []
  refine evaluate_quiet sqrt _ clk.eval ?_ ?_
  · intro m hmem
    simp only [] at hmem ⊢
    rw [addMessage_buffer] at hmem
    have hsub := (cleanupLoop_suffix _ _).sublist.subset hmem
    rcases List.mem_append.1 hsub with h1 | h1
    · exact hm m h1
    · rw [List.mem_singleton] at h1
      rw [h1]
      exact hmsg
  · exact he

theorem callAll_quiet (sqrt : ℚ → ℚ) (matcher : KeywordMatcher) (calls : List DetectorCall)
    (hcalls : ∀ c ∈ calls, ∃ msg clk, c = DetectorCall.processMessage msg clk ∧
      matcher.match_ msg.content = [])
    (s : ClipDetector) (hk : s.keyword_matcher_ = matcher)
    (he : s.scoring_engine_ = defaultScoringEngine)
    (hm : ∀ m ∈ s.buffer_.buffer_, matcher.match_ m.content = []) :
    (s.callAll sqrt calls).2 = [] := by
  induction calls generalizing s with
  | nil => rfl
  | cons c rest ih =>
    obtain ⟨msg, clk, hc, hmsg⟩ := hcalls c (List.mem_cons_self _ _)
    subst hc
    rw [callAll_cons]
    have hq := processMessage_quiet sqrt s msg clk (by rw [hk]; exact hm) (by rw [hk]; exact hmsg)
      he
    simp only [ClipDetector.call, hq, Option.toList, List.nil_append]
    refine ih (fun c' hc' => hcalls c' (List.mem_cons_of_mem _ hc')) _ ?_ ?_ ?_
    · exact hk
    · exact he
    · intro m hmem
      simp only [] at hmem
      rw [addMessage_buffer] at hmem
      have hsub := (cleanupLoop_suffix _ _).sublist.subset hmem
      rcases List.mem_append.1 hsub with h1 | h1
      · exact hm m h1
      · rw [List.mem_singleton] at h1
        rw [h1]
        exact hmsg

theorem scenarioS1_quiet (t0 : Int) :
    ∀ c ∈ scenarioS1 t0, ∃ msg clk, c = DetectorCall.processMessage msg clk ∧
      (setupDefaultKeywords defaultMatcher).match_ msg.content = [] := by
  intro c hc
  unfold scenarioS1 at hc
  rcases List.mem_append.1 hc with h | h
  · obtain ⟨i, _, rfl⟩ := List.mem_map.1 h
    exact ⟨_, _, rfl, match_default_hi⟩
  · obtain ⟨j, _, rfl⟩ := List.mem_map.1 h
    exact ⟨_, _, rfl, match_default_hi⟩

/-! ## Claim C30 -/

/-- C30, as stated, fails: the run of scenario S1 (from epoch 0, with `Rat.sqrt` as
square root) on the detector of `main` emits no event at all, not exactly one. -/
theorem scenarioS1_counterexample :
    ((ClipDetector.create defaultClipConfig (setupDefaultKeywords defaultMatcher)
        defaultScoringEngine).callAll Rat.sqrt (scenarioS1 0)).2 = [] ∧
      ((ClipDetector.create defaultClipConfig (setupDefaultKeywords defaultMatcher)
        defaultScoringEngine).callAll Rat.sqrt (scenarioS1 0)).2.length ≠ 1 := by
  have h := callAll_quiet Rat.sqrt (setupDefaultKeywords defaultMatcher) (scenarioS1 0)
    (scenarioS1_quiet 0) (ClipDetector.create defaultClipConfig (setupDefaultKeywords defaultMatcher)
        defaultScoringEngine) rfl rfl
    (by intro m hm; simp [ClipDetector.create, ChatBuffer.create] at hm)
  rw [h]
  exact ⟨rfl, by decide⟩

/-- C30, amended: scenario S1 (default matcher, weights `0.4, 0.5, 0.1`,
`min_clip_score = 0.7`, 300 messages "hi" at 100 ms intervals then 100 messages at
10 ms intervals, each processed at its timestamp) emits no event, whatever the epoch
and the square root: "hi" matches no keyword, so for every spike intensity `≤ 1` the
score is at most `0.4 + 0.1 = 0.5 < 0.7` and `shouldTriggerClip` is false. -/
theorem scenarioS1_no_emission (sqrt : ℚ → ℚ) (t0 : Int) :
    (scenarioS1 t0).length = 400 ∧
      ((ClipDetector.create defaultClipConfig (setupDefaultKeywords defaultMatcher)
        defaultScoringEngine).callAll sqrt (scenarioS1 t0)).2 = [] ∧
      (setupDefaultKeywords defaultMatcher).match_ (ascii "hi") = [] ∧
      (∀ spike : ℚ, spike ≤ 1 →
        defaultScoringEngine.calculateScore spike [] 1 ≤ 1 / 2 ∧
        defaultScoringEngine.shouldTriggerClip
          (defaultScoringEngine.calculateScore spike [] 1) = false) := by
  refine ⟨by simp [scenarioS1], ?_, match_default_hi, ?_⟩
  · exact callAll_quiet sqrt (setupDefaultKeywords defaultMatcher) (scenarioS1 t0)
      (scenarioS1_quiet t0) (ClipDetector.create defaultClipConfig (setupDefaultKeywords defaultMatcher)
        defaultScoringEngine) rfl rfl
      (by intro m hm; simp [ClipDetector.create, ChatBuffer.create] at hm)
  · intro spike hs
    have hscore := defaultScore_no_keyword spike hs
    refine ⟨hscore, ?_⟩
    unfold ScoringEngine.shouldTriggerClip
    rw [decide_eq_false_iff_not]
    intro hge
    have h7 : defaultScoringEngine.config_.min_clip_score = 7 / 10 := rfl
    rw [h7] at hge
    have : (7 / 10 : ℚ) ≤ 1 / 2 := le_trans hge hscore
    norm_num at this

/-! ## Lemmas: the evaluation, unfolded -/

theorem evaluate_eq (sqrt : ℚ → ℚ) (s : ClipDetector) (clk : EvalClock) :
    s.evaluate sqrt clk =
      if s.checkCooldown clk.cooldown then (s, none)
      else if s.scoring_engine_.shouldTriggerClip (s.evalScore sqrt clk) then
        ({ s with last_clip_time_ := clk.emit, in_cooldown_ := true },
          some (s.createClipEvent clk.emit (s.evalScore sqrt clk) (s.scanWindow clk).2))
      else (s, none) := rfl

theorem defaultShouldTrigger_iff (score : ℚ) :
    defaultScoringEngine.shouldTriggerClip score = true ↔ 7 / 10 ≤ score := by
  unfold ScoringEngine.shouldTriggerClip
  rw [decide_eq_true_eq]
  rfl

theorem defaultScore_eq (spike uniq : ℚ) (scores : ScoreMap) :
    defaultScoringEngine.calculateScore spike scores uniq =
      min (2 / 5 * spike + 1 / 2 * defaultScoringEngine.normalizeKeywordScore scores +
        1 / 10 * uniq) 1 := rfl

/-! ## Claims C35 and C38 -/

/-- C35, as stated, fails: "gg" is configured in the "wins" family by
`setupDefaultKeywords`, but an event whose first matched keyword is "gg" gets the
category "spike", not "win". -/
theorem category_family_counterexample :
    (∃ C ∈ (setupDefaultKeywords defaultMatcher).categories_,
        C.name = ascii "wins" ∧ ascii "gg" ∈ C.keywords) ∧
      ((ClipDetector.create defaultClipConfig (setupDefaultKeywords defaultMatcher)
        defaultScoringEngine).createClipEvent 0 1 [ascii "gg"]).category = ascii "spike" ∧
      ((ClipDetector.create defaultClipConfig (setupDefaultKeywords defaultMatcher)
        defaultScoringEngine).createClipEvent 0 1 [ascii "gg"]).category ≠ ascii "win" := by
  refine ⟨⟨⟨ascii "wins", ["W", "pog", "clutch", "insane", "ez", "gg", "wp"].map ascii, 1⟩,
    ?_, rfl, by decide⟩, by decide, by decide⟩
  simp [setupDefaultKeywords, defaultMatcher, KeywordMatcher.addCategory]

/-- C35, amended: the category follows the keyword family only for the keywords the
if-chain of `createClipEvent` lists. For the keywords configured by
`setupDefaultKeywords`, an event whose first matched keyword is `k` gets the category
"win" for "W", "pog", "clutch", "insane"; "loss" for "L", "ff", "sad"; "hype" for
"OMEGALUL", "KEKW"; and "spike" for the remaining ones ("ez", "gg", "wp" of the wins
family, "rip", "unlucky", "oof" of the losses family, "PogChamp", "monkaS", "LUL" of
the hype family). -/
theorem category_family (self : ClipDetector) (now : Int) (score : ℚ) (k : Str)
    (rest : List Str) :
    (setupDefaultKeywords defaultMatcher).categories_.map KeywordCategory.keywords =
        [["W", "pog", "clutch", "insane", "ez", "gg", "wp"].map ascii,
         ["L", "ff", "sad", "rip", "unlucky", "oof"].map ascii,
         ["OMEGALUL", "KEKW", "PogChamp", "monkaS", "OMEGALUL", "LUL"].map ascii] ∧
      (k ∈ ["W", "pog", "clutch", "insane"].map ascii →
        (self.createClipEvent now score (k :: rest)).category = ascii "win") ∧
      (k ∈ ["L", "ff", "sad"].map ascii →
        (self.createClipEvent now score (k :: rest)).category = ascii "loss") ∧
      (k ∈ ["OMEGALUL", "KEKW"].map ascii →
        (self.createClipEvent now score (k :: rest)).category = ascii "hype") ∧
      (k ∈ ["ez", "gg", "wp", "rip", "unlucky", "oof", "PogChamp", "monkaS", "LUL"].map ascii →
        (self.createClipEvent now score (k :: rest)).category = ascii "spike") := by
  refine ⟨rfl, ?_, ?_, ?_, ?_⟩
  · intro h
    show ClipDetector.selectCategory (k :: rest) = _
    rw [selectCategory_cons]
    simp only [List.map_cons, List.map_nil, List.mem_cons, List.mem_singleton,
      List.not_mem_nil, or_false] at h
    rcases h with rfl | rfl | rfl | rfl <;> decide
  · intro h
    show ClipDetector.selectCategory (k :: rest) = _
    rw [selectCategory_cons]
    simp only [List.map_cons, List.map_nil, List.mem_cons, List.mem_singleton,
      List.not_mem_nil, or_false] at h
    rcases h with rfl | rfl | rfl <;> decide
  · intro h
    show ClipDetector.selectCategory (k :: rest) = _
    rw [selectCategory_cons]
    simp only [List.map_cons, List.map_nil, List.mem_cons, List.mem_singleton,
      List.not_mem_nil, or_false] at h
    rcases h with rfl | rfl <;> decide
  · intro h
    show ClipDetector.selectCategory (k :: rest) = _
    rw [selectCategory_cons]
    simp only [List.map_cons, List.map_nil, List.mem_cons, List.mem_singleton,
      List.not_mem_nil, or_false] at h
    rcases h with rfl | rfl | rfl | rfl | rfl | rfl | rfl | rfl | rfl <;> decide

theorem evaluate_agree (sqrt : ℚ → ℚ) (a b : ClipDetector) (clk : EvalClock)
    (h : a.AgreeOffTiming b) :
    (a.evaluate sqrt clk).1.AgreeOffTiming (b.evaluate sqrt clk).1 ∧
      (a.evaluate sqrt clk).2.map ClipEvent.payload =
        (b.evaluate sqrt clk).2.map ClipEvent.payload := by
  obtain ⟨h1, h2, h3, h4, h5, h6, h7⟩ := h
  have hc : a.checkCooldown clk.cooldown = b.checkCooldown clk.cooldown := by
    unfold ClipDetector.checkCooldown
    rw [h5, h6, h7]
  have hs : a.scanWindow clk = b.scanWindow clk := by
    unfold ClipDetector.scanWindow
    rw [h1, h3]
  have hscore : a.evalScore sqrt clk = b.evalScore sqrt clk := by
    unfold ClipDetector.evalScore
    rw [hs, h2, h4]
  rw [evaluate_eq, evaluate_eq, hc, hscore, h4, hs]
  by_cases hcool : b.checkCooldown clk.cooldown = true
  · rw [if_pos hcool, if_pos hcool]
    exact ⟨⟨h1, h2, h3, h4, h5, h6, h7⟩, rfl⟩
  · rw [if_neg hcool, if_neg hcool]
    by_cases ht : b.scoring_engine_.shouldTriggerClip (b.evalScore sqrt clk) = true
    · rw [if_pos ht, if_pos ht]
      exact ⟨⟨h1, h2, h3, rfl, rfl, rfl, h7⟩, rfl⟩
    · rw [if_neg ht, if_neg ht]
      exact ⟨⟨h1, h2, h3, h4, h5, h6, h7⟩, rfl⟩

theorem call_agree (sqrt : ℚ → ℚ) (a b : ClipDetector) (c : DetectorCall)
    (h : a.AgreeOffTiming b) :
    (a.call sqrt c).1.AgreeOffTiming (b.call sqrt c).1 ∧
      (a.call sqrt c).2.map ClipEvent.payload = (b.call sqrt c).2.map ClipEvent.payload := by
  obtain ⟨h1, h2, h3, h4, h5, h6, h7⟩ := h
  cases c with
  | processMessage msg clk =>
    simp only [ClipDetector.call, ClipDetector.processMessage]
    apply evaluate_agree
    exact ⟨by simp only [h1], by simp only [h1, h2], h3, h4, h5, h6, h7⟩
  | evaluate clk =>
    simp only [ClipDetector.call]
    exact evaluate_agree sqrt a b clk ⟨h1, h2, h3, h4, h5, h6, h7⟩
  | reset clk =>
    simp only [ClipDetector.call, ClipDetector.reset]
    exact ⟨⟨by simp only [h1], by simp only [h2], h3, h4, rfl, rfl, h7⟩, trivial⟩

theorem callAll_agree (sqrt : ℚ → ℚ) (calls : List DetectorCall) (a b : ClipDetector)
    (h : a.AgreeOffTiming b) :
    (a.callAll sqrt calls).1.AgreeOffTiming (b.callAll sqrt calls).1 ∧
      (a.callAll sqrt calls).2.map ClipEvent.payload =
        (b.callAll sqrt calls).2.map ClipEvent.payload := by
  induction calls generalizing a b with
  | nil => exact ⟨h, rfl⟩
  | cons c rest ih =>
    rw [callAll_cons, callAll_cons]
    obtain ⟨hrel, hout⟩ := call_agree sqrt a b c h
    obtain ⟨hrel2, hout2⟩ := ih _ _ hrel
    refine ⟨hrel2, ?_⟩
    simp only [List.map_append]
    rw [hout2]
    congr 1
    cases ha : (a.call sqrt c).2 <;> cases hb : (b.call sqrt c).2 <;>
      rw [ha, hb] at hout <;> simp_all

/-! ## Claim C36 -/

/-- C36: whether a call emits, and the score, keywords and category of the emitted
event, do not depend on `lookback`, `clip_duration` or `min_score` of the detector
configuration: two detectors that agree on everything else and receive the same calls
with the same clock readings emit at the same calls, with the same score and keywords,
and stay in agreement. -/
theorem emission_independent_of_timing (sqrt : ℚ → ℚ) (a b : ClipDetector)
    (calls : List DetectorCall) (h : a.AgreeOffTiming b) :
    (a.callAll sqrt calls).2.map ClipEvent.payload =
        (b.callAll sqrt calls).2.map ClipEvent.payload ∧
      (a.callAll sqrt calls).1.AgreeOffTiming (b.callAll sqrt calls).1 ∧
      (∀ k, ((a.callAll sqrt (calls.take k)).2.length =
        (b.callAll sqrt (calls.take k)).2.length)) ∧
      (∀ c : DetectorCall, (a.call sqrt c).2.isSome = (b.call sqrt c).2.isSome) := by
  refine ⟨(callAll_agree sqrt calls a b h).2, (callAll_agree sqrt calls a b h).1, ?_, ?_⟩
  · intro k
    have := congrArg List.length (callAll_agree sqrt (calls.take k) a b h).2
    simpa using this
  · intro c
    have := (call_agree sqrt a b c h).2
    cases ha : (a.call sqrt c).2 <;> cases hb : (b.call sqrt c).2 <;>
      rw [ha, hb] at this <;> simp_all

/-! ## Lemmas: historical input -/

theorem addSample_zero (s : SpikeDetector) (hz : ∀ x ∈ s.samples_, x = 0) (h1 : s.sum_ = 0)
    (h2 : s.sum_sq_ = 0) :
    (∀ x ∈ (s.addSample 0).samples_, x = 0) ∧ (s.addSample 0).sum_ = 0 ∧
      (s.addSample 0).sum_sq_ = 0 := by
  have hall : ∀ x ∈ s.samples_ ++ [0], x = 0 := by
    intro x hx
    rcases List.mem_append.1 hx with h | h
    · exact hz x h
    · simpa using h
  refine ⟨?_, ?_, ?_⟩
  · rw [addSample_samples]
    split
    · intro x hx
      exact hall x (List.mem_of_mem_tail hx)
    · exact hall
  · unfold SpikeDetector.addSample
    simp only [SpikeDetector.updateStats, if_true]
    split
    · have hh : (s.samples_.head?.or (some 0)).getD 0 = 0 := by
        cases hl : s.samples_ with
        | nil => rfl
        | cons y rest =>
          have := hz y (by rw [hl]; simp)
          simp [this]
      simp [hh, h1]
    · simp [h1]
  · unfold SpikeDetector.addSample
    simp only [SpikeDetector.updateStats, if_true]
    split
    · have hh : (s.samples_.head?.or (some 0)).getD 0 = 0 := by
        cases hl : s.samples_ with
        | nil => rfl
        | cons y rest =>
          have := hz y (by rw [hl]; simp)
          simp [this]
      simp [hh, h2]
    · simp [h2]

theorem calculateStdDev_eq (sqrt : ℚ → ℚ) (s : SpikeDetector) :
    s.calculateStdDev sqrt =
      if s.samples_.length < 2 then 0 else if s.variance < 0 then 0 else sqrt s.variance := rfl

theorem getSpikeIntensity_zero_sums (sqrt : ℚ → ℚ) (hsqrt : sqrt 0 = 0) (s : SpikeDetector)
    (h1 : s.sum_ = 0) (h2 : s.sum_sq_ = 0) : s.getSpikeIntensity sqrt = 0 := by
  apply getSpikeIntensity_of_stddev_zero
  rw [calculateStdDev_eq]
  split
  · rfl
  · have hv : s.variance = 0 := by
      unfold SpikeDetector.variance SpikeDetector.calculateMean
      rw [h1, h2]
      split <;> simp
    rw [hv]
    simp [hsqrt]

theorem getWindow_nil (b : ChatBuffer) (h : b.buffer_ = []) (start stop : Int) :
    b.getWindow start stop = [] := by
  rw [getWindow_eq_filter, h]
  rfl

theorem evalScore_idle (sqrt : ℚ → ℚ) (hsqrt : sqrt 0 = 0) (s : ClipDetector) (clk : EvalClock)
    (h : s.Idle) : s.evalScore sqrt clk = 1 / 10 := by
  obtain ⟨hb, _, _, h1, h2, he, _, _⟩ := h
  have hscan : s.scanWindow clk = ([], []) := by
    unfold ClipDetector.scanWindow ChatBuffer.getWindowSeconds
    rw [getWindow_nil _ hb]
    rfl
  unfold ClipDetector.evalScore
  rw [hscan, he, getSpikeIntensity_zero_sums sqrt hsqrt _ h1 h2, defaultScore_eq,
    normalizeKeywordScore_nil]
  norm_num

theorem evaluate_idle (sqrt : ℚ → ℚ) (hsqrt : sqrt 0 = 0) (s : ClipDetector) (clk : EvalClock)
    (h : s.Idle) : s.evaluate sqrt clk = (s, none) := by
  rw [evaluate_eq]
  split
  · rfl
  · rw [evalScore_idle sqrt hsqrt s clk h, h.2.2.2.2.2.1]
    have hno : defaultScoringEngine.shouldTriggerClip (1 / 10) = false := by
      cases ht : defaultScoringEngine.shouldTriggerClip (1 / 10) with
      | false => rfl
      | true =>
        rw [defaultShouldTrigger_iff] at ht
        norm_num at ht
    rw [hno]
    simp

theorem processMessage_idle (sqrt : ℚ → ℚ) (hsqrt : sqrt 0 = 0) (s : ClipDetector)
    (msg : ChatMessage) (clk : ProcessClock) (h : s.Idle)
    (hold : msg.timestamp < clk.cleanup - 300 * 1000) :
    (s.processMessage sqrt msg clk).1.Idle ∧ (s.processMessage sqrt msg clk).2 = none := by
  obtain ⟨hb, hmax, hz, h1, h2, he, hc, hl⟩ := h
  have hbuf : (s.buffer_.addMessage clk.cleanup msg).buffer_ = [] := by
    rw [addMessage_buffer, hb, hmax]
    simp [ChatBuffer.cleanupLoop]
    omega
  have hrate : (s.buffer_.addMessage clk.cleanup msg).getMessageRate clk.rateStart
      clk.rateEnd 10 = 0 := by
    rw [getMessageRate_eq]
    unfold ChatBuffer.getWindowSeconds
    rw [getWindow_nil _ hbuf]
    simp
  have hidle : ClipDetector.Idle
      { s with buffer_ := s.buffer_.addMessage clk.cleanup msg,
               spike_detector_ := s.spike_detector_.addSample
                 ((s.buffer_.addMessage clk.cleanup msg).getMessageRate clk.rateStart
                   clk.rateEnd 10) } := by
    have hs := addSample_zero s.spike_detector_ hz h1 h2
    refine ⟨hbuf, ?_, ?_, ?_, ?_, he, hc, hl⟩
    · show (s.buffer_.addMessage clk.cleanup msg).max_duration_ = 300
      rw [addMessage_max_duration, hmax]
    · show ∀ x ∈ (s.spike_detector_.addSample _).samples_, x = 0
      rw [hrate]
      exact hs.1
    · show (s.spike_detector_.addSample _).sum_ = 0
      rw [hrate]
      exact hs.2.1
    · show (s.spike_detector_.addSample _).sum_sq_ = 0
      rw [hrate]
      exact hs.2.2
  unfold ClipDetector.processMessage
  simp only []
  rw [evaluate_idle sqrt hsqrt _ clk.eval hidle]
  exact ⟨hidle, rfl⟩

theorem callAll_idle (sqrt : ℚ → ℚ) (hsqrt : sqrt 0 = 0) (calls : List DetectorCall)
    (hcalls : ∀ c ∈ calls, ∃ msg clk, c = DetectorCall.processMessage msg clk ∧
      msg.timestamp < clk.cleanup - 300 * 1000)
    (s : ClipDetector) (h : s.Idle) :
    (s.callAll sqrt calls).1.Idle ∧ (s.callAll sqrt calls).2 = [] := by
  induction calls generalizing s with
  | nil => exact ⟨h, rfl⟩
  | cons c rest ih =>
    obtain ⟨msg, clk, hc, hold⟩ := hcalls c (List.mem_cons_self _ _)
    subst hc
    rw [callAll_cons]
    obtain ⟨hi, hn⟩ := processMessage_idle sqrt hsqrt s msg clk h hold
    simp only [ClipDetector.call, hn, Option.toList, List.nil_append]
    exact ih (fun c' hc' => hcalls c' (List.mem_cons_of_mem _ hc')) _ hi

theorem create_idle (config : ClipDetectorConfig) (matcher : KeywordMatcher) :
    (ClipDetector.create config matcher defaultScoringEngine).Idle :=
  ⟨rfl, rfl, by simp [ClipDetector.create, SpikeDetector.create], rfl, rfl, rfl, rfl, rfl⟩

/-! ## Claim C37 -/

/-- C37: historical input never produces a clip (`sqrt 0 = 0` for the library square
root). For a newly constructed detector with the default scoring, if every message
fed to `processMessage` is stamped earlier than `now - 300 s` at the clock reading of
its insertion, then after each call the buffer is empty, every rate sample held is
`0`, the score computed by an evaluation is `0.1`, and no event is emitted. -/
theorem historical_input_silent (sqrt : ℚ → ℚ) (hsqrt : sqrt 0 = 0)
    (config : ClipDetectorConfig) (matcher : KeywordMatcher) (calls : List DetectorCall)
    (hcalls : ∀ c ∈ calls, ∃ msg clk, c = DetectorCall.processMessage msg clk ∧
      msg.timestamp < clk.cleanup - 300 * 1000) :
    ((ClipDetector.create config matcher defaultScoringEngine).callAll sqrt calls).2 = [] ∧
      ((ClipDetector.create config matcher defaultScoringEngine).callAll sqrt
        calls).1.buffer_.buffer_ = [] ∧
      (∀ x ∈ ((ClipDetector.create config matcher defaultScoringEngine).callAll sqrt
        calls).1.spike_detector_.samples_, x = 0) ∧
      (∀ clk, ((ClipDetector.create config matcher defaultScoringEngine).callAll sqrt
        calls).1.evalScore sqrt clk = 1 / 10) ∧
      ((ClipDetector.create config matcher defaultScoringEngine).callAll sqrt
        calls).1.in_cooldown_ = false := by
  obtain ⟨hi, hn⟩ := callAll_idle sqrt hsqrt calls hcalls _ (create_idle config matcher)
  exact ⟨hn, hi.1, hi.2.2.1, fun clk => evalScore_idle sqrt hsqrt _ clk hi, hi.2.2.2.2.2.2.1⟩

/-- Witness for C37: two messages stamped 0 ms and 2000 ms (offsets of a recording),
processed at the clock readings 1000000 ms and 1000100 ms. -/
theorem historical_input_silent_witness :
    Rat.sqrt 0 = 0 ∧
      ((ClipDetector.create defaultClipConfig (setupDefaultKeywords defaultMatcher)
        defaultScoringEngine).callAll Rat.sqrt
          [DetectorCall.processMessage ⟨0, ascii "u", ascii "W"⟩
              ⟨1000000, 1000000, 1000000, ⟨1000000, 1000000, 1000000, 1000000⟩⟩,
            DetectorCall.processMessage ⟨2000, ascii "u", ascii "W"⟩
              ⟨1000100, 1000100, 1000100, ⟨1000100, 1000100, 1000100, 1000100⟩⟩]).2 = [] :=
  ⟨rat_sqrt_zero,
    (historical_input_silent Rat.sqrt rat_sqrt_zero defaultClipConfig
      (setupDefaultKeywords defaultMatcher)
      [DetectorCall.processMessage ⟨0, ascii "u", ascii "W"⟩
          ⟨1000000, 1000000, 1000000, ⟨1000000, 1000000, 1000000, 1000000⟩⟩,
        DetectorCall.processMessage ⟨2000, ascii "u", ascii "W"⟩
          ⟨1000100, 1000100, 1000100, ⟨1000100, 1000100, 1000100, 1000100⟩⟩]
      (by
        intro c hc
        simp only [List.mem_cons, List.mem_singleton, List.not_mem_nil, or_false] at hc
        rcases hc with rfl | rfl
        · exact ⟨_, _, rfl, by decide⟩
        · exact ⟨_, _, rfl, by decide⟩)).1⟩

/-! ## Lemmas: variance and z-score -/

theorem sum_sq_diff (a : ℚ) (t : List ℚ) :
    (t.map (fun y => (a - y) * (a - y))).sum =
      (t.length : ℚ) * (a * a) - 2 * a * t.sum + (t.map (fun x => x * x)).sum := by
  induction t with
  | nil => simp
  | cons y rest ih =>
    simp only [List.map_cons, List.sum_cons, List.length_cons, ih]
    push_cast
    ring

theorem dispersion_cons (a : ℚ) (t : List ℚ) :
    dispersion (a :: t) = dispersion t + (t.map (fun y => (a - y) * (a - y))).sum := by
  rw [sum_sq_diff]
  unfold dispersion
  simp only [List.map_cons, List.sum_cons, List.length_cons]
  push_cast
  ring

theorem sum_sq_diff_nonneg (a : ℚ) (t : List ℚ) :
    0 ≤ (t.map (fun y => (a - y) * (a - y))).sum := by
  apply List.sum_nonneg
  intro x hx
  obtain ⟨y, _, rfl⟩ := List.mem_map.1 hx
  exact mul_self_nonneg _

theorem dispersion_nonneg (l : List ℚ) : 0 ≤ dispersion l := by
  induction l with
  | nil => simp [dispersion]
  | cons a t ih =>
    rw [dispersion_cons]
    exact add_nonneg ih (sum_sq_diff_nonneg a t)

theorem sum_sq_diff_eq_zero (a : ℚ) (t : List ℚ)
    (h : (t.map (fun y => (a - y) * (a - y))).sum = 0) : ∀ y ∈ t, a = y := by
  induction t with
  | nil => intro y hy; simp at hy
  | cons b rest ih =>
    simp only [List.map_cons, List.sum_cons] at h
    have h1 : 0 ≤ (a - b) * (a - b) := mul_self_nonneg _
    have h2 := sum_sq_diff_nonneg a rest
    have h3 : (a - b) * (a - b) = 0 := by linarith
    have h4 : (rest.map (fun y => (a - y) * (a - y))).sum = 0 := by linarith
    intro y hy
    rcases List.mem_cons.1 hy with rfl | hy
    · have := mul_self_eq_zero.1 h3
      linarith
    · exact ih h4 y hy

theorem dispersion_eq_zero_iff (l : List ℚ) :
    dispersion l = 0 ↔ ∀ x ∈ l, ∀ y ∈ l, x = y := by
  induction l with
  | nil => simp [dispersion]
  | cons a t ih =>
    rw [dispersion_cons]
    constructor
    · intro h
      have h1 := dispersion_nonneg t
      have h2 := sum_sq_diff_nonneg a t
      have h3 : (t.map (fun y => (a - y) * (a - y))).sum = 0 := by linarith
      have hall := sum_sq_diff_eq_zero a t h3
      have hall2 : ∀ x ∈ a :: t, x = a := by
        intro x hx
        rcases List.mem_cons.1 hx with rfl | hx
        · rfl
        · exact (hall x hx).symm
      intro x hx y hy
      rw [hall2 x hx, hall2 y hy]
    · intro h
      have ht : dispersion t = 0 :=
        ih.2 (fun x hx y hy => h x (List.mem_cons_of_mem _ hx) y (List.mem_cons_of_mem _ hy))
      have hz : (t.map (fun y => (a - y) * (a - y))).sum = 0 := by
        apply List.sum_eq_zero
        intro x hx
        obtain ⟨y, hy, rfl⟩ := List.mem_map.1 hx
        rw [h a (List.mem_cons_self _ _) y (List.mem_cons_of_mem _ hy)]
        ring
      rw [ht, hz]
      ring

theorem variance_eq_dispersion (s : SpikeDetector) (h1 : s.sum_ = s.samples_.sum)
    (h2 : s.sum_sq_ = (s.samples_.map (fun x => x * x)).sum) :
    s.variance = dispersion s.samples_ / ((s.samples_.length : ℚ) * (s.samples_.length : ℚ)) := by
  unfold SpikeDetector.variance SpikeDetector.calculateMean dispersion
  rw [h1, h2]
  cases hl : s.samples_ with
  | nil => simp
  | cons a t =>
    have hn : (((a :: t).length : Nat) : ℚ) ≠ 0 := by
      simp only [List.length_cons]
      push_cast
      positivity
    simp only [List.isEmpty_cons, Bool.false_eq_true, if_false]
    field_simp
    ring

theorem variance_nonneg (s : SpikeDetector) (h1 : s.sum_ = s.samples_.sum)
    (h2 : s.sum_sq_ = (s.samples_.map (fun x => x * x)).sum) : 0 ≤ s.variance := by
  rw [variance_eq_dispersion s h1 h2]
  exact div_nonneg (dispersion_nonneg _) (mul_self_nonneg _)

theorem variance_eq_zero_iff (s : SpikeDetector) (h1 : s.sum_ = s.samples_.sum)
    (h2 : s.sum_sq_ = (s.samples_.map (fun x => x * x)).sum) :
    s.variance = 0 ↔ ∀ x ∈ s.samples_, ∀ y ∈ s.samples_, x = y := by
  rw [variance_eq_dispersion s h1 h2, ← dispersion_eq_zero_iff]
  cases hl : s.samples_ with
  | nil => simp [dispersion]
  | cons a t =>
    have hn : (((a :: t).length : Nat) : ℚ) ≠ 0 := by
      simp only [List.length_cons]
      push_cast
      positivity
    rw [div_eq_zero_iff]
    constructor
    · intro h
      rcases h with h | h
      · exact h
      · exact absurd (mul_self_eq_zero.1 h) hn
    · intro h
      exact Or.inl h

theorem calculateStdDev_of_sums (sqrt : ℚ → ℚ) (s : SpikeDetector)
    (h1 : s.sum_ = s.samples_.sum) (h2 : s.sum_sq_ = (s.samples_.map (fun x => x * x)).sum) :
    s.calculateStdDev sqrt = if s.samples_.length < 2 then 0 else sqrt s.variance := by
  rw [calculateStdDev_eq]
  split
  · rfl
  · rw [if_neg (not_lt.2 (variance_nonneg s h1 h2))]

theorem calculateStdDev_eq_zero_iff (sqrt : ℚ → ℚ)
    (hsqrt : ∀ v : ℚ, 0 ≤ v → (sqrt v = 0 ↔ v = 0)) (s : SpikeDetector)
    (h1 : s.sum_ = s.samples_.sum) (h2 : s.sum_sq_ = (s.samples_.map (fun x => x * x)).sum) :
    s.calculateStdDev sqrt = 0 ↔ ∀ x ∈ s.samples_, ∀ y ∈ s.samples_, x = y := by
  rw [calculateStdDev_of_sums sqrt s h1 h2]
  split
  · rename_i hlt
    constructor
    · intro _ x hx y hy
      cases hl : s.samples_ with
      | nil => rw [hl] at hx; simp at hx
      | cons a t =>
        cases t with
        | nil =>
          rw [hl] at hx hy
          simp only [List.mem_singleton] at hx hy
          rw [hx, hy]
        | cons b r =>
          rw [hl] at hlt
          simp only [List.length_cons] at hlt
          omega
    · intro _
      rfl
  · rw [hsqrt _ (variance_nonneg s h1 h2), variance_eq_zero_iff s h1 h2]

theorem create_sums (w : Nat) (sigma : ℚ) :
    (SpikeDetector.create w sigma).sum_ = (SpikeDetector.create w sigma).samples_.sum ∧
      (SpikeDetector.create w sigma).sum_sq_ =
        ((SpikeDetector.create w sigma).samples_.map (fun x => x * x)).sum := by
  simp [SpikeDetector.create]

theorem rat_sqrt_eq_zero_iff (v : ℚ) (hv : 0 ≤ v) : Rat.sqrt v = 0 ↔ v = 0 := by
  constructor
  · intro h
    unfold Rat.sqrt at h
    have hd : Nat.sqrt v.den ≠ 0 := by
      rw [Ne, Nat.sqrt_eq_zero]
      exact v.den_nz
    rw [Rat.mkRat_eq_zero hd] at h
    have hnum : 0 ≤ v.num := Rat.num_nonneg.2 hv
    unfold Int.sqrt at h
    have h3 : Nat.sqrt v.num.toNat = 0 := by exact_mod_cast h
    rw [Nat.sqrt_eq_zero] at h3
    have h4 : v.num = 0 := by omega
    exact Rat.num_eq_zero.1 h4
  · intro h
    rw [h]
    exact rat_sqrt_zero

/-! ## Claim C40 -/

/-- Counterexample for C40 as stated, in the binary64 arithmetic of the program: after
three samples `0.1` the variance expression is `-2^-59` (about `-1.7e-18`), so
`calculateStdDev` takes its `variance < 0` branch; and after six equal samples `0.1`
the standard deviation is `2^-29`, not `0`. -/
theorem variance_guard_counterexample :
    (tenths64 3).variance = ⟨-4503599627370496, -111⟩ ∧
      F64.lt (tenths64 3).variance ⟨0, 0⟩ = true ∧
      (tenths64 6).samples_ = List.replicate 6 F64.tenth ∧
      (tenths64 6).calculateStdDev = ⟨4503599627370496, -81⟩ ∧
      (tenths64 6).calculateStdDev ≠ ⟨0, 0⟩ := by
  decide!

/-- C40 (amended): in every `SpikeDetector` state reached from construction by
`addSample` and `reset` calls, the variance expression `sum_sq / n - mean * mean` is
`≥ 0` in exact arithmetic, so that, computed exactly, `calculateStdDev` does not take
its `variance < 0` branch (it is `0` below two samples and `sqrt variance` otherwise)
and, for a square root that vanishes only at `0`, the standard deviation is `0`
exactly when all held samples are equal. -/
theorem variance_nonneg_exact (sqrt : ℚ → ℚ)
    (hsqrt : ∀ v : ℚ, 0 ≤ v → (sqrt v = 0 ↔ v = 0)) (w : Nat) (sigma : ℚ)
    (calls : List SpikeCall) :
    0 ≤ ((SpikeDetector.create w sigma).callAll calls).variance ∧
      ((SpikeDetector.create w sigma).callAll calls).calculateStdDev sqrt =
        (if ((SpikeDetector.create w sigma).callAll calls).samples_.length < 2 then 0
          else sqrt ((SpikeDetector.create w sigma).callAll calls).variance) ∧
      (((SpikeDetector.create w sigma).callAll calls).calculateStdDev sqrt = 0 ↔
        ∀ x ∈ ((SpikeDetector.create w sigma).callAll calls).samples_,
          ∀ y ∈ ((SpikeDetector.create w sigma).callAll calls).samples_, x = y) := by
  obtain ⟨h1, h2⟩ := callAll_sums (SpikeDetector.create w sigma) calls
    (create_sums w sigma).1 (create_sums w sigma).2
  exact ⟨variance_nonneg _ h1 h2, calculateStdDev_of_sums sqrt _ h1 h2,
    calculateStdDev_eq_zero_iff sqrt hsqrt _ h1 h2⟩

/-- Witness for C40 (amended): window 2, calls `addSample 1`, `reset`, `addSample 2`,
`addSample 4`, `addSample 7`, with the rational square root. -/
theorem variance_nonneg_exact_witness :
    (∀ v : ℚ, 0 ≤ v → (Rat.sqrt v = 0 ↔ v = 0)) ∧
      0 ≤ ((SpikeDetector.create 2 3).callAll
        [SpikeCall.addSample 1, SpikeCall.reset, SpikeCall.addSample 2,
          SpikeCall.addSample 4, SpikeCall.addSample 7]).variance :=
  ⟨rat_sqrt_eq_zero_iff,
    (variance_nonneg_exact Rat.sqrt rat_sqrt_eq_zero_iff 2 3
      [SpikeCall.addSample 1, SpikeCall.reset, SpikeCall.addSample 2,
        SpikeCall.addSample 4, SpikeCall.addSample 7]).1⟩

/-! ## Lemmas: the z-score of the latest sample -/

theorem dispersion_concat (init : List ℚ) (x : ℚ) :
    (((init ++ [x]).length : ℚ) * x - (init ++ [x]).sum) *
        (((init ++ [x]).length : ℚ) * x - (init ++ [x]).sum) =
      (((init ++ [x]).length : ℚ) - 1) * dispersion (init ++ [x]) -
        ((init ++ [x]).length : ℚ) * dispersion init := by
  unfold dispersion
  simp only [List.length_append, List.sum_append, List.map_append, List.length_singleton,
    List.sum_singleton, List.map_cons, List.map_nil]
  push_cast
  ring

theorem last_dev_sq (s : SpikeDetector) (h1 : s.sum_ = s.samples_.sum)
    (h2 : s.sum_sq_ = (s.samples_.map (fun x => x * x)).sum) (init : List ℚ) (x : ℚ)
    (hl : s.samples_ = init ++ [x]) :
    (s.samples_.getLastD 0 - s.calculateMean) * (s.samples_.getLastD 0 - s.calculateMean) =
      ((s.samples_.length : ℚ) - 1) * s.variance -
        dispersion init / (s.samples_.length : ℚ) := by
  have key := dispersion_concat init x
  rw [variance_eq_dispersion s h1 h2]
  unfold SpikeDetector.calculateMean
  rw [h1, hl]
  have hlast : (init ++ [x]).getLastD 0 = x := by
    simp [List.getLastD_eq_getLast?]
  have hemp : (init ++ [x]).isEmpty = false := by
    cases init <;> rfl
  rw [hlast, hemp]
  simp only [Bool.false_eq_true, if_false]
  have hn : (((init ++ [x]).length : Nat) : ℚ) ≠ 0 := by
    simp only [List.length_append, List.length_singleton]
    push_cast
    positivity
  have e1 : x - (init ++ [x]).sum / (((init ++ [x]).length : Nat) : ℚ) =
      ((((init ++ [x]).length : Nat) : ℚ) * x - (init ++ [x]).sum) /
        (((init ++ [x]).length : Nat) : ℚ) := by
    field_simp
    ring
  rw [e1, div_mul_div_comm, key]
  field_simp
  ring

theorem exists_concat_of_ne_nil (l : List ℚ) (h : l ≠ []) :
    ∃ init x, l = init ++ [x] ∧ l.dropLast = init := by
  rcases List.eq_nil_or_concat l with h0 | ⟨init, x, hl⟩
  · exact absurd h0 h
  · rw [List.concat_eq_append] at hl
    exact ⟨init, x, hl, by rw [hl]; simp⟩

theorem length_pos_cast (s : SpikeDetector) (hn : 2 ≤ s.samples_.length) :
    (0 : ℚ) < (s.samples_.length : ℚ) := by
  have : 0 < s.samples_.length := by omega
  exact_mod_cast this

theorem last_dev_sq_le (s : SpikeDetector) (h1 : s.sum_ = s.samples_.sum)
    (h2 : s.sum_sq_ = (s.samples_.map (fun x => x * x)).sum) (hn : 2 ≤ s.samples_.length) :
    (s.samples_.getLastD 0 - s.calculateMean) * (s.samples_.getLastD 0 - s.calculateMean) ≤
      ((s.samples_.length : ℚ) - 1) * s.variance := by
  have hne : s.samples_ ≠ [] := by
    intro h0
    rw [h0] at hn
    simp at hn
  obtain ⟨init, x, hl, _⟩ := exists_concat_of_ne_nil s.samples_ hne
  rw [last_dev_sq s h1 h2 init x hl]
  have := div_nonneg (dispersion_nonneg init) (le_of_lt (length_pos_cast s hn))
  linarith

theorem last_dev_sq_eq (s : SpikeDetector) (h1 : s.sum_ = s.samples_.sum)
    (h2 : s.sum_sq_ = (s.samples_.map (fun x => x * x)).sum) (hn : 2 ≤ s.samples_.length)
    (heq : ∀ x ∈ s.samples_.dropLast, ∀ y ∈ s.samples_.dropLast, x = y) :
    (s.samples_.getLastD 0 - s.calculateMean) * (s.samples_.getLastD 0 - s.calculateMean) =
      ((s.samples_.length : ℚ) - 1) * s.variance := by
  have hne : s.samples_ ≠ [] := by
    intro h0
    rw [h0] at hn
    simp at hn
  obtain ⟨init, x, hl, hd⟩ := exists_concat_of_ne_nil s.samples_ hne
  rw [last_dev_sq s h1 h2 init x hl]
  rw [hd] at heq
  rw [(dispersion_eq_zero_iff init).2 heq]
  simp

theorem zScore_sq (sqrt : ℚ → ℚ) (s : SpikeDetector) (h1 : s.sum_ = s.samples_.sum)
    (h2 : s.sum_sq_ = (s.samples_.map (fun x => x * x)).sum) (hn : 2 ≤ s.samples_.length)
    (hsd : s.calculateStdDev sqrt ≠ 0)
    (hsq : sqrt s.variance * sqrt s.variance = s.variance) :
    0 < s.variance ∧
      s.zScore sqrt * s.zScore sqrt =
        (s.samples_.getLastD 0 - s.calculateMean) *
          (s.samples_.getLastD 0 - s.calculateMean) / s.variance := by
  have hstd : s.calculateStdDev sqrt = sqrt s.variance := by
    rw [calculateStdDev_of_sums sqrt s h1 h2, if_neg (by omega)]
  have hv0 : s.variance ≠ 0 := by
    intro h0
    apply hsd
    rw [hstd]
    rw [h0] at hsq
    rw [h0]
    exact mul_self_eq_zero.1 hsq
  refine ⟨lt_of_le_of_ne (variance_nonneg s h1 h2) (Ne.symm hv0), ?_⟩
  unfold SpikeDetector.zScore
  rw [hstd, div_mul_div_comm, hsq]

theorem zScore_sq_le (sqrt : ℚ → ℚ) (s : SpikeDetector) (h1 : s.sum_ = s.samples_.sum)
    (h2 : s.sum_sq_ = (s.samples_.map (fun x => x * x)).sum) (hn : 2 ≤ s.samples_.length)
    (hsd : s.calculateStdDev sqrt ≠ 0)
    (hle : s.variance ≤ sqrt s.variance * sqrt s.variance) :
    s.zScore sqrt * s.zScore sqrt ≤ (s.samples_.length : ℚ) - 1 := by
  have hstd : s.calculateStdDev sqrt = sqrt s.variance := by
    rw [calculateStdDev_of_sums sqrt s h1 h2, if_neg (by omega)]
  have hne : sqrt s.variance ≠ 0 := by
    rw [← hstd]
    exact hsd
  have hpos : 0 < sqrt s.variance * sqrt s.variance := mul_self_pos.2 hne
  have hd := last_dev_sq_le s h1 h2 hn
  have hn1 : (0 : ℚ) ≤ (s.samples_.length : ℚ) - 1 := by
    have := length_pos_cast s hn
    have h2le : (2 : ℚ) ≤ (s.samples_.length : ℚ) := by exact_mod_cast hn
    linarith
  unfold SpikeDetector.zScore
  rw [hstd, div_mul_div_comm, div_le_iff₀ hpos]
  exact le_trans hd (mul_le_mul_of_nonneg_left hle hn1)

theorem zScore_sq_eq (sqrt : ℚ → ℚ) (s : SpikeDetector) (h1 : s.sum_ = s.samples_.sum)
    (h2 : s.sum_sq_ = (s.samples_.map (fun x => x * x)).sum) (hn : 2 ≤ s.samples_.length)
    (hsd : s.calculateStdDev sqrt ≠ 0)
    (hsq : sqrt s.variance * sqrt s.variance = s.variance)
    (heq : ∀ x ∈ s.samples_.dropLast, ∀ y ∈ s.samples_.dropLast, x = y) :
    s.zScore sqrt * s.zScore sqrt = (s.samples_.length : ℚ) - 1 := by
  obtain ⟨hv, hz⟩ := zScore_sq sqrt s h1 h2 hn hsd hsq
  rw [hz, div_eq_iff (ne_of_gt hv)]
  exact last_dev_sq_eq s h1 h2 hn heq

theorem isSpike_false_of_few (sqrt : ℚ → ℚ) (s : SpikeDetector) (h1 : s.sum_ = s.samples_.sum)
    (h2 : s.sum_sq_ = (s.samples_.map (fun x => x * x)).sum) (hn : 2 ≤ s.samples_.length)
    (hsd : s.calculateStdDev sqrt ≠ 0)
    (hle : s.variance ≤ sqrt s.variance * sqrt s.variance)
    (hsigma : s.threshold_sigma_ = 3) (hfew : s.samples_.length ≤ 10) :
    s.isSpike sqrt = false := by
  cases hsp : s.isSpike sqrt with
  | false => rfl
  | true =>
    exfalso
    obtain ⟨_, _, hz⟩ := (isSpike_true_iff sqrt s).1 hsp
    rw [hsigma] at hz
    have hle2 := zScore_sq_le sqrt s h1 h2 hn hsd hle
    unfold SpikeDetector.zScore at hle2
    have hcast : (s.samples_.length : ℚ) ≤ 10 := by exact_mod_cast hfew
    nlinarith

theorem spikeTest_samples : spikeTest.samples_ = List.replicate 50 5 ++ [25] := by
  unfold spikeTest
  rw [addAll_samples]
  rfl

theorem spikeTest_sums : spikeTest.sum_ = 275 ∧ spikeTest.sum_sq_ = 1875 := by
  have h := addAll_sums (SpikeDetector.create 60 3) (List.replicate 50 5 ++ [25])
    (by simp [SpikeDetector.create]) (by simp [SpikeDetector.create])
  have hs := spikeTest_samples
  unfold spikeTest at hs
  unfold spikeTest
  rw [h.1, h.2, hs]
  constructor
  · simp
    norm_num
  · simp
    norm_num

theorem spikeTest_z_sq :
    spikeTest.samples_.length = 51 ∧
      (spikeTest.samples_.getLastD 0 - spikeTest.calculateMean) *
          (spikeTest.samples_.getLastD 0 - spikeTest.calculateMean) =
        50 * spikeTest.variance := by
  have hlast : (List.replicate 50 (5 : ℚ) ++ [25]).getLastD 0 = 25 := by
    simp [List.getLastD]
  unfold SpikeDetector.variance SpikeDetector.calculateMean
  rw [spikeTest_sums.1, spikeTest_sums.2, spikeTest_samples, hlast]
  constructor
  · simp
  · simp
    norm_num

theorem spikeExample_variance (sigma : ℚ) : (spikeExample sigma).variance = 36 := by
  unfold SpikeDetector.variance
  rw [spikeExample_mean, spikeExample_sum_sq, spikeExample_samples]
  simp
  norm_num

theorem spikeExample_eq_callAll (sigma : ℚ) :
    spikeExample sigma = (SpikeDetector.create 60 sigma).callAll
      (List.map SpikeCall.addSample (List.replicate 36 0 ++ [37])) :=
  addAll_eq_callAll _ _

theorem spikeTest_eq_callAll :
    spikeTest = (SpikeDetector.create 60 3).callAll
      (List.map SpikeCall.addSample (List.replicate 50 5 ++ [25])) :=
  addAll_eq_callAll _ _

theorem spikeTest_variance : spikeTest.variance = 20000 / 2601 := by
  unfold SpikeDetector.variance SpikeDetector.calculateMean
  rw [spikeTest_sums.1, spikeTest_sums.2, spikeTest_samples]
  simp
  norm_num

theorem spikeTest_stddev : spikeTest.calculateStdDev sqrtTest = 2773 / 1000 := by
  have hsum : spikeTest.sum_ = spikeTest.samples_.sum ∧
      spikeTest.sum_sq_ = (spikeTest.samples_.map (fun x => x * x)).sum := by
    rw [spikeTest_eq_callAll]
    exact callAll_sums _ _ (create_sums 60 3).1 (create_sums 60 3).2
  rw [calculateStdDev_of_sums sqrtTest _ hsum.1 hsum.2, spikeTest_variance,
    if_neg (by rw [spikeTest_samples]; simp)]
  unfold sqrtTest
  rw [if_pos rfl]

/-! ## Claim C39 -/

/-- Counterexample for C39 as stated, in the binary64 arithmetic of the program: with
the default threshold `3.0`, after nine samples `0.0` and one sample `0.3` the z-score
is `6755399441055745 * 2^-51 = 3.0000000000000004 > 3`, so `isSpike()` is true while
only 10 samples are held. -/
theorem zscore_bound_counterexample :
    boundary64.samples_.length = 10 ∧ boundary64.threshold_sigma_ = F64.ofNat 3 ∧
      F64.ofNat 3 = ⟨6755399441055744, -51⟩ ∧
      boundary64.zScore = ⟨6755399441055745, -51⟩ ∧ boundary64.isSpike = true := by
  decide!

/-- C39 (amended): over exact arithmetic, for every `SpikeDetector` state reached from
construction by `addSample` and `reset` calls that holds `n ≥ 2` samples,
`(latest - mean)² ≤ (n - 1) * variance`, with equality when the other `n - 1` samples
are all equal; for Test 2 of `runTests` (50 samples `5.0`, then `25.0`)
`(latest - mean)² = 50 * variance`, that is `z² = 50`. Hence, when the standard
deviation is non-zero and the square root is not below the exact root, the z-score of
the latest sample satisfies `z * z ≤ n - 1` (with equality for an exact root when the
others are all equal), and `isSpike` is false when the threshold is `3` and at most 10
samples are held. -/
theorem zscore_bounded_by_sample_count (sqrt : ℚ → ℚ) (w : Nat) (sigma : ℚ)
    (calls : List SpikeCall) (s : SpikeDetector)
    (hs : s = (SpikeDetector.create w sigma).callAll calls)
    (hn : 2 ≤ s.samples_.length) (hsd : s.calculateStdDev sqrt ≠ 0)
    (hle : s.variance ≤ sqrt s.variance * sqrt s.variance) :
    (s.samples_.getLastD 0 - s.calculateMean) * (s.samples_.getLastD 0 - s.calculateMean) ≤
        ((s.samples_.length : ℚ) - 1) * s.variance ∧
      ((∀ x ∈ s.samples_.dropLast, ∀ y ∈ s.samples_.dropLast, x = y) →
        (s.samples_.getLastD 0 - s.calculateMean) *
            (s.samples_.getLastD 0 - s.calculateMean) =
          ((s.samples_.length : ℚ) - 1) * s.variance) ∧
      s.zScore sqrt * s.zScore sqrt ≤ (s.samples_.length : ℚ) - 1 ∧
      ((∀ x ∈ s.samples_.dropLast, ∀ y ∈ s.samples_.dropLast, x = y) →
        sqrt s.variance * sqrt s.variance = s.variance →
        s.zScore sqrt * s.zScore sqrt = (s.samples_.length : ℚ) - 1) ∧
      (s.threshold_sigma_ = 3 → s.samples_.length ≤ 10 → s.isSpike sqrt = false) ∧
      (spikeTest.samples_.length = 51 ∧
        (spikeTest.samples_.getLastD 0 - spikeTest.calculateMean) *
            (spikeTest.samples_.getLastD 0 - spikeTest.calculateMean) =
          50 * spikeTest.variance) := by
  have hsum := callAll_sums (SpikeDetector.create w sigma) calls
    (create_sums w sigma).1 (create_sums w sigma).2
  rw [← hs] at hsum
  obtain ⟨h1, h2⟩ := hsum
  exact ⟨last_dev_sq_le s h1 h2 hn, fun heq => last_dev_sq_eq s h1 h2 hn heq,
    zScore_sq_le sqrt s h1 h2 hn hsd hle,
    fun heq hsq => zScore_sq_eq sqrt s h1 h2 hn hsd hsq heq,
    fun hsigma hfew => isSpike_false_of_few sqrt s h1 h2 hn hsd hle hsigma hfew,
    spikeTest_z_sq⟩

/-- Witness for C39 (amended): the state of Test 2 of `runTests` (50 samples `5`, then
`25`; variance `20000/2601`), with the stand-in `sqrtTest`, whose value `2.773` there
is not below the exact root; here `z * z ≤ 50`. -/
theorem zscore_bounded_by_sample_count_witness :
    spikeTest = (SpikeDetector.create 60 3).callAll
        (List.map SpikeCall.addSample (List.replicate 50 5 ++ [25])) ∧
      2 ≤ spikeTest.samples_.length ∧
      spikeTest.calculateStdDev sqrtTest ≠ 0 ∧
      spikeTest.variance ≤ sqrtTest spikeTest.variance * sqrtTest spikeTest.variance ∧
      spikeTest.zScore sqrtTest * spikeTest.zScore sqrtTest ≤
        (spikeTest.samples_.length : ℚ) - 1 :=
  ⟨spikeTest_eq_callAll,
    by rw [spikeTest_samples]; simp,
    by rw [spikeTest_stddev]; norm_num,
    by rw [spikeTest_variance]; norm_num [sqrtTest],
    (zscore_bounded_by_sample_count sqrtTest 60 3
      (List.map SpikeCall.addSample (List.replicate 50 5 ++ [25])) spikeTest
      spikeTest_eq_callAll
      (by rw [spikeTest_samples]; simp)
      (by rw [spikeTest_stddev]; norm_num)
      (by rw [spikeTest_variance]; norm_num [sqrtTest])).2.2.1⟩

/-! ## Lemmas: the keyword scan of `evaluate` -/

theorem ScoreMap.findD_assign (m : ScoreMap) (k c : Str) (v : ℚ) :
    (m.assign k v).findD c = if k = c then v else m.findD c := by
  induction m with
  | nil => simp [ScoreMap.assign, ScoreMap.findD]
  | cons p rest ih =>
    obtain ⟨k0, v0⟩ := p
    unfold ScoreMap.assign
    by_cases h0 : k0 = k
    · rw [if_pos h0]
      subst h0
      by_cases hc : k0 = c
      · simp [ScoreMap.findD, hc]
      · simp [ScoreMap.findD, hc]
    · rw [if_neg h0]
      by_cases hc : k0 = c
      · have hkc : ¬ k = c := fun h => h0 (hc.trans h.symm)
        simp [ScoreMap.findD, hc, hkc]
      · simp only [ScoreMap.findD, if_neg hc]
        exact ih

theorem ScoreMap.mem_keys_assign (m : ScoreMap) (k c : Str) (v : ℚ) :
    c ∈ (m.assign k v).map Prod.fst ↔ c = k ∨ c ∈ m.map Prod.fst := by
  induction m with
  | nil => simp [ScoreMap.assign]
  | cons p rest ih =>
    obtain ⟨k0, v0⟩ := p
    unfold ScoreMap.assign
    by_cases h0 : k0 = k
    · rw [if_pos h0]
      subst h0
      simp only [List.map_cons, List.mem_cons]
      tauto
    · rw [if_neg h0]
      simp only [List.map_cons, List.mem_cons, ih]
      tauto

theorem StrMap.find_eq_none_iff (m : StrMap) (c : Str) :
    m.find c = none ↔ c ∉ m.map Prod.fst := by
  induction m with
  | nil => simp [StrMap.find]
  | cons p rest ih =>
    obtain ⟨k0, v0⟩ := p
    unfold StrMap.find
    by_cases h0 : k0 = c
    · rw [if_pos h0]
      simp [h0]
    · rw [if_neg h0, ih]
      simp only [List.map_cons, List.mem_cons, not_or]
      constructor
      · intro h
        exact ⟨fun hc => h0 hc.symm, h⟩
      · intro h
        exact h.2

theorem getCategoryScore_nonneg (self : KeywordMatcher) (message c : Str) :
    0 ≤ self.getCategoryScore message c := by
  unfold KeywordMatcher.getCategoryScore
  simp only []
  split
  · exact calculateSimilarity_nonneg _ _
  · exact le_refl _

theorem foldl_scanMatch_findD (matcher : KeywordMatcher) (content : Str) (entries : StrMap)
    (st : ScoreMap × List Str) (c : Str) :
    (entries.foldl (ClipDetector.scanMatch matcher content) st).1.findD c =
      if c ∈ entries.map Prod.fst then
        max (st.1.findD c) (matcher.getCategoryScore content c)
      else st.1.findD c := by
  induction entries generalizing st with
  | nil => simp
  | cons e rest ih =>
    rw [List.foldl_cons, ih]
    simp only [ClipDetector.scanMatch, ScoreMap.findD_assign, List.map_cons, List.mem_cons]
    by_cases h1 : e.1 = c
    · subst h1
      simp only [if_true, true_or]
      split
      · rw [max_assoc, max_self]
      · rfl
    · have h2 : ¬ c = e.1 := fun h => h1 h.symm
      simp only [if_neg h1, h2, false_or]

theorem foldl_scanMatch_keys (matcher : KeywordMatcher) (content : Str) (entries : StrMap)
    (st : ScoreMap × List Str) (c : Str) :
    c ∈ (entries.foldl (ClipDetector.scanMatch matcher content) st).1.map Prod.fst ↔
      c ∈ entries.map Prod.fst ∨ c ∈ st.1.map Prod.fst := by
  induction entries generalizing st with
  | nil => simp
  | cons e rest ih =>
    rw [List.foldl_cons, ih]
    simp only [ClipDetector.scanMatch, ScoreMap.mem_keys_assign, List.map_cons, List.mem_cons]
    tauto

theorem foldl_scanMatch_keywords (matcher : KeywordMatcher) (content : Str) (entries : StrMap)
    (st : ScoreMap × List Str) :
    (entries.foldl (ClipDetector.scanMatch matcher content) st).2 =
      st.2 ++ entries.map Prod.snd := by
  induction entries generalizing st with
  | nil => simp
  | cons e rest ih =>
    rw [List.foldl_cons, ih]
    simp [ClipDetector.scanMatch]

theorem scanMessageIn_findD (iter : StrMap → StrMap) (hiter : ∀ m : StrMap, (iter m).Perm m)
    (matcher : KeywordMatcher) (st : ScoreMap × List Str)
    (m : ChatMessage) (c : Str) (hnn : 0 ≤ st.1.findD c) :
    (ClipDetector.scanMessageIn iter matcher st m).1.findD c =
      max (st.1.findD c) (matcher.getCategoryScore m.content c) := by
  unfold ClipDetector.scanMessageIn
  rw [foldl_scanMatch_findD]
  split
  · rfl
  · rename_i hnot
    have hnot2 : c ∉ (matcher.match_ m.content).map Prod.fst := by
      intro hc
      exact hnot (((hiter _).map Prod.fst).mem_iff.2 hc)
    have hnone := (StrMap.find_eq_none_iff _ c).2 hnot2
    rw [getCategoryScore_of_none _ _ _ hnone, max_eq_left hnn]

theorem foldl_scanMessageIn_findD (iter : StrMap → StrMap)
    (hiter : ∀ m : StrMap, (iter m).Perm m) (matcher : KeywordMatcher)
    (msgs : List ChatMessage) (st : ScoreMap × List Str) (c : Str) (hnn : 0 ≤ st.1.findD c) :
    (msgs.foldl (ClipDetector.scanMessageIn iter matcher) st).1.findD c =
      (msgs.map (fun m => matcher.getCategoryScore m.content c)).foldl max (st.1.findD c) := by
  induction msgs generalizing st with
  | nil => rfl
  | cons m rest ih =>
    rw [List.foldl_cons, List.map_cons, List.foldl_cons,
      ih _ (by rw [scanMessageIn_findD iter hiter matcher st m c hnn]
               exact le_max_of_le_left hnn),
      scanMessageIn_findD iter hiter matcher st m c hnn]

theorem foldl_scanMessageIn_keys (iter : StrMap → StrMap)
    (hiter : ∀ m : StrMap, (iter m).Perm m) (matcher : KeywordMatcher)
    (msgs : List ChatMessage) (st : ScoreMap × List Str) (c : Str) :
    c ∈ (msgs.foldl (ClipDetector.scanMessageIn iter matcher) st).1.map Prod.fst ↔
      (∃ m ∈ msgs, (matcher.match_ m.content).find c ≠ none) ∨ c ∈ st.1.map Prod.fst := by
  induction msgs generalizing st with
  | nil => simp
  | cons m rest ih =>
    rw [List.foldl_cons, ih]
    unfold ClipDetector.scanMessageIn
    rw [foldl_scanMatch_keys]
    have hk : c ∈ (iter (matcher.match_ m.content)).map Prod.fst ↔
        (matcher.match_ m.content).find c ≠ none := by
      rw [((hiter _).map Prod.fst).mem_iff, Ne, StrMap.find_eq_none_iff, not_not]
    rw [hk]
    constructor
    · rintro (h | h | h)
      · obtain ⟨m1, hm1, hc⟩ := h
        exact Or.inl ⟨m1, List.mem_cons_of_mem _ hm1, hc⟩
      · exact Or.inl ⟨m, List.mem_cons_self _ _, h⟩
      · exact Or.inr h
    · rintro (⟨m1, hm1, hc⟩ | h)
      · rcases List.mem_cons.1 hm1 with rfl | hm1
        · exact Or.inr (Or.inl hc)
        · exact Or.inl ⟨m1, hm1, hc⟩
      · exact Or.inr (Or.inr h)

theorem foldl_scanMessageIn_keywords (iter : StrMap → StrMap) (matcher : KeywordMatcher)
    (msgs : List ChatMessage) (st : ScoreMap × List Str) :
    (msgs.foldl (ClipDetector.scanMessageIn iter matcher) st).2 =
      st.2 ++ (msgs.map (fun m => (iter (matcher.match_ m.content)).map Prod.snd)).flatten := by
  induction msgs generalizing st with
  | nil => simp
  | cons m rest ih =>
    rw [List.foldl_cons, ih]
    unfold ClipDetector.scanMessageIn
    rw [foldl_scanMatch_keywords]
    simp

theorem evaluateIn_id (sqrt : ℚ → ℚ) (s : ClipDetector) (clk : EvalClock) :
    ClipDetector.evaluateIn id sqrt s clk = s.evaluate sqrt clk := rfl

theorem match_twoCategory :
    twoCategoryMatcher.match_ (ascii "W") = [(ascii "a", ascii "W"), (ascii "b", ascii "w")] := by
  have hnm : normalize (ascii "W") = [119] := by decide
  simp only [twoCategoryMatcher, KeywordMatcher.match_, List.foldl_cons, List.foldl_nil,
    matchCategory_eq, bestKeyword, hnm]
  rw [matchStep_take [119] (ascii "W") _ (by decide) (by decide) (by norm_num) (by decide),
    matchStep_take [119] (ascii "w") _ (by decide) (by decide) (by norm_num) (by decide)]
  rw [if_neg (by decide), if_neg (by decide)]
  rfl

theorem twoCategoryState_recent :
    twoCategoryState.recentMessages (ProcessClock.atInstant 1000).eval = [wMessage 1000] := by
  unfold ClipDetector.recentMessages ChatBuffer.getWindowSeconds
  rw [getWindow_eq_filter]
  rfl

theorem twoCategoryState_scan :
    (twoCategoryState.scanWindowIn List.reverse (ProcessClock.atInstant 1000).eval).2 =
        [ascii "w", ascii "W"] ∧
      (twoCategoryState.scanWindowIn id (ProcessClock.atInstant 1000).eval).2 =
        [ascii "W", ascii "w"] := by
  have hr := twoCategoryState_recent
  unfold ClipDetector.recentMessages at hr
  have hm : twoCategoryState.keyword_matcher_ = twoCategoryMatcher := rfl
  constructor
  · unfold ClipDetector.scanWindowIn
    rw [foldl_scanMessageIn_keywords, hr, hm]
    simp only [List.map_cons, List.map_nil, List.flatten_cons, List.flatten_nil,
      List.append_nil, List.nil_append]
    show (List.reverse (twoCategoryMatcher.match_ (ascii "W"))).map Prod.snd = _
    rw [match_twoCategory]
    rfl
  · unfold ClipDetector.scanWindowIn
    rw [foldl_scanMessageIn_keywords, hr, hm]
    simp only [List.map_cons, List.map_nil, List.flatten_cons, List.flatten_nil,
      List.append_nil, List.nil_append]
    show (id (twoCategoryMatcher.match_ (ascii "W"))).map Prod.snd = _
    rw [match_twoCategory]
    rfl

/-! ## Claim C34 -/

/-- C34: an `evaluate` call not suppressed by cooldown scores
`calculateScore(intensity, keyword_scores)` and passes `matched_keywords` to the event,
where, over the messages `m` of `getWindow(30 s)` and for every order `iter` in which
the range-for may visit the entries of the unordered map returned by `match`: for
every category `c` the value `keyword_scores[c]` is the maximum of
`getCategoryScore(m.content, c)` (a fold of `max` from `0`), `c` is a key exactly when
some message matches `c`, and `matched_keywords` is the concatenation in buffer order,
message by message, of the keywords of `match(m.content)` (within one message in the
order of the visit), so that its length is the total number of (message, category)
matches. -/
theorem keyword_scan_characterisation (iter : StrMap → StrMap)
    (hiter : ∀ m : StrMap, (iter m).Perm m) (sqrt : ℚ → ℚ) (s : ClipDetector)
    (clk : EvalClock) :
    (ClipDetector.evaluateIn iter sqrt s clk =
      if s.checkCooldown clk.cooldown then (s, none)
      else if s.scoring_engine_.shouldTriggerClip
          (s.scoring_engine_.calculateScore (s.spike_detector_.getSpikeIntensity sqrt)
            (s.scanWindowIn iter clk).1 1) then
        ({ s with last_clip_time_ := clk.emit, in_cooldown_ := true },
          some (s.createClipEvent clk.emit
            (s.scoring_engine_.calculateScore (s.spike_detector_.getSpikeIntensity sqrt)
              (s.scanWindowIn iter clk).1 1) (s.scanWindowIn iter clk).2))
      else (s, none)) ∧
      (∀ c, (s.scanWindowIn iter clk).1.findD c =
        ((s.recentMessages clk).map
          (fun m => s.keyword_matcher_.getCategoryScore m.content c)).foldl max 0) ∧
      (∀ c, c ∈ (s.scanWindowIn iter clk).1.map Prod.fst ↔
        ∃ m ∈ s.recentMessages clk, (s.keyword_matcher_.match_ m.content).find c ≠ none) ∧
      (s.scanWindowIn iter clk).2 =
        ((s.recentMessages clk).map
          (fun m => (iter (s.keyword_matcher_.match_ m.content)).map Prod.snd)).flatten ∧
      (∀ m : ChatMessage, ((iter (s.keyword_matcher_.match_ m.content)).map Prod.snd).Perm
        ((s.keyword_matcher_.match_ m.content).map Prod.snd)) ∧
      (s.scanWindowIn iter clk).2.length =
        ((s.recentMessages clk).map
          (fun m => (s.keyword_matcher_.match_ m.content).length)).sum := by
  have hkw : (s.scanWindowIn iter clk).2 =
      ((s.recentMessages clk).map
        (fun m => (iter (s.keyword_matcher_.match_ m.content)).map Prod.snd)).flatten := by
    unfold ClipDetector.scanWindowIn ClipDetector.recentMessages
    rw [foldl_scanMessageIn_keywords]
    rfl
  refine ⟨rfl, ?_, ?_, hkw, fun m => (hiter _).map Prod.snd, ?_⟩
  · intro c
    unfold ClipDetector.scanWindowIn ClipDetector.recentMessages
    rw [foldl_scanMessageIn_findD iter hiter s.keyword_matcher_ _ ([], []) c (le_refl _)]
    rfl
  · intro c
    unfold ClipDetector.scanWindowIn ClipDetector.recentMessages
    rw [foldl_scanMessageIn_keys iter hiter]
    simp
  · rw [hkw, List.length_flatten, List.map_map]
    congr 1
    apply List.map_congr_left
    intro m _
    simp only [Function.comp, List.length_map]
    exact (hiter _).length_eq

/-- Witness for C34: the order that visits the entries last-inserted first, on a state
whose window holds one message "W" matching the two categories of
`twoCategoryMatcher`; the keywords are "w", "W" (and "W", "w" in insertion order). -/
theorem keyword_scan_characterisation_witness :
    (∀ m : StrMap, (List.reverse m).Perm m) ∧
      (twoCategoryState.scanWindowIn List.reverse (ProcessClock.atInstant 1000).eval).2 =
        [ascii "w", ascii "W"] ∧
      (twoCategoryState.scanWindowIn id (ProcessClock.atInstant 1000).eval).2 =
        [ascii "W", ascii "w"] ∧
      (twoCategoryState.scanWindowIn List.reverse (ProcessClock.atInstant 1000).eval).2.length =
        ((twoCategoryState.recentMessages (ProcessClock.atInstant 1000).eval).map
          (fun m => (twoCategoryState.keyword_matcher_.match_ m.content).length)).sum :=
  ⟨fun m => List.reverse_perm m, twoCategoryState_scan.1, twoCategoryState_scan.2,
    (keyword_scan_characterisation List.reverse (fun m => List.reverse_perm m) Rat.sqrt
      twoCategoryState (ProcessClock.atInstant 1000).eval).2.2.2.2.2⟩


/-! ## Lemmas: the line reader -/

theorem extractUntil_append_delim (d : Nat) (pre tail : Str) (h : d ∉ pre) :
    extractUntil d (pre ++ d :: tail) = (pre, some tail) := by
  induction pre with
  | nil => simp [extractUntil]
  | cons c rest ih =>
    have hc : c ≠ d := fun e => h (by rw [e]; exact List.mem_cons_self _ _)
    have hr : d ∉ rest := fun e => h (List.mem_cons_of_mem _ e)
    show extractUntil d (c :: (rest ++ d :: tail)) = (c :: rest, some tail)
    rw [extractUntil, if_neg hc, ih hr]

theorem extractUntil_not_mem (d : Nat) (l : Str) (h : d ∉ l) : extractUntil d l = (l, none) := by
  induction l with
  | nil => rfl
  | cons c rest ih =>
    have hc : c ≠ d := fun e => h (by rw [e]; exact List.mem_cons_self _ _)
    have hr : d ∉ rest := fun e => h (List.mem_cons_of_mem _ e)
    simp only [extractUntil, if_neg hc, ih hr]

theorem extractUntil_cases (d : Nat) (l : Str) :
    (d ∉ l ∧ extractUntil d l = (l, none)) ∨
      ∃ pre tail, l = pre ++ d :: tail ∧ d ∉ pre ∧ extractUntil d l = (pre, some tail) := by
  by_cases h : d ∈ l
  · right
    obtain ⟨pre, tail, hl, hpre⟩ := List.eq_append_cons_of_mem h
    exact ⟨pre, tail, hl, hpre, by rw [hl]; exact extractUntil_append_delim d pre tail hpre⟩
  · left
    exact ⟨h, extractUntil_not_mem d l h⟩

theorem getline_delim (d : Nat) (pre tail str : Str) (h : d ∉ pre) :
    getline { rest := pre ++ d :: tail, eofbit := false, failbit := false } str d =
      ({ rest := tail, eofbit := false, failbit := false }, pre) := by
  unfold getline
  simp only [IStream.good, Bool.not_false, Bool.and_self, Bool.not_true, Bool.false_eq_true,
    if_false, extractUntil_append_delim d pre tail h]

theorem getline_eof (d : Nat) (l str : Str) (h : d ∉ l) :
    getline { rest := l, eofbit := false, failbit := false } str d =
      ({ rest := [], eofbit := true, failbit := l.isEmpty }, l) := by
  unfold getline
  simp only [IStream.good, Bool.not_false, Bool.and_self, Bool.not_true, Bool.false_eq_true,
    if_false, extractUntil_not_mem d l h]

theorem getline_not_good (stream : IStream) (str : Str) (d : Nat) (h : stream.eofbit = true) :
    (getline stream str d).1.failbit = true := by
  unfold getline
  simp [IStream.good, h]

theorem parseLine_fields (f1 f2 f3 : Str) (h1 : 124 ∉ f1) (h2 : 124 ∉ f2) (h3 : 10 ∉ f3) :
    parseLine (f1 ++ 124 :: (f2 ++ 124 :: f3)) =
      if f3 = [] then none
      else (stoll f1).map (fun ts => { timestamp := ts, username := f2, content := f3 }) := by
  unfold parseLine
  simp only [getline_delim 124 f1 _ _ h1, getline_delim 124 f2 _ _ h2, getline_eof 10 f3 _ h3,
    Bool.false_eq_true, if_false]
  cases f3 with
  | nil => simp
  | cons c r =>
    simp only [List.isEmpty_cons, Bool.false_eq_true, if_false]
    cases stoll f1 <;> simp

theorem parseLine_no_second_delim (f1 f2 : Str) (h1 : 124 ∉ f1) (h2 : 124 ∉ f2) :
    parseLine (f1 ++ 124 :: f2) = none := by
  unfold parseLine
  simp only [getline_delim 124 f1 _ _ h1, getline_eof 124 f2 _ h2, Bool.false_eq_true, if_false]
  split
  · rfl
  · rw [if_pos (getline_not_good _ _ _ rfl)]

theorem parseLine_no_delim (f1 : Str) (h1 : 124 ∉ f1) : parseLine f1 = none := by
  unfold parseLine
  simp only [getline_eof 124 f1 _ h1]
  split
  · rfl
  · rw [if_pos (getline_not_good _ _ _ rfl)]

theorem parseLine_eq_some_iff (line : Str) (h10 : 10 ∉ line) (msg : ChatMessage) :
    parseLine line = some msg ↔
      ∃ f1 f2 f3 ts, line = f1 ++ 124 :: (f2 ++ 124 :: f3) ∧ 124 ∉ f1 ∧ 124 ∉ f2 ∧ f3 ≠ [] ∧
        stoll f1 = some ts ∧ msg = { timestamp := ts, username := f2, content := f3 } := by
  constructor
  · intro h
    rcases extractUntil_cases 124 line with ⟨hno, _⟩ | ⟨f1, t1, hl, hf1, _⟩
    · rw [parseLine_no_delim line hno] at h
      exact absurd h (by simp)
    · rcases extractUntil_cases 124 t1 with ⟨hno, _⟩ | ⟨f2, f3, hl2, hf2, _⟩
      · rw [hl, parseLine_no_second_delim f1 t1 hf1 hno] at h
        exact absurd h (by simp)
      · have h3 : 10 ∉ f3 := by
          intro hm
          apply h10
          rw [hl, hl2]
          simp [hm]
        rw [hl, hl2, parseLine_fields f1 f2 f3 hf1 hf2 h3] at h
        by_cases he : f3 = []
        · rw [if_pos he] at h
          exact absurd h (by simp)
        · rw [if_neg he] at h
          cases hs : stoll f1 with
          | none =>
            rw [hs] at h
            exact absurd h (by simp)
          | some ts =>
            rw [hs] at h
            exact ⟨f1, f2, f3, ts, by rw [hl, hl2], hf1, hf2, he, hs,
              (Option.some.inj h).symm⟩
  · rintro ⟨f1, f2, f3, ts, hl, hf1, hf2, he, hs, hm⟩
    have h3 : 10 ∉ f3 := by
      intro hmem
      apply h10
      rw [hl]
      simp [hmem]
    rw [hl, parseLine_fields f1 f2 f3 hf1 hf2 h3, if_neg he, hs, hm]
    rfl

theorem processStream_one_line (line : Str) (h10 : 10 ∉ line) :
    processStream (line ++ [10]) = (parseLine line).toList := by
  unfold processStream
  rw [List.length_append, List.length_singleton]
  simp only [processStreamLoop, getline_delim 10 line [] [] h10, Bool.false_eq_true, if_false,
    getline_eof 10 [] line (List.not_mem_nil _), List.isEmpty_nil, if_true]
  cases parseLine line <;> rfl

theorem processStreamLoop_not_good (fuel : Nat) (input : IStream) (line : Str)
    (h : input.good = false) : processStreamLoop fuel input line = [] := by
  cases fuel with
  | zero => rfl
  | succ k =>
    unfold processStreamLoop
    have hf : (getline input line 10).1.failbit = true := by
      unfold getline
      simp [h]
    simp only [hf, if_true]

theorem processStreamLoop_fuel (n : Nat) :
    ∀ (rest line : Str) (fuel : Nat), rest.length ≤ n → rest.length + 1 ≤ fuel →
      processStreamLoop fuel { rest := rest, eofbit := false, failbit := false } line =
        processStreamLoop (rest.length + 1) { rest := rest, eofbit := false, failbit := false }
          line := by
  induction n with
  | zero =>
    intro rest line fuel hlen hfuel
    have hnil : rest = [] := List.eq_nil_of_length_eq_zero (by omega)
    subst hnil
    obtain ⟨k, rfl⟩ : ∃ k, fuel = k + 1 := ⟨fuel - 1, by omega⟩
    simp only [processStreamLoop, getline_eof 10 [] line (List.not_mem_nil _), List.isEmpty_nil,
      if_true, List.length_nil]
  | succ n ih =>
    intro rest line fuel hlen hfuel
    obtain ⟨k, rfl⟩ : ∃ k, fuel = k + 1 := ⟨fuel - 1, by omega⟩
    rcases extractUntil_cases 10 rest with ⟨hno, _⟩ | ⟨pre, tail, hl, hpre, _⟩
    · simp only [processStreamLoop, getline_eof 10 rest line hno]
      have hng : IStream.good { rest := [], eofbit := true, failbit := rest.isEmpty } = false := by
        simp [IStream.good]
      simp only [processStreamLoop_not_good _ _ _ hng]
    · subst hl
      have htl : tail.length ≤ n := by
        simp only [List.length_append, List.length_cons] at hlen
        omega
      have hk : tail.length + 1 ≤ k := by
        simp only [List.length_append, List.length_cons] at hfuel
        omega
      have hk2 : tail.length + 1 ≤ (pre ++ 10 :: tail).length := by
        simp only [List.length_append, List.length_cons]
        omega
      simp only [processStreamLoop, getline_delim 10 pre tail line hpre, Bool.false_eq_true,
        if_false]
      rw [ih tail pre k htl hk, ih tail pre (pre ++ 10 :: tail).length htl hk2]

theorem processStream_fuel (input : Str) (extra : Nat) :
    processStreamLoop (input.length + 1 + extra)
        { rest := input, eofbit := false, failbit := false } [] =
      processStream input :=
  processStreamLoop_fuel input.length input [] _ (le_refl _) (by omega)

/-! ## Lemmas: `stoll` on a signed decimal integer -/

theorem decimalRef_digits (n : Nat) : ∀ c ∈ decimalRef n, isdigit c = true := by
  intro c hc
  unfold decimalRef at hc
  split at hc
  · simp only [List.mem_singleton] at hc
    rw [hc]
    rfl
  · obtain ⟨d, hd, rfl⟩ := List.mem_map.1 hc
    have hlt : d < 10 := Nat.digits_lt_base (by norm_num) (List.mem_reverse.1 hd)
    simp only [isdigit, Bool.and_eq_true, decide_eq_true_eq]
    omega

theorem decimalRef_ne_nil (n : Nat) : decimalRef n ≠ [] := by
  unfold decimalRef
  split
  · simp
  · rename_i hn
    simp only [ne_eq, List.map_eq_nil_iff, List.reverse_eq_nil_iff]
    exact fun h => hn (Nat.digits_eq_nil_iff_eq_zero.1 h)

theorem foldl_digits (l : List Nat) :
    (l.reverse.map (fun d => d + 48)).foldl (fun acc d => acc * 10 + (d - 48)) 0 =
      Nat.ofDigits 10 l := by
  induction l with
  | nil => rfl
  | cons d rest ih =>
    rw [List.reverse_cons, List.map_append, List.foldl_append, ih, Nat.ofDigits_cons]
    simp only [List.map_cons, List.map_nil, List.foldl_cons, List.foldl_nil]
    omega

theorem decimalRef_value (n : Nat) :
    (decimalRef n).foldl (fun acc d => acc * 10 + (d - 48)) 0 = n := by
  unfold decimalRef
  split
  · rename_i hn
    rw [hn]
    rfl
  · rw [foldl_digits, Nat.ofDigits_digits]

theorem decimalRef_head (n : Nat) : ∃ c t, decimalRef n = c :: t ∧ isdigit c = true := by
  cases hl : decimalRef n with
  | nil => exact absurd hl (decimalRef_ne_nil n)
  | cons c t => exact ⟨c, t, rfl, decimalRef_digits n c (by rw [hl]; exact List.mem_cons_self _ _)⟩

theorem takeWhile_decimalRef (n : Nat) : (decimalRef n).takeWhile isdigit = decimalRef n :=
  List.takeWhile_eq_self_iff.2 (decimalRef_digits n)

theorem isdigit_facts (c : Nat) (h : isdigit c = true) :
    isspace c = false ∧ c ≠ 45 ∧ c ≠ 43 := by
  simp only [isdigit, Bool.and_eq_true, decide_eq_true_eq] at h
  refine ⟨?_, by omega, by omega⟩
  simp only [isspace, Bool.or_eq_false_iff, decide_eq_false_iff_not, Bool.and_eq_false_imp,
    decide_eq_true_eq]
  omega

theorem stoll_decimalRef (n : Nat) :
    stollDigits (decimalRef n) = decimalRef n ∧ stollValue (decimalRef n) = (n : Int) := by
  obtain ⟨c, t, hl, hc⟩ := decimalRef_head n
  obtain ⟨hs, h45, h43⟩ := isdigit_facts c hc
  have hbody : stollBody (decimalRef n) = decimalRef n := by
    unfold stollBody
    rw [hl, List.dropWhile_cons, hs]
    rfl
  have hhead : (decimalRef n).head? = some c := by rw [hl]; rfl
  have hd : stollDigits (decimalRef n) = decimalRef n := by
    unfold stollDigits
    simp only [hbody, hhead, Option.some.injEq, h45, h43, or_self, if_false]
    exact takeWhile_decimalRef n
  refine ⟨hd, ?_⟩
  unfold stollValue
  simp only [hd, hbody, hhead, Option.some.injEq, h45, if_false, decimalRef_value]

theorem stoll_neg_decimalRef (n : Nat) :
    stollDigits (45 :: decimalRef n) = decimalRef n ∧
      stollValue (45 :: decimalRef n) = -(n : Int) := by
  have hbody : stollBody (45 :: decimalRef n) = 45 :: decimalRef n := by
    unfold stollBody
    rw [List.dropWhile_cons]
    rfl
  have hd : stollDigits (45 :: decimalRef n) = decimalRef n := by
    unfold stollDigits
    simp only [hbody, List.head?_cons, true_or, if_true, List.tail_cons]
    exact takeWhile_decimalRef n
  refine ⟨hd, ?_⟩
  unfold stollValue
  simp only [hd, hbody, List.head?_cons, if_true, decimalRef_value]

theorem stoll_signedDecimalRef (ts : Int) (hlo : -9223372036854775808 ≤ ts)
    (hhi : ts ≤ 9223372036854775807) : stoll (signedDecimalRef ts) = some ts := by
  unfold signedDecimalRef
  by_cases hneg : ts < 0
  · rw [if_pos hneg]
    obtain ⟨hd, hv⟩ := stoll_neg_decimalRef ts.natAbs
    have hval : -((ts.natAbs : Nat) : Int) = ts := by omega
    unfold stoll
    rw [hd, hv, hval]
    have hne : (decimalRef ts.natAbs).isEmpty = false := by
      cases hl : decimalRef ts.natAbs with
      | nil => exact absurd hl (decimalRef_ne_nil _)
      | cons c t => rfl
    rw [hne]
    simp only [Bool.false_eq_true, if_false]
    rw [if_pos ⟨hlo, hhi⟩]
  · rw [if_neg hneg]
    obtain ⟨hd, hv⟩ := stoll_decimalRef ts.natAbs
    have hval : ((ts.natAbs : Nat) : Int) = ts := by omega
    unfold stoll
    rw [hd, hv, hval]
    have hne : (decimalRef ts.natAbs).isEmpty = false := by
      cases hl : decimalRef ts.natAbs with
      | nil => exact absurd hl (decimalRef_ne_nil _)
      | cons c t => rfl
    rw [hne]
    simp only [Bool.false_eq_true, if_false]
    rw [if_pos ⟨hlo, hhi⟩]

theorem signedDecimalRef_chars (ts : Int) :
    ∀ c ∈ signedDecimalRef ts, c = 45 ∨ isdigit c = true := by
  intro c hc
  unfold signedDecimalRef at hc
  split at hc
  · rcases List.mem_cons.1 hc with h | h
    · exact Or.inl h
    · exact Or.inr (decimalRef_digits _ c h)
  · exact Or.inr (decimalRef_digits _ c hc)

theorem signedDecimalRef_no_delim (ts : Int) :
    124 ∉ signedDecimalRef ts ∧ 10 ∉ signedDecimalRef ts := by
  constructor
  · intro h
    rcases signedDecimalRef_chars ts 124 h with h | h
    · exact absurd h (by decide)
    · exact absurd h (by decide)
  · intro h
    rcases signedDecimalRef_chars ts 10 h with h | h
    · exact absurd h (by decide)
    · exact absurd h (by decide)

theorem wireLineRef_parse (ts : Int) (username content : Str)
    (hlo : -9223372036854775808 ≤ ts) (hhi : ts ≤ 9223372036854775807)
    (hu : 124 ∉ username) (hc : 10 ∉ content) :
    parseLine (wireLineRef ts username content) =
      if content = [] then none
      else some { timestamp := ts, username := username, content := content } := by
  unfold wireLineRef
  rw [parseLine_fields _ _ _ (signedDecimalRef_no_delim ts).1 hu hc,
    stoll_signedDecimalRef ts hlo hhi]
  rfl

theorem wireLineRef_no_newline (ts : Int) (username content : Str)
    (hun : 10 ∉ username) (hc : 10 ∉ content) : 10 ∉ wireLineRef ts username content := by
  unfold wireLineRef
  intro h
  rcases List.mem_append.1 h with h | h
  · exact (signedDecimalRef_no_delim ts).2 h
  · rcases List.mem_cons.1 h with h | h
    · exact absurd h (by decide)
    · rcases List.mem_append.1 h with h | h
      · exact hun h
      · rcases List.mem_cons.1 h with h | h
        · exact absurd h (by decide)
        · exact hc h

theorem stoll_eq_none_iff (str : Str) :
    stoll str = none ↔
      stollDigits str = [] ∨
        ¬ (-9223372036854775808 ≤ stollValue str ∧ stollValue str ≤ 9223372036854775807) := by
  unfold stoll
  cases hd : stollDigits str with
  | nil => simp
  | cons c t =>
    simp only [List.isEmpty_cons, Bool.false_eq_true, if_false, false_or]
    split
    · rename_i hr
      simp [hr]
    · rename_i hr
      simp [hr]

theorem parseLine_eq_none_iff (line : Str) (h10 : 10 ∉ line) :
    parseLine line = none ↔
      ¬ ∃ f1 f2 f3, line = f1 ++ 124 :: (f2 ++ 124 :: f3) ∧ 124 ∉ f1 ∧ 124 ∉ f2 ∧ f3 ≠ [] ∧
        stoll f1 ≠ none := by
  constructor
  · rintro h ⟨f1, f2, f3, hl, hf1, hf2, he, hs⟩
    cases hst : stoll f1 with
    | none => exact hs hst
    | some ts =>
      have := (parseLine_eq_some_iff line h10 _).2 ⟨f1, f2, f3, ts, hl, hf1, hf2, he, hst, rfl⟩
      rw [h] at this
      exact absurd this (by simp)
  · intro h
    cases hp : parseLine line with
    | none => rfl
    | some msg =>
      exfalso
      obtain ⟨f1, f2, f3, ts, hl, hf1, hf2, he, hst, _⟩ := (parseLine_eq_some_iff line h10 msg).1 hp
      exact h ⟨f1, f2, f3, hl, hf1, hf2, he, by rw [hst]; simp⟩

/-! ## Claims C32 and C33 -/

/-- Counterexample for C32 as stated: with the empty content the wire line is
`123|user|`, the third `std::getline` extracts nothing and fails, and `processStream`
hands no message to the detector. -/
theorem wire_round_trip_counterexample :
    wireLineRef 123 (ascii "user") [] = ascii "123|user|" ∧
      parseLine (wireLineRef 123 (ascii "user") []) = none ∧
      processStream (wireLineRef 123 (ascii "user") [] ++ [10]) = [] := by
  have h : wireLineRef 123 (ascii "user") [] = ascii "123|user|" := by
    simp [wireLineRef, signedDecimalRef, decimalRef]
    decide
  rw [h]
  exact ⟨rfl, by decide, by decide⟩

/-- C32 (amended): wire-format round trip for a non-empty content. For every signed
64-bit integer `ts`, every username containing neither `|` nor a newline and every
non-empty content without a newline (it may contain `|`), `processStream` reading the
line `<ts>|<username>|<content>` hands the detector exactly one `ChatMessage`, with
timestamp `ts`, that username and that content. -/
theorem wire_round_trip (ts : Int) (username content : Str)
    (hlo : -9223372036854775808 ≤ ts) (hhi : ts ≤ 9223372036854775807)
    (hu : 124 ∉ username) (hun : 10 ∉ username) (hc : 10 ∉ content) (hne : content ≠ []) :
    parseLine (wireLineRef ts username content) =
        some { timestamp := ts, username := username, content := content } ∧
      processStream (wireLineRef ts username content ++ [10]) =
        [{ timestamp := ts, username := username, content := content }] := by
  have hp := wireLineRef_parse ts username content hlo hhi hu hc
  rw [if_neg hne] at hp
  refine ⟨hp, ?_⟩
  rw [processStream_one_line _ (wireLineRef_no_newline ts username content hun hc), hp]
  rfl

/-- Witness for C32 (amended): timestamp `-42`, username `user`, content `a|b`. -/
theorem wire_round_trip_witness :
    (-9223372036854775808 : Int) ≤ -42 ∧ (-42 : Int) ≤ 9223372036854775807 ∧
      124 ∉ ascii "user" ∧ 10 ∉ ascii "user" ∧ 10 ∉ ascii "a|b" ∧ ascii "a|b" ≠ [] ∧
      processStream (wireLineRef (-42) (ascii "user") (ascii "a|b") ++ [10]) =
        [{ timestamp := -42, username := ascii "user", content := ascii "a|b" }] :=
  ⟨by decide, by decide, by decide, by decide, by decide, by decide,
    (wire_round_trip (-42) (ascii "user") (ascii "a|b") (by decide) (by decide) (by decide)
      (by decide) (by decide) (by decide)).2⟩

/-- Counterexample for C33 as stated: the first fields `12abc`, ` 12` and `0x10` are
not signed decimal integers in their entirety, yet `std::stoll` converts their
leading digits and a message is handed to the detector (timestamps 12, 12 and 0). -/
theorem line_rejection_counterexample :
    processStream (ascii "12abc|u|hello" ++ [10]) =
        [{ timestamp := 12, username := ascii "u", content := ascii "hello" }] ∧
      processStream (ascii " 12|u|hello" ++ [10]) =
        [{ timestamp := 12, username := ascii "u", content := ascii "hello" }] ∧
      processStream (ascii "0x10|u|hello" ++ [10]) =
        [{ timestamp := 0, username := ascii "u", content := ascii "hello" }] := by
  decide

/-- C33 (amended): for every input line (a line holds no newline), `processStream`
hands the detector what `parseLine` yields, and that is no message exactly when the
line is not of the form `f1|f2|f3` with `f1`, `f2` free of `|` and `f3` non-empty, or
`std::stoll` rejects `f1`; `std::stoll` rejects a field exactly when, after the
leading white space and one optional sign, it has no decimal digit, or the value of
its leading digits is outside the signed 64-bit range (what follows the digits is
ignored). -/
theorem line_rejection (line : Str) (h10 : 10 ∉ line) :
    processStream (line ++ [10]) = (parseLine line).toList ∧
      (parseLine line = none ↔
        ¬ ∃ f1 f2 f3, line = f1 ++ 124 :: (f2 ++ 124 :: f3) ∧ 124 ∉ f1 ∧ 124 ∉ f2 ∧
          f3 ≠ [] ∧ stoll f1 ≠ none) ∧
      (∀ field, stoll field = none ↔
        stollDigits field = [] ∨
          ¬ (-9223372036854775808 ≤ stollValue field ∧
            stollValue field ≤ 9223372036854775807)) :=
  ⟨processStream_one_line line h10, parseLine_eq_none_iff line h10, stoll_eq_none_iff⟩

/-- Witness for C33 (amended): the line `abc|u|hello`, whose first field has no digit. -/
theorem line_rejection_witness :
    10 ∉ ascii "abc|u|hello" ∧
      processStream (ascii "abc|u|hello" ++ [10]) = (parseLine (ascii "abc|u|hello")).toList :=
  ⟨by decide, (line_rejection (ascii "abc|u|hello") (by decide)).1⟩

/-! ## Lemmas: scenario S2 -/

theorem match_default_W :
    (setupDefaultKeywords defaultMatcher).match_ (ascii "W") = [(ascii "wins", ascii "W")] := by
  have hnm : normalize (ascii "W") = [119] := by decide
  show List.foldl (matchCategory (4 / 5) (normalize (ascii "W"))) []
    [⟨ascii "wins", ["W", "pog", "clutch", "insane", "ez", "gg", "wp"].map ascii, 1⟩,
     ⟨ascii "losses", ["L", "ff", "sad", "rip", "unlucky", "oof"].map ascii, 1⟩,
     ⟨ascii "hype", ["OMEGALUL", "KEKW", "PogChamp", "monkaS", "OMEGALUL", "LUL"].map ascii, 4 / 5⟩] = _
  rw [hnm]
  simp only [List.foldl_cons, List.foldl_nil, matchCategory_eq, bestKeyword_wins_w,
    bestKeyword_losses_w, bestKeyword_hype_w, if_true]
  rw [if_neg (by decide)]
  rfl

theorem getCategoryScore_W :
    (setupDefaultKeywords defaultMatcher).getCategoryScore (ascii "W") (ascii "wins") = 1 := by
  rw [getCategoryScore_of_some _ _ _ (ascii "W") (by rw [match_default_W]; rfl)]
  exact calculateSimilarity_self _

theorem scanMessage_W (st : ScoreMap × List Str) (m : ChatMessage) (hm : m.content = ascii "W")
    (hst : st.1 = [] ∨ st.1 = [(ascii "wins", 1)]) :
    ClipDetector.scanMessage (setupDefaultKeywords defaultMatcher) st m =
      ([(ascii "wins", 1)], st.2 ++ [ascii "W"]) := by
  unfold ClipDetector.scanMessage
  rw [hm, match_default_W]
  simp only [List.foldl_cons, List.foldl_nil, ClipDetector.scanMatch, getCategoryScore_W]
  rcases hst with h | h
  · rw [h]
    simp [ScoreMap.assign, ScoreMap.findD]
  · rw [h]
    simp [ScoreMap.assign, ScoreMap.findD]

theorem foldl_scanMessage_W (msgs : List ChatMessage) (hm : ∀ m ∈ msgs, m.content = ascii "W")
    (st : ScoreMap × List Str) (hst : st.1 = [] ∨ st.1 = [(ascii "wins", 1)]) :
    msgs.foldl (ClipDetector.scanMessage (setupDefaultKeywords defaultMatcher)) st =
      (if msgs = [] then st.1 else [(ascii "wins", 1)],
        st.2 ++ List.replicate msgs.length (ascii "W")) := by
  induction msgs generalizing st with
  | nil => simp
  | cons m rest ih =>
    rw [List.foldl_cons, scanMessage_W st m (hm m (List.mem_cons_self _ _)) hst,
      ih (fun x hx => hm x (List.mem_cons_of_mem _ hx)) _ (Or.inr rfl)]
    simp [List.replicate_succ]

theorem cleanupLoop_of_all (cutoff : Int) (l : List ChatMessage)
    (h : ∀ m ∈ l, cutoff ≤ m.timestamp) : ChatBuffer.cleanupLoop cutoff l = l := by
  cases l with
  | nil => rfl
  | cons x rest =>
    have := h x (List.mem_cons_self _ _)
    unfold ChatBuffer.cleanupLoop
    rw [if_neg (by omega)]

theorem getWindowSeconds_of_all (b : ChatBuffer) (now d : Int)
    (h : ∀ m ∈ b.buffer_, now - d * 1000 ≤ m.timestamp ∧ m.timestamp ≤ now) :
    b.getWindowSeconds now now d = b.buffer_ := by
  unfold ChatBuffer.getWindowSeconds
  rw [getWindow_eq_filter, List.filter_eq_self]
  intro m hm
  exact decide_eq_true (h m hm)

theorem s2Messages_succ (t0 : Int) (n : Nat) :
    s2Messages t0 (n + 1) = s2Messages t0 n ++ [wMessage (t0 + 1000 * Int.ofNat n)] := by
  unfold s2Messages
  rw [List.range_succ, List.map_append]
  rfl

theorem s2Rates_succ (n : Nat) : s2Rates (n + 1) = s2Rates n ++ [((n : ℚ) + 1) / 10] := by
  unfold s2Rates
  rw [List.range_succ, List.map_append]
  rfl

theorem s2Calls_succ (t0 : Int) (n : Nat) :
    s2Calls t0 (n + 1) =
      s2Calls t0 n ++ [processAtTimestamp (wMessage (t0 + 1000 * Int.ofNat n))] := by
  unfold s2Calls
  rw [s2Messages_succ, List.map_append]
  rfl

theorem s2Messages_length (t0 : Int) (n : Nat) : (s2Messages t0 n).length = n := by
  simp [s2Messages]

theorem s2Messages_mem (t0 : Int) (n : Nat) (m : ChatMessage) (h : m ∈ s2Messages t0 n) :
    m.content = ascii "W" ∧ t0 ≤ m.timestamp ∧ m.timestamp + 1000 ≤ t0 + 1000 * Int.ofNat n := by
  unfold s2Messages at h
  obtain ⟨i, hi, rfl⟩ := List.mem_map.1 h
  have hlt : i < n := List.mem_range.1 hi
  refine ⟨rfl, ?_, ?_⟩
  · show t0 ≤ t0 + 1000 * Int.ofNat i
    have : (0 : Int) ≤ Int.ofNat i := Int.ofNat_nonneg i
    omega
  · show t0 + 1000 * Int.ofNat i + 1000 ≤ t0 + 1000 * Int.ofNat n
    have : Int.ofNat i < Int.ofNat n := Int.ofNat_lt.2 hlt
    omega

theorem callAll_append (sqrt : ℚ → ℚ) (s : ClipDetector) (l1 l2 : List DetectorCall) :
    s.callAll sqrt (l1 ++ l2) =
      (((s.callAll sqrt l1).1.callAll sqrt l2).1,
        (s.callAll sqrt l1).2 ++ ((s.callAll sqrt l1).1.callAll sqrt l2).2) := by
  induction l1 generalizing s with
  | nil => rfl
  | cons c rest ih =>
    rw [List.cons_append, callAll_cons, ih, callAll_cons]
    simp

theorem callAll_singleton (sqrt : ℚ → ℚ) (s : ClipDetector) (c : DetectorCall) :
    s.callAll sqrt [c] = ((s.call sqrt c).1, (s.call sqrt c).2.toList) := by
  rw [callAll_cons]
  simp [ClipDetector.callAll]

theorem s2Spike_samples (n : Nat) (hn : n ≤ 60) :
    ((SpikeDetector.create 60 3).addAll (s2Rates n)).samples_ = s2Rates n := by
  rw [addAll_samples]
  have hl : (s2Rates n).length = n := by simp [s2Rates]
  rw [hl, Nat.sub_eq_zero_of_le hn]
  rfl

theorem s2Spike_sums (n : Nat) (hn : n ≤ 60) :
    ((SpikeDetector.create 60 3).addAll (s2Rates n)).sum_ = (s2Rates n).sum ∧
      ((SpikeDetector.create 60 3).addAll (s2Rates n)).sum_sq_ =
        ((s2Rates n).map (fun x => x * x)).sum := by
  have h := addAll_sums (SpikeDetector.create 60 3) (s2Rates n)
    (create_sums 60 3).1 (create_sums 60 3).2
  rw [s2Spike_samples n hn] at h
  exact h

theorem s2Rates_values :
    s2Rates 1 = [1 / 10] ∧ s2Rates 2 = [1 / 10, 1 / 5] ∧ s2Rates 3 = [1 / 10, 1 / 5, 3 / 10] ∧
      s2Rates 4 = [1 / 10, 1 / 5, 3 / 10, 2 / 5] := by
  refine ⟨?_, ?_, ?_, ?_⟩ <;>
  · simp only [s2Rates, List.range_succ, List.range_zero, List.nil_append, List.cons_append,
      List.map_cons, List.map_nil]
    norm_num

theorem s2Intensity_one (sqrt : ℚ → ℚ) :
    ((SpikeDetector.create 60 3).addAll (s2Rates 1)).getSpikeIntensity sqrt = 0 := by
  apply getSpikeIntensity_of_lt_two
  rw [s2Spike_samples 1 (by norm_num), s2Rates_values.1]
  simp

theorem s2Spike_stats (n : Nat) (hn : n ≤ 60) (l : List ℚ) (hl : s2Rates n = l) (h2 : 2 ≤ l.length)
    (sqrt : ℚ → ℚ) :
    ((SpikeDetector.create 60 3).addAll (s2Rates n)).samples_ = l ∧
      ((SpikeDetector.create 60 3).addAll (s2Rates n)).calculateMean = l.sum / (l.length : ℚ) ∧
      ((SpikeDetector.create 60 3).addAll (s2Rates n)).calculateStdDev sqrt =
        sqrt ((l.map (fun x => x * x)).sum / (l.length : ℚ) -
          l.sum / (l.length : ℚ) * (l.sum / (l.length : ℚ))) := by
  subst hl
  have hs := s2Spike_samples n hn
  have hsum := s2Spike_sums n hn
  have hmean : ((SpikeDetector.create 60 3).addAll (s2Rates n)).calculateMean =
      (s2Rates n).sum / ((s2Rates n).length : ℚ) := by
    unfold SpikeDetector.calculateMean
    rw [hs, hsum.1]
    cases hl : s2Rates n with
    | nil => rw [hl] at h2; simp at h2
    | cons a t => rfl
  refine ⟨hs, hmean, ?_⟩
  rw [calculateStdDev_of_sums sqrt _ (by rw [hsum.1, hs]) (by rw [hsum.2, hs])]
  rw [if_neg (by rw [hs]; omega)]
  unfold SpikeDetector.variance
  rw [hmean, hsum.2, hs]

theorem s2Intensity_two (sqrt : ℚ → ℚ) (h : 1 / 25 < sqrt (1 / 400)) :
    ((SpikeDetector.create 60 3).addAll (s2Rates 2)).getSpikeIntensity sqrt < 1 / 4 := by
  obtain ⟨hs, hmean, hsd⟩ := s2Spike_stats 2 (by norm_num) _ s2Rates_values.2.1 (by simp) sqrt
  have hv : (([1 / 10, 1 / 5] : List ℚ).map (fun x => x * x)).sum /
      ((([1 / 10, 1 / 5] : List ℚ).length : Nat) : ℚ) -
      ([1 / 10, 1 / 5] : List ℚ).sum / ((([1 / 10, 1 / 5] : List ℚ).length : Nat) : ℚ) *
        (([1 / 10, 1 / 5] : List ℚ).sum / ((([1 / 10, 1 / 5] : List ℚ).length : Nat) : ℚ)) =
      1 / 400 := by
    simp
    norm_num
  rw [hv] at hsd
  have hpos : (0 : ℚ) < sqrt (1 / 400) := by linarith
  rw [getSpikeIntensity_of_ge_two sqrt _ (by rw [hs]; simp) (by rw [hsd]; exact ne_of_gt hpos),
    hs, hmean, hsd]
  have hlast : ([1 / 10, 1 / 5] : List ℚ).getLastD 0 = 1 / 5 := rfl
  have hm : ([1 / 10, 1 / 5] : List ℚ).sum / ((([1 / 10, 1 / 5] : List ℚ).length : Nat) : ℚ) =
      3 / 20 := by
    simp
    norm_num
  rw [hlast, hm]
  apply max_lt _ (by norm_num)
  apply lt_of_le_of_lt (min_le_left _ _)
  rw [div_div, div_lt_iff₀ (by linarith)]
  linarith

theorem s2Intensity_three (sqrt : ℚ → ℚ) (h : 2 / 25 < sqrt (1 / 150)) :
    ((SpikeDetector.create 60 3).addAll (s2Rates 3)).getSpikeIntensity sqrt < 1 / 4 := by
  obtain ⟨hs, hmean, hsd⟩ := s2Spike_stats 3 (by norm_num) _ s2Rates_values.2.2.1 (by simp) sqrt
  have hv : (([1 / 10, 1 / 5, 3 / 10] : List ℚ).map (fun x => x * x)).sum /
      ((([1 / 10, 1 / 5, 3 / 10] : List ℚ).length : Nat) : ℚ) -
      ([1 / 10, 1 / 5, 3 / 10] : List ℚ).sum /
          ((([1 / 10, 1 / 5, 3 / 10] : List ℚ).length : Nat) : ℚ) *
        (([1 / 10, 1 / 5, 3 / 10] : List ℚ).sum /
          ((([1 / 10, 1 / 5, 3 / 10] : List ℚ).length : Nat) : ℚ)) =
      1 / 150 := by
    simp
    norm_num
  rw [hv] at hsd
  have hpos : (0 : ℚ) < sqrt (1 / 150) := by linarith
  rw [getSpikeIntensity_of_ge_two sqrt _ (by rw [hs]; simp) (by rw [hsd]; exact ne_of_gt hpos),
    hs, hmean, hsd]
  have hlast : ([1 / 10, 1 / 5, 3 / 10] : List ℚ).getLastD 0 = 3 / 10 := rfl
  have hm : ([1 / 10, 1 / 5, 3 / 10] : List ℚ).sum /
      ((([1 / 10, 1 / 5, 3 / 10] : List ℚ).length : Nat) : ℚ) = 1 / 5 := by
    simp
    norm_num
  rw [hlast, hm]
  apply max_lt _ (by norm_num)
  apply lt_of_le_of_lt (min_le_left _ _)
  rw [div_div, div_lt_iff₀ (by linarith)]
  linarith

theorem s2Intensity_four (sqrt : ℚ → ℚ) (h : 0 < sqrt (1 / 80) ∧ sqrt (1 / 80) ≤ 3 / 25) :
    ((SpikeDetector.create 60 3).addAll (s2Rates 4)).getSpikeIntensity sqrt =
        min (3 / 100 / sqrt (1 / 80)) 1 ∧
      1 / 4 ≤ ((SpikeDetector.create 60 3).addAll (s2Rates 4)).getSpikeIntensity sqrt := by
  obtain ⟨hs, hmean, hsd⟩ := s2Spike_stats 4 (by norm_num) _ s2Rates_values.2.2.2 (by simp) sqrt
  have hv : (([1 / 10, 1 / 5, 3 / 10, 2 / 5] : List ℚ).map (fun x => x * x)).sum /
      ((([1 / 10, 1 / 5, 3 / 10, 2 / 5] : List ℚ).length : Nat) : ℚ) -
      ([1 / 10, 1 / 5, 3 / 10, 2 / 5] : List ℚ).sum /
          ((([1 / 10, 1 / 5, 3 / 10, 2 / 5] : List ℚ).length : Nat) : ℚ) *
        (([1 / 10, 1 / 5, 3 / 10, 2 / 5] : List ℚ).sum /
          ((([1 / 10, 1 / 5, 3 / 10, 2 / 5] : List ℚ).length : Nat) : ℚ)) =
      1 / 80 := by
    simp
    norm_num
  rw [hv] at hsd
  obtain ⟨hpos, hle⟩ := h
  have hlast : ([1 / 10, 1 / 5, 3 / 10, 2 / 5] : List ℚ).getLastD 0 = 2 / 5 := rfl
  have hm : ([1 / 10, 1 / 5, 3 / 10, 2 / 5] : List ℚ).sum /
      ((([1 / 10, 1 / 5, 3 / 10, 2 / 5] : List ℚ).length : Nat) : ℚ) = 1 / 4 := by
    simp
    norm_num
  have hz : ((2 : ℚ) / 5 - 1 / 4) / sqrt (1 / 80) / 5 = 3 / 100 / sqrt (1 / 80) := by
    field_simp
    ring
  have hq : (1 : ℚ) / 4 ≤ 3 / 100 / sqrt (1 / 80) := by
    rw [le_div_iff₀ hpos]
    linarith
  have hval : ((SpikeDetector.create 60 3).addAll (s2Rates 4)).getSpikeIntensity sqrt =
      min (3 / 100 / sqrt (1 / 80)) 1 := by
    rw [getSpikeIntensity_of_ge_two sqrt _ (by rw [hs]; simp)
      (by rw [hsd]; exact ne_of_gt hpos), hs, hmean, hsd, hlast, hm, hz]
    apply max_eq_left
    exact le_min (le_trans (by norm_num) hq) (by norm_num)
  refine ⟨hval, ?_⟩
  rw [hval]
  exact le_min hq (by norm_num)

theorem processMessage_eq_feed (sqrt : ℚ → ℚ) (s : ClipDetector) (msg : ChatMessage)
    (clk : ProcessClock) :
    s.processMessage sqrt msg clk = (s.feed msg clk).evaluate sqrt clk.eval := rfl

theorem call_processAtTimestamp (sqrt : ℚ → ℚ) (s : ClipDetector) (msg : ChatMessage) :
    s.call sqrt (processAtTimestamp msg) =
      (s.feed msg (ProcessClock.atInstant msg.timestamp)).evaluate sqrt
        (ProcessClock.atInstant msg.timestamp).eval := rfl

theorem call_wMessage (sqrt : ℚ → ℚ) (s : ClipDetector) (t : Int) :
    s.call sqrt (processAtTimestamp (wMessage t)) =
      (s.feed (wMessage t) (ProcessClock.atInstant t)).evaluate sqrt (ProcessClock.atInstant t).eval := rfl

theorem s2_feed (t0 : Int) (n : Nat) (hn : n < 10) (s : ClipDetector) (h : s.S2Data t0 n) :
    (s.feed (wMessage (t0 + 1000 * Int.ofNat n))
      (ProcessClock.atInstant (t0 + 1000 * Int.ofNat n))).S2Data t0 (n + 1) := by
  obtain ⟨hcfg, hb, hmax, hsp, hk, he⟩ := h
  have hcast : Int.ofNat n < 10 := by
    have : Int.ofNat n < Int.ofNat 10 := Int.ofNat_lt.2 hn
    exact this
  have hbuf : (s.buffer_.addMessage (t0 + 1000 * Int.ofNat n)
      (wMessage (t0 + 1000 * Int.ofNat n))).buffer_ = s2Messages t0 (n + 1) := by
    rw [addMessage_buffer, hb, hmax, ← s2Messages_succ]
    apply cleanupLoop_of_all
    intro m hm
    have := (s2Messages_mem t0 (n + 1) m hm).2.1
    omega
  have hrate : (s.buffer_.addMessage (t0 + 1000 * Int.ofNat n)
      (wMessage (t0 + 1000 * Int.ofNat n))).getMessageRate
        (t0 + 1000 * Int.ofNat n) (t0 + 1000 * Int.ofNat n) 10 = ((n : ℚ) + 1) / 10 := by
    rw [getMessageRate_eq, getWindowSeconds_of_all, hbuf, s2Messages_length]
    · push_cast
      rfl
    · rw [hbuf]
      intro m hm
      obtain ⟨_, h1, h2⟩ := s2Messages_mem t0 (n + 1) m hm
      have e : Int.ofNat (n + 1) = Int.ofNat n + 1 := rfl
      rw [e] at h2
      constructor <;> omega
  refine ⟨hcfg, hbuf, hmax, ?_, hk, he⟩
  show s.spike_detector_.addSample
    ((s.buffer_.addMessage (t0 + 1000 * Int.ofNat n)
      (wMessage (t0 + 1000 * Int.ofNat n))).getMessageRate
        (t0 + 1000 * Int.ofNat n) (t0 + 1000 * Int.ofNat n) 10) = _
  rw [hrate, hsp, s2Rates_succ, addAll_append_singleton]

theorem s2_scan (t0 : Int) (n : Nat) (hn : n < 10) (s : ClipDetector)
    (h : s.S2Data t0 (n + 1)) :
    s.scanWindow (ProcessClock.atInstant (t0 + 1000 * Int.ofNat n)).eval =
      ([(ascii "wins", 1)], List.replicate (n + 1) (ascii "W")) := by
  obtain ⟨_, hbuf, _, _, hk, _⟩ := h
  have hcast : Int.ofNat n < 10 := by
    have : Int.ofNat n < Int.ofNat 10 := Int.ofNat_lt.2 hn
    exact this
  unfold ClipDetector.scanWindow
  show List.foldl (ClipDetector.scanMessage s.keyword_matcher_) ([], [])
    (s.buffer_.getWindowSeconds (t0 + 1000 * Int.ofNat n) (t0 + 1000 * Int.ofNat n) 30) = _
  rw [getWindowSeconds_of_all, hbuf, hk,
    foldl_scanMessage_W _ (fun m hm => (s2Messages_mem t0 (n + 1) m hm).1) _ (Or.inl rfl),
    s2Messages_length, s2Messages_succ]
  · simp
  · rw [hbuf]
    intro m hm
    obtain ⟨_, h1, h2⟩ := s2Messages_mem t0 (n + 1) m hm
    have e : Int.ofNat (n + 1) = Int.ofNat n + 1 := rfl
    rw [e] at h2
    constructor <;> omega

theorem s2_score (sqrt : ℚ → ℚ) (t0 : Int) (n : Nat) (hn : n < 10) (s : ClipDetector)
    (h : s.S2Data t0 (n + 1)) :
    s.evalScore sqrt (ProcessClock.atInstant (t0 + 1000 * Int.ofNat n)).eval =
      min (2 / 5 * ((SpikeDetector.create 60 3).addAll (s2Rates (n + 1))).getSpikeIntensity sqrt +
        1 / 2 + 1 / 10) 1 := by
  unfold ClipDetector.evalScore
  rw [s2_scan t0 n hn s h, h.2.2.2.2.2, h.2.2.2.1, defaultScore_eq,
    normalizeKeywordScore_cons]
  simp

theorem s2_trigger_iff (x : ℚ) :
    defaultScoringEngine.shouldTriggerClip (min (2 / 5 * x + 1 / 2 + 1 / 10) 1) = true ↔
      1 / 4 ≤ x := by
  rw [defaultShouldTrigger_iff, le_min_iff]
  constructor
  · intro h
    linarith [h.1]
  · intro h
    exact ⟨by linarith, by norm_num⟩

theorem s2_step (sqrt : ℚ → ℚ) (t0 : Int) (n : Nat) (hn : n < 10) (s : ClipDetector)
    (h : s.S2Data t0 n) (hcool : s.in_cooldown_ = false) :
    s.call sqrt (processAtTimestamp (wMessage (t0 + 1000 * Int.ofNat n))) =
      if 1 / 4 ≤ ((SpikeDetector.create 60 3).addAll (s2Rates (n + 1))).getSpikeIntensity sqrt
      then
        ({ s.feed (wMessage (t0 + 1000 * Int.ofNat n))
              (ProcessClock.atInstant (t0 + 1000 * Int.ofNat n)) with
            last_clip_time_ := t0 + 1000 * Int.ofNat n, in_cooldown_ := true },
          some
            { start_time := t0 + 1000 * Int.ofNat n + 30 * 1000 - 60 * 1000,
              end_time := t0 + 1000 * Int.ofNat n + 30 * 1000,
              score := min (2 / 5 *
                ((SpikeDetector.create 60 3).addAll (s2Rates (n + 1))).getSpikeIntensity sqrt +
                1 / 2 + 1 / 10) 1,
              keywords := List.replicate (n + 1) (ascii "W"),
              category := ascii "win" })
      else
        (s.feed (wMessage (t0 + 1000 * Int.ofNat n)) (ProcessClock.atInstant (t0 + 1000 * Int.ofNat n)),
          none) := by
  have hfeed := s2_feed t0 n hn s h
  have hcd : (s.feed (wMessage (t0 + 1000 * Int.ofNat n))
      (ProcessClock.atInstant (t0 + 1000 * Int.ofNat n))).checkCooldown
        (ProcessClock.atInstant (t0 + 1000 * Int.ofNat n)).eval.cooldown = false := by
    have hc2 : (s.feed (wMessage (t0 + 1000 * Int.ofNat n))
      (ProcessClock.atInstant (t0 + 1000 * Int.ofNat n))).in_cooldown_ = false := hcool
    unfold ClipDetector.checkCooldown
    rw [hc2]
    rfl
  rw [call_wMessage, evaluate_eq]
  have htr : ∀ x, (s.feed (wMessage (t0 + 1000 * Int.ofNat n))
      (ProcessClock.atInstant (t0 + 1000 * Int.ofNat n))).scoring_engine_.shouldTriggerClip x =
        defaultScoringEngine.shouldTriggerClip x := by
    intro x
    rw [hfeed.2.2.2.2.2]
  have hev : ∀ score, (s.feed (wMessage (t0 + 1000 * Int.ofNat n))
      (ProcessClock.atInstant (t0 + 1000 * Int.ofNat n))).createClipEvent
        (ProcessClock.atInstant (t0 + 1000 * Int.ofNat n)).eval.emit score
        (List.replicate (n + 1) (ascii "W")) =
      { start_time := t0 + 1000 * Int.ofNat n + 30 * 1000 - 60 * 1000,
        end_time := t0 + 1000 * Int.ofNat n + 30 * 1000,
        score := score,
        keywords := List.replicate (n + 1) (ascii "W"),
        category := ascii "win" } := by
    intro score
    unfold ClipDetector.createClipEvent
    rw [hfeed.1, List.replicate_succ, selectCategory_cons, if_pos (Or.inl rfl)]
    rfl
  rw [hcd, if_neg (by simp), s2_score sqrt t0 n hn _ hfeed, s2_scan t0 n hn _ hfeed, htr, hev]
  by_cases hI : 1 / 4 ≤
      ((SpikeDetector.create 60 3).addAll (s2Rates (n + 1))).getSpikeIntensity sqrt
  · rw [if_pos hI, if_pos ((s2_trigger_iff _).2 hI)]
    rfl
  · rw [if_neg hI, if_neg (fun ht => hI ((s2_trigger_iff _).1 ht))]

theorem s2_feed_flags (s : ClipDetector) (msg : ChatMessage) (clk : ProcessClock) :
    (s.feed msg clk).in_cooldown_ = s.in_cooldown_ ∧
      (s.feed msg clk).last_clip_time_ = s.last_clip_time_ ∧
      (s.feed msg clk).config_ = s.config_ := ⟨rfl, rfl, rfl⟩

theorem callAll_suppressed (sqrt : ℚ → ℚ) (calls : List DetectorCall) (s : ClipDetector)
    (hcool : s.in_cooldown_ = true)
    (h : ∀ c ∈ calls, ∃ msg clk, c = DetectorCall.processMessage msg clk ∧
      clk.eval.cooldown - s.last_clip_time_ < s.config_.cooldown * 1000) :
    (s.callAll sqrt calls).2 = [] := by
  induction calls generalizing s with
  | nil => rfl
  | cons c rest ih =>
    obtain ⟨msg, clk, hc, hlt⟩ := h c (List.mem_cons_self _ _)
    subst hc
    rw [callAll_cons]
    have hev : s.call sqrt (DetectorCall.processMessage msg clk) = (s.feed msg clk, none) := by
      show ClipDetector.evaluate sqrt (s.feed msg clk) clk.eval = _
      apply evaluate_of_cooldown
      rw [checkCooldown_eq_true_iff]
      exact ⟨hcool, hlt⟩
    rw [hev]
    simp only [Option.toList, List.nil_append]
    exact ih _ hcool (fun c hc => h c (List.mem_cons_of_mem _ hc))

theorem s2Calls_take (t0 : Int) (k : Nat) (hk : k ≤ 10) :
    (scenarioS2 t0).take k = s2Calls t0 k := by
  unfold scenarioS2 s2Calls s2Messages
  rw [← List.map_take, ← List.map_take, List.take_range, min_eq_left hk]

theorem mainDetector_S2Data (t0 : Int) :
    mainDetector.S2Data t0 0 ∧ mainDetector.in_cooldown_ = false :=
  ⟨⟨rfl, rfl, rfl, rfl, rfl, rfl⟩, rfl⟩

theorem s2_run_quiet (sqrt : ℚ → ℚ) (t0 : Int) (n : Nat) (hn : n < 10)
    (hd : (mainDetector.callAll sqrt (s2Calls t0 n)).1.S2Data t0 n)
    (hc : (mainDetector.callAll sqrt (s2Calls t0 n)).1.in_cooldown_ = false)
    (he : (mainDetector.callAll sqrt (s2Calls t0 n)).2 = [])
    (hI : ((SpikeDetector.create 60 3).addAll (s2Rates (n + 1))).getSpikeIntensity sqrt < 1 / 4) :
    (mainDetector.callAll sqrt (s2Calls t0 (n + 1))).1.S2Data t0 (n + 1) ∧
      (mainDetector.callAll sqrt (s2Calls t0 (n + 1))).1.in_cooldown_ = false ∧
      (mainDetector.callAll sqrt (s2Calls t0 (n + 1))).2 = [] := by
  rw [s2Calls_succ, callAll_append, callAll_singleton, s2_step sqrt t0 n hn _ hd hc,
    if_neg (not_le.2 hI), he]
  exact ⟨s2_feed t0 n hn _ hd, hc, rfl⟩

theorem s2_run_emit (sqrt : ℚ → ℚ) (t0 : Int) (n : Nat) (hn : n < 10)
    (hd : (mainDetector.callAll sqrt (s2Calls t0 n)).1.S2Data t0 n)
    (hc : (mainDetector.callAll sqrt (s2Calls t0 n)).1.in_cooldown_ = false)
    (he : (mainDetector.callAll sqrt (s2Calls t0 n)).2 = [])
    (hI : 1 / 4 ≤ ((SpikeDetector.create 60 3).addAll (s2Rates (n + 1))).getSpikeIntensity sqrt) :
    (mainDetector.callAll sqrt (s2Calls t0 (n + 1))).1.S2Data t0 (n + 1) ∧
      (mainDetector.callAll sqrt (s2Calls t0 (n + 1))).1.in_cooldown_ = true ∧
      (mainDetector.callAll sqrt (s2Calls t0 (n + 1))).1.last_clip_time_ =
        t0 + 1000 * Int.ofNat n ∧
      (mainDetector.callAll sqrt (s2Calls t0 (n + 1))).2 =
        [{ start_time := t0 + 1000 * Int.ofNat n + 30 * 1000 - 60 * 1000,
           end_time := t0 + 1000 * Int.ofNat n + 30 * 1000,
           score := min (2 / 5 *
             ((SpikeDetector.create 60 3).addAll (s2Rates (n + 1))).getSpikeIntensity sqrt +
             1 / 2 + 1 / 10) 1,
           keywords := List.replicate (n + 1) (ascii "W"),
           category := ascii "win" }] := by
  rw [s2Calls_succ, callAll_append, callAll_singleton, s2_step sqrt t0 n hn _ hd hc,
    if_pos hI, he]
  exact ⟨s2_feed t0 n hn _ hd, rfl, rfl, rfl⟩

theorem s2_tail_suppressed (sqrt : ℚ → ℚ) (t0 : Int) (s : ClipDetector)
    (hcfg : s.config_ = defaultClipConfig) (hc : s.in_cooldown_ = true)
    (hl : s.last_clip_time_ = t0 + 1000 * Int.ofNat 3) :
    (s.callAll sqrt ((scenarioS2 t0).drop 4)).2 = [] := by
  apply callAll_suppressed sqrt _ s hc
  intro c hcmem
  have hmem : c ∈ scenarioS2 t0 := List.mem_of_mem_drop hcmem
  unfold scenarioS2 s2Calls at hmem
  obtain ⟨m, hm, rfl⟩ := List.mem_map.1 hmem
  refine ⟨m, ProcessClock.atInstant m.timestamp, rfl, ?_⟩
  have h2 := (s2Messages_mem t0 10 m hm).2.2
  rw [hl, hcfg]
  show m.timestamp - (t0 + 1000 * Int.ofNat 3) < 30 * 1000
  have e10 : Int.ofNat 10 = 10 := rfl
  have e3 : Int.ofNat 3 = 3 := rfl
  rw [e10] at h2
  rw [e3]
  omega

/-! ## Claim C31 -/

/-- C31: scenario S2 (keyword-driven), for a square root with `1/25 < sqrt (1/400)`,
`2/25 < sqrt (1/150)` and `0 < sqrt (1/80) ≤ 3/25` (the real square roots are `0.05`,
`0.0816…` and `0.1118…`). With the default matcher and scoring, feeding 10 messages
"W" at 1 s intervals, each processed at its timestamp, every evaluation up to the
fourth computes the score `min (0.4 * intensity + 0.5 + 0.1, 1)`; after each of the
first three messages the spike intensity is below `0.25` and nothing is emitted; at the
fourth message the intensity is at least `0.25` and an event is emitted, with category
"win" and keywords four times "W"; it is the only event of the run. -/
theorem scenarioS2_emission (sqrt : ℚ → ℚ) (t0 : Int)
    (h2 : 1 / 25 < sqrt (1 / 400)) (h3 : 2 / 25 < sqrt (1 / 150))
    (h4 : 0 < sqrt (1 / 80) ∧ sqrt (1 / 80) ≤ 3 / 25) :
    (∀ k, k < 4 →
        (mainDetector.callAll sqrt ((scenarioS2 t0).take (k + 1))).1.evalScore sqrt
            (ProcessClock.atInstant (t0 + 1000 * Int.ofNat k)).eval =
          min (2 / 5 * (mainDetector.callAll sqrt
            ((scenarioS2 t0).take (k + 1))).1.spike_detector_.getSpikeIntensity sqrt +
              1 / 2 + 1 / 10) 1) ∧
      (∀ k, 1 ≤ k → k ≤ 3 →
        (mainDetector.callAll sqrt ((scenarioS2 t0).take k)).2 = [] ∧
          (mainDetector.callAll sqrt
            ((scenarioS2 t0).take k)).1.spike_detector_.getSpikeIntensity sqrt < 1 / 4) ∧
      1 / 4 ≤ (mainDetector.callAll sqrt
        ((scenarioS2 t0).take 4)).1.spike_detector_.getSpikeIntensity sqrt ∧
      (mainDetector.callAll sqrt ((scenarioS2 t0).take 4)).2 =
        [{ start_time := t0 + 3000 + 30 * 1000 - 60 * 1000,
           end_time := t0 + 3000 + 30 * 1000,
           score := min (2 / 5 * min (3 / 100 / sqrt (1 / 80)) 1 + 1 / 2 + 1 / 10) 1,
           keywords := List.replicate 4 (ascii "W"),
           category := ascii "win" }] ∧
      (mainDetector.callAll sqrt (scenarioS2 t0)).2 =
        [{ start_time := t0 + 3000 + 30 * 1000 - 60 * 1000,
           end_time := t0 + 3000 + 30 * 1000,
           score := min (2 / 5 * min (3 / 100 / sqrt (1 / 80)) 1 + 1 / 2 + 1 / 10) 1,
           keywords := List.replicate 4 (ascii "W"),
           category := ascii "win" }] ∧
      ascii "W" ∈ List.replicate 4 (ascii "W") := by
  have hI1 : ((SpikeDetector.create 60 3).addAll (s2Rates 1)).getSpikeIntensity sqrt < 1 / 4 := by
    rw [s2Intensity_one]
    norm_num
  have hI2 := s2Intensity_two sqrt h2
  have hI3 := s2Intensity_three sqrt h3
  obtain ⟨hI4v, hI4⟩ := s2Intensity_four sqrt h4
  have p0 : (mainDetector.callAll sqrt (s2Calls t0 0)).1.S2Data t0 0 ∧
      (mainDetector.callAll sqrt (s2Calls t0 0)).1.in_cooldown_ = false ∧
      (mainDetector.callAll sqrt (s2Calls t0 0)).2 = [] :=
    ⟨(mainDetector_S2Data t0).1, rfl, rfl⟩
  have p1 := s2_run_quiet sqrt t0 0 (by norm_num) p0.1 p0.2.1 p0.2.2 hI1
  have p2 := s2_run_quiet sqrt t0 1 (by norm_num) p1.1 p1.2.1 p1.2.2 hI2
  have p3 := s2_run_quiet sqrt t0 2 (by norm_num) p2.1 p2.2.1 p2.2.2 hI3
  have p4 := s2_run_emit sqrt t0 3 (by norm_num) p3.1 p3.2.1 p3.2.2 hI4
  have e3 : t0 + 1000 * Int.ofNat 3 = t0 + 3000 := rfl
  have hev4 : (mainDetector.callAll sqrt (s2Calls t0 4)).2 =
      [{ start_time := t0 + 3000 + 30 * 1000 - 60 * 1000,
         end_time := t0 + 3000 + 30 * 1000,
         score := min (2 / 5 * min (3 / 100 / sqrt (1 / 80)) 1 + 1 / 2 + 1 / 10) 1,
         keywords := List.replicate 4 (ascii "W"),
         category := ascii "win" }] := by
    rw [p4.2.2.2, hI4v, e3]
  refine ⟨?_, ?_, ?_, ?_, ?_, by decide⟩
  · intro k hk
    rw [s2Calls_take t0 (k + 1) (by omega)]
    have hd : (mainDetector.callAll sqrt (s2Calls t0 (k + 1))).1.S2Data t0 (k + 1) := by
      interval_cases k
      · exact p1.1
      · exact p2.1
      · exact p3.1
      · exact p4.1
    rw [s2_score sqrt t0 k (by omega) _ hd, hd.2.2.2.1]
  · intro k hk1 hk3
    rw [s2Calls_take t0 k (by omega)]
    interval_cases k
    · exact ⟨p1.2.2, by rw [p1.1.2.2.2.1]; exact hI1⟩
    · exact ⟨p2.2.2, by rw [p2.1.2.2.2.1]; exact hI2⟩
    · exact ⟨p3.2.2, by rw [p3.1.2.2.2.1]; exact hI3⟩
  · rw [s2Calls_take t0 4 (by norm_num), p4.1.2.2.2.1]
    exact hI4
  · rw [s2Calls_take t0 4 (by norm_num)]
    exact hev4
  · have hsplit : scenarioS2 t0 = (scenarioS2 t0).take 4 ++ (scenarioS2 t0).drop 4 :=
      (List.take_append_drop 4 _).symm
    rw [hsplit, callAll_append, s2Calls_take t0 4 (by norm_num), hev4,
      s2_tail_suppressed sqrt t0 _ p4.1.1 p4.2.1 p4.2.2.1]
    rfl

/-- Witness for C31: the stand-in `sqrtS2` (values `1/20`, `41/500`, `14/125` at the
variances `1/400`, `1/150`, `1/80`) and epoch `0`: the run emits exactly one event. -/
theorem scenarioS2_emission_witness :
    1 / 25 < sqrtS2 (1 / 400) ∧ 2 / 25 < sqrtS2 (1 / 150) ∧
      (0 < sqrtS2 (1 / 80) ∧ sqrtS2 (1 / 80) ≤ 3 / 25) ∧
      (mainDetector.callAll sqrtS2 (scenarioS2 0)).2 =
        [{ start_time := 0 + 3000 + 30 * 1000 - 60 * 1000,
           end_time := 0 + 3000 + 30 * 1000,
           score := min (2 / 5 * min (3 / 100 / sqrtS2 (1 / 80)) 1 + 1 / 2 + 1 / 10) 1,
           keywords := List.replicate 4 (ascii "W"),
           category := ascii "win" }] :=
  ⟨by norm_num [sqrtS2], by norm_num [sqrtS2], by norm_num [sqrtS2],
    (scenarioS2_emission sqrtS2 0 (by norm_num [sqrtS2]) (by norm_num [sqrtS2])
      (by norm_num [sqrtS2])).2.2.2.2.1⟩


/-! ## Lemmas: runs that emit -/

theorem mem_cleanupLoop_last (cutoff : Int) (buf : List ChatMessage) (msg : ChatMessage)
    (h : ¬ msg.timestamp < cutoff) : msg ∈ ChatBuffer.cleanupLoop cutoff (buf ++ [msg]) := by
  induction buf with
  | nil =>
    show msg ∈ ChatBuffer.cleanupLoop cutoff [msg]
    unfold ChatBuffer.cleanupLoop
    rw [if_neg h]
    exact List.mem_cons_self _ _
  | cons x rest ih =>
    show msg ∈ ChatBuffer.cleanupLoop cutoff (x :: (rest ++ [msg]))
    unfold ChatBuffer.cleanupLoop
    split
    · exact ih
    · exact List.mem_cons_of_mem _ (List.mem_append_right _ (List.mem_singleton.2 rfl))

theorem mem_of_mem_cleanupLoop (cutoff : Int) (l : List ChatMessage) (m : ChatMessage)
    (h : m ∈ ChatBuffer.cleanupLoop cutoff l) : m ∈ l := by
  induction l with
  | nil => exact h
  | cons x rest ih =>
    unfold ChatBuffer.cleanupLoop at h
    split at h
    · exact List.mem_cons_of_mem _ (ih h)
    · exact h

theorem eagerData_feed (s : ClipDetector) (h : s.EagerData) (t : Int) (clk : ProcessClock) :
    (s.feed (wMessage t) clk).EagerData := by
  obtain ⟨hk, he, hmax, hw⟩ := h
  refine ⟨hk, he, hmax, ?_⟩
  intro m hm
  have hm2 : m ∈ s.buffer_.buffer_ ++ [wMessage t] := mem_of_mem_cleanupLoop _ _ m hm
  rcases List.mem_append.1 hm2 with h1 | h1
  · exact hw m h1
  · rw [List.mem_singleton.1 h1]
    rfl

theorem eagerData_scan (s : ClipDetector) (h : s.EagerData) (t : Int) :
    ∃ k, (s.feed (wMessage t) (ProcessClock.atInstant t)).scanWindow
        (ProcessClock.atInstant t).eval =
      ([(ascii "wins", 1)], List.replicate (k + 1) (ascii "W")) := by
  have hf := eagerData_feed s h t (ProcessClock.atInstant t)
  obtain ⟨hk, _, hmax, hw⟩ := hf
  have hin : wMessage t ∈ (s.feed (wMessage t) (ProcessClock.atInstant t)).buffer_.getWindowSeconds
      t t 30 := by
    unfold ChatBuffer.getWindowSeconds
    rw [getWindow_eq_filter, List.mem_filter]
    constructor
    · show wMessage t ∈ ChatBuffer.cleanupLoop (t - s.buffer_.max_duration_ * 1000)
        (s.buffer_.buffer_ ++ [wMessage t])
      apply mem_cleanupLoop_last
      rw [h.2.2.1]
      show ¬ t < t - 300 * 1000
      omega
    · apply decide_eq_true
      show t - 30 * 1000 ≤ t ∧ t ≤ t
      omega
  have hall : ∀ m ∈ (s.feed (wMessage t) (ProcessClock.atInstant t)).buffer_.getWindowSeconds
      t t 30, m.content = ascii "W" := by
    intro m hm
    unfold ChatBuffer.getWindowSeconds at hm
    rw [getWindow_eq_filter] at hm
    exact hw m (List.mem_of_mem_filter hm)
  cases hl : (s.feed (wMessage t) (ProcessClock.atInstant t)).buffer_.getWindowSeconds t t 30 with
  | nil =>
    rw [hl] at hin
    exact absurd hin (List.not_mem_nil _)
  | cons x rest =>
    refine ⟨rest.length, ?_⟩
    unfold ClipDetector.scanWindow
    show List.foldl (ClipDetector.scanMessage
        (s.feed (wMessage t) (ProcessClock.atInstant t)).keyword_matcher_) ([], [])
      ((s.feed (wMessage t) (ProcessClock.atInstant t)).buffer_.getWindowSeconds t t 30) = _
    rw [hk, foldl_scanMessage_W _ hall _ (Or.inl rfl), hl]
    simp

theorem eager_trigger (spike : ℚ) (h : 0 ≤ spike) :
    eagerScoringEngine.shouldTriggerClip
      (eagerScoringEngine.calculateScore spike [(ascii "wins", 1)] 1) = true := by
  unfold ScoringEngine.shouldTriggerClip
  rw [decide_eq_true_eq, calculateScore_eq, normalizeKeywordScore_cons]
  show (1 / 2 : ℚ) ≤ min (2 / 5 * spike + 1 / 2 * _ + 1 / 10 * 1) 1
  simp only [List.foldl_cons, List.foldl_nil]
  apply le_min
  · have : max (0 : ℚ) 1 = 1 := by norm_num
    rw [this]
    linarith
  · norm_num

theorem eager_call (sqrt : ℚ → ℚ) (s : ClipDetector) (h : s.EagerData) (t : Int)
    (hcd : s.checkCooldown t = false) :
    (s.call sqrt (processAtTimestamp (wMessage t))).2.map ClipEvent.end_time =
        some (t + s.config_.lookback * 1000) ∧
      (s.call sqrt (processAtTimestamp (wMessage t))).2.map ClipEvent.start_time =
        some (t + s.config_.lookback * 1000 - s.config_.clip_duration * 1000) ∧
      (s.call sqrt (processAtTimestamp (wMessage t))).2.map ClipEvent.category =
        some (ascii "win") ∧
      (s.call sqrt (processAtTimestamp (wMessage t))).1.EagerData ∧
      (s.call sqrt (processAtTimestamp (wMessage t))).1.in_cooldown_ = true ∧
      (s.call sqrt (processAtTimestamp (wMessage t))).1.last_clip_time_ = t ∧
      (s.call sqrt (processAtTimestamp (wMessage t))).1.config_ = s.config_ := by
  obtain ⟨k, hscan⟩ := eagerData_scan s h t
  have hf := eagerData_feed s h t (ProcessClock.atInstant t)
  have hcd2 : (s.feed (wMessage t) (ProcessClock.atInstant t)).checkCooldown
      (ProcessClock.atInstant t).eval.cooldown = false := hcd
  have hscore : (s.feed (wMessage t) (ProcessClock.atInstant t)).scoring_engine_.shouldTriggerClip
      ((s.feed (wMessage t) (ProcessClock.atInstant t)).evalScore sqrt
        (ProcessClock.atInstant t).eval) = true := by
    unfold ClipDetector.evalScore
    rw [hscan, hf.2.1]
    exact eager_trigger _ (getSpikeIntensity_nonneg sqrt _)
  rw [call_wMessage, evaluate_eq, hcd2, if_neg (by simp), if_pos hscore, hscan]
  refine ⟨rfl, rfl, ?_, hf, rfl, rfl, rfl⟩
  show some (ClipDetector.selectCategory (List.replicate (k + 1) (ascii "W"))) = _
  rw [List.replicate_succ, selectCategory_cons, if_pos (Or.inl rfl)]

theorem eager_call_suppressed (sqrt : ℚ → ℚ) (s : ClipDetector) (h : s.EagerData) (t : Int)
    (hcd : s.checkCooldown t = true) :
    (s.call sqrt (processAtTimestamp (wMessage t))).2 = none ∧
      (s.call sqrt (processAtTimestamp (wMessage t))).1.EagerData ∧
      (s.call sqrt (processAtTimestamp (wMessage t))).1.in_cooldown_ = s.in_cooldown_ ∧
      (s.call sqrt (processAtTimestamp (wMessage t))).1.last_clip_time_ = s.last_clip_time_ ∧
      (s.call sqrt (processAtTimestamp (wMessage t))).1.config_ = s.config_ := by
  have hcd2 : (s.feed (wMessage t) (ProcessClock.atInstant t)).checkCooldown
      (ProcessClock.atInstant t).eval.cooldown = true := hcd
  rw [call_wMessage, evaluate_of_cooldown sqrt _ _ hcd2]
  exact ⟨rfl, eagerData_feed s h t _, rfl, rfl, rfl⟩

theorem eagerDetector_data (config : ClipDetectorConfig) :
    (eagerDetector config).EagerData :=
  ⟨rfl, rfl, rfl, fun _ hm => absurd hm (List.not_mem_nil _)⟩

theorem eager_run (sqrt : ℚ → ℚ) (config : ClipDetectorConfig) (hc : config.cooldown = 30) :
    ((eagerDetector config).callAll sqrt eagerCalls).2.map ClipEvent.end_time =
        [1000 + config.lookback * 1000, 40000 + config.lookback * 1000] ∧
      ((eagerDetector config).callAll sqrt eagerCalls).2.map ClipEvent.start_time =
        [1000 + config.lookback * 1000 - config.clip_duration * 1000,
          40000 + config.lookback * 1000 - config.clip_duration * 1000] ∧
      ((eagerDetector config).callAll sqrt eagerCalls).2.map ClipEvent.category =
        [ascii "win", ascii "win"] ∧
      ((eagerDetector config).callAll sqrt eagerCalls).1.in_cooldown_ = true ∧
      ((eagerDetector config).callAll sqrt eagerCalls).1.last_clip_time_ = 40000 := by
  have h0 := eagerDetector_data config
  have hcd0 : (eagerDetector config).checkCooldown 1000 = false := rfl
  obtain ⟨e1, s1, c1, d1, f1, l1, g1⟩ := eager_call sqrt _ h0 1000 hcd0
  have hg0 : (eagerDetector config).config_ = config := rfl
  rw [hg0] at e1 s1 g1
  have hcd1 : ((eagerDetector config).call sqrt
      (processAtTimestamp (wMessage 1000))).1.checkCooldown 2000 = true := by
    rw [checkCooldown_eq_true_iff, f1, l1, g1, hc]
    exact ⟨rfl, by decide⟩
  obtain ⟨e2, d2, f2, l2, g2⟩ := eager_call_suppressed sqrt _ d1 2000 hcd1
  rw [f1] at f2
  rw [l1] at l2
  rw [g1] at g2
  have hcd2 : ((((eagerDetector config).call sqrt
      (processAtTimestamp (wMessage 1000))).1.call sqrt
        (processAtTimestamp (wMessage 2000))).1).checkCooldown 40000 = false := by
    cases hb : ((((eagerDetector config).call sqrt
      (processAtTimestamp (wMessage 1000))).1.call sqrt
        (processAtTimestamp (wMessage 2000))).1).checkCooldown 40000 with
    | false => rfl
    | true =>
      rw [checkCooldown_eq_true_iff, l2, g2, hc] at hb
      exact absurd hb.2 (by decide)
  obtain ⟨e3, s3, c3, d3, f3, l3, g3⟩ := eager_call sqrt _ d2 40000 hcd2
  rw [g2] at e3 s3
  unfold eagerCalls
  simp only [callAll_cons, ClipDetector.callAll, List.map_append, List.append_nil]
  cases h1 : ((eagerDetector config).call sqrt (processAtTimestamp (wMessage 1000))).2 with
  | none => rw [h1] at e1; simp at e1
  | some ev1 =>
    cases h3 : ((((eagerDetector config).call sqrt
        (processAtTimestamp (wMessage 1000))).1.call sqrt
          (processAtTimestamp (wMessage 2000))).1.call sqrt
            (processAtTimestamp (wMessage 40000))).2 with
    | none => rw [h3] at e3; simp at e3
    | some ev3 =>
      rw [h1] at e1 s1 c1
      rw [h3] at e3 s3 c3
      simp only [Option.map_some', Option.some.injEq] at e1 s1 c1 e3 s3 c3
      rw [e2]
      simp only [Option.toList, List.map_cons, List.map_nil, List.nil_append,
        List.singleton_append, e1, s1, c1, e3, s3, c3]
      exact ⟨trivial, trivial, trivial, f3, l3⟩

/-! ## Witnesses of the run claims on a run that emits twice -/

theorem eagerCalls_clocks :
    (∀ c ∈ eagerCalls, c.isReset = false) ∧
      (∀ c ∈ eagerCalls, ∀ tc te, c.cooldownClock = some tc → c.emitClock = some te →
        tc ≤ te) ∧
      (∀ c ∈ eagerCalls, ∀ te, c.emitClock = some te → 0 < te) ∧
      (eagerCalls.filterMap DetectorCall.emitClock).Pairwise (fun a b => a ≤ b) := by
  refine ⟨by decide, ?_, ?_, by decide⟩
  · intro c hc tc te h1 h2
    simp only [eagerCalls, List.mem_cons, List.mem_singleton, List.not_mem_nil, or_false] at hc
    rcases hc with rfl | rfl | rfl <;>
    · rw [(processAtTimestamp_clocks _).2.1] at h1
      rw [(processAtTimestamp_clocks _).2.2] at h2
      rw [← Option.some.inj h1, ← Option.some.inj h2]
  · intro c hc te h
    simp only [eagerCalls, List.mem_cons, List.mem_singleton, List.not_mem_nil, or_false] at hc
    rcases hc with rfl | rfl | rfl <;>
    · rw [(processAtTimestamp_clocks _).2.2] at h
      rw [← Option.some.inj h]
      decide

/-- Witness for C27: a detector with the default keywords and `min_clip_score = 0.5`;
three messages "W" processed at 1 s, 2 s and 40 s. The first and the third call emit
(end times 31 s and 70 s, 39 s apart); the second call falls into the cooldown. -/
theorem cooldown_respected_witness :
    (∀ c ∈ eagerCalls, c.isReset = false) ∧
      (∀ c ∈ eagerCalls, ∀ tc te, c.cooldownClock = some tc → c.emitClock = some te →
        tc ≤ te) ∧
      ((eagerDetector defaultClipConfig).callAll Rat.sqrt eagerCalls).2.map
        ClipEvent.end_time = [31000, 70000] ∧
      List.Chain'
        (fun e1 e2 => e2.end_time - e1.end_time ≥
          (eagerDetector defaultClipConfig).config_.cooldown * 1000)
        ((eagerDetector defaultClipConfig).callAll Rat.sqrt eagerCalls).2 :=
  ⟨eagerCalls_clocks.1, eagerCalls_clocks.2.1, (eager_run Rat.sqrt defaultClipConfig rfl).1,
    (cooldown_respected Rat.sqrt (eagerDetector defaultClipConfig) eagerCalls
      eagerCalls_clocks.1 eagerCalls_clocks.2.1).1⟩

/-- Witness for C28: the same run; it ends in cooldown with `last_clip_time = 40 s`, and
`checkCooldown()` at clock reading 50 s is characterised. -/
theorem checkCooldown_iff_witness :
    (∀ c ∈ eagerCalls, ∀ te, c.emitClock = some te → 0 < te) ∧
      ((eagerDetector defaultClipConfig).callAll Rat.sqrt eagerCalls).1.in_cooldown_ = true ∧
      ((eagerDetector defaultClipConfig).callAll Rat.sqrt eagerCalls).1.last_clip_time_ =
        40000 ∧
      (((eagerDetector defaultClipConfig).callAll Rat.sqrt eagerCalls).1.checkCooldown 50000 =
          true ↔
        0 < ((eagerDetector defaultClipConfig).callAll Rat.sqrt eagerCalls).1.last_clip_time_ ∧
        50000 - ((eagerDetector defaultClipConfig).callAll Rat.sqrt
            eagerCalls).1.last_clip_time_ <
          ((eagerDetector defaultClipConfig).callAll Rat.sqrt eagerCalls).1.config_.cooldown *
            1000) :=
  ⟨eagerCalls_clocks.2.2.1, (eager_run Rat.sqrt defaultClipConfig rfl).2.2.2.1,
    (eager_run Rat.sqrt defaultClipConfig rfl).2.2.2.2,
    (checkCooldown_iff Rat.sqrt defaultClipConfig (setupDefaultKeywords defaultMatcher)
      eagerScoringEngine eagerCalls eagerCalls_clocks.2.2.1 50000).2⟩

/-- Witness for C29: the same run; the two events start at -29 s and 10 s. -/
theorem emission_ordering_witness :
    ((eagerCalls.filterMap DetectorCall.emitClock).Pairwise (fun a b => a ≤ b)) ∧
      ((eagerDetector defaultClipConfig).callAll Rat.sqrt eagerCalls).2.map
        ClipEvent.start_time = [-29000, 10000] ∧
      (((eagerDetector defaultClipConfig).callAll Rat.sqrt eagerCalls).2.map
        ClipEvent.start_time).Pairwise (fun a b => a ≤ b) :=
  ⟨eagerCalls_clocks.2.2.2, (eager_run Rat.sqrt defaultClipConfig rfl).2.1,
    (emission_ordering Rat.sqrt (eagerDetector defaultClipConfig) eagerCalls
      eagerCalls_clocks.2.2.2).1⟩

/-- Witness for C36: the same run on two detectors that differ in `clip_duration`
(60 s, 20 s), `lookback` (30 s, 10 s) and `min_score` (0.7, 0): both emit twice, at
different event times, with the same score, keywords and category. -/
theorem emission_independent_of_timing_witness :
    ClipDetector.AgreeOffTiming (eagerDetector defaultClipConfig)
        (eagerDetector ⟨20, 10, 30, 0⟩) ∧
      ((eagerDetector defaultClipConfig).callAll Rat.sqrt eagerCalls).2.map
        ClipEvent.end_time = [31000, 70000] ∧
      ((eagerDetector ⟨20, 10, 30, 0⟩).callAll Rat.sqrt eagerCalls).2.map
        ClipEvent.end_time = [11000, 50000] ∧
      ((eagerDetector defaultClipConfig).callAll Rat.sqrt eagerCalls).2.map ClipEvent.payload =
        ((eagerDetector ⟨20, 10, 30, 0⟩).callAll Rat.sqrt eagerCalls).2.map
          ClipEvent.payload :=
  ⟨⟨rfl, rfl, rfl, rfl, rfl, rfl, rfl⟩, (eager_run Rat.sqrt defaultClipConfig rfl).1,
    (eager_run Rat.sqrt ⟨20, 10, 30, 0⟩ rfl).1,
    (emission_independent_of_timing Rat.sqrt (eagerDetector defaultClipConfig)
      (eagerDetector ⟨20, 10, 30, 0⟩) eagerCalls ⟨rfl, rfl, rfl, rfl, rfl, rfl, rfl⟩).1⟩

end chatclipper
